import Mathlib

/-!
# artdaq-core shared-memory ring buffer: `SharedMemoryManager` and
# `SharedMemoryFragmentManager`

A shallow embedding of `artdaq-core/Core/SharedMemoryManager.cc` and
`artdaq-core/Core/SharedMemoryFragmentManager.cc`.

Modelling conventions.

* The shared segment is a record: the header fields of `ShmStruct`, the
  descriptor array (`buffers`, indexed by buffer number) and the payload region
  (`data`, a byte memory whose offset 0 is `dataStart_()`).
* A call runs in the monad `Shm`: it takes the segment, returns a value or the
  category of the `cet::exception` it threw, and always returns the segment as
  the call left it (C++ exceptions do not roll back earlier stores).
* Calls are sequential: mutexes are not modelled, and the claim-then-verify
  re-read of `sem_id` sees the value just stored.
* `TimeUtils::gettimeofday_us()` is the parameter `now` of each call.
* `size_t`/`uint64_t` arithmetic on positions and sizes is taken modulo `2^64`.
  Buffer indices and the loop counter are naturals: faithful while
  `buffer_count < 2^31` and the hints are below `buffer_count`.
* Caller memory handed over through a `void*` is a byte memory `Nat → Nat`
  whose offset 0 is the pointer.
-/

namespace artdaq

/-- The four buffer states of `BufferSemaphoreFlags`. -/
inductive BufferSemaphoreFlags where
  | Empty
  | Writing
  | Full
  | Reading
deriving DecidableEq, Repr

/-- Categories of the `cet::exception`s thrown by the manager. -/
inductive Exn where
  | StateAccessViolation
  | OwnerAccessViolation
  | SharedMemoryWrite
  | SharedMemoryRead
  | ArgumentOutOfRange
  | LogicError
deriving DecidableEq, Repr

/-- Buffer descriptor `ShmBuffer`. -/
structure ShmBuffer where
  writePos : Nat
  readPos : Nat
  sem : BufferSemaphoreFlags
  sem_id : Int
  buffer_touch_time : Nat
deriving DecidableEq, Repr

/-- The mapped segment: header `ShmStruct`, descriptor array, payload region. -/
structure Segment where
  next_id : Nat
  reader_pos : Nat
  writer_pos : Nat
  buffer_size : Nat
  buffer_count : Nat
  ready_magic : Nat
  buffers : Nat → ShmBuffer
  data : Nat → Nat

/-- The per-process members of `SharedMemoryManager` that the operations read.
`shm_ptr_` records whether the pointer is non-null. -/
structure SharedMemoryManager where
  manager_id_ : Int
  buffer_timeout_us_ : Nat
  shm_ptr_ : Bool

/-- Wrap-around addition of `size_t`. -/
def add64 (a b : Nat) : Nat := (a + b) % 2 ^ 64

/-- Wrap-around subtraction of `uint64_t`. -/
def sub64 (a b : Nat) : Nat := (a + (2 ^ 64 - b % 2 ^ 64)) % 2 ^ 64

/-- Conversion of an `int` to `size_t` (sign extension). -/
def toSizeT : Int → Nat
  | Int.ofNat n => n
  | Int.negSucc n => 2 ^ 64 - 1 - n

/-- Bytes `[pos, pos + len)` of a memory, as a list. -/
def bytesOf (mem : Nat → Nat) (pos len : Nat) : List Nat :=
  (List.range len).map (fun i => mem (pos + i))

/-- Memory that holds the byte sequence `d` from offset 0 on (0 elsewhere). -/
def memOf (d : List Nat) : Nat → Nat := fun i => d.getD i 0

/-- The libc `memcpy(dst + dpos, src + spos, size)`: the result is the
destination memory afterwards. -/
def memcpy (dst : Nat → Nat) (dpos : Nat) (src : Nat → Nat) (spos : Nat) (size : Nat) :
    Nat → Nat :=
  fun k => if dpos ≤ k ∧ k < dpos + size then src (spos + (k - dpos)) else dst k

/-- A call on the segment: result or exception, and the segment afterwards. -/
def Shm (α : Type) : Type := Segment → Except Exn α × Segment

instance : Monad Shm where
  pure a := fun s => (Except.ok a, s)
  bind x f := fun s =>
    match x s with
    | (Except.ok a, s1) => f a s1
    | (Except.error e, s1) => (Except.error e, s1)

/-- The C++ `throw`. -/
def throwExn {α : Type} (e : Exn) : Shm α := fun s => (Except.error e, s)

/-- Read of a header field. -/
def hdr {α : Type} (f : Segment → α) : Shm α := fun s => (Except.ok (f s), s)

/-- Store into the segment. -/
def update (f : Segment → Segment) : Shm Unit := fun s => (Except.ok (), f s)

/-- Read of the descriptor at index `i`. -/
def load (i : Nat) : Shm ShmBuffer := fun s => (Except.ok (s.buffers i), s)

/-- Store through a descriptor pointer: `buf->field = v`. -/
def store (i : Nat) (f : ShmBuffer → ShmBuffer) : Shm Unit :=
  update (fun s => { s with buffers := Function.update s.buffers i (f (s.buffers i)) })

/-- Source `getBufferInfo_`: the descriptor of `buffer`, here its index. The
comparison is between `size_t` values. -/
def getBufferInfo_ (buffer : Int) : Shm Nat := do
  if toSizeT buffer ≥ (← hdr (·.buffer_count)) then
    throwExn Exn.ArgumentOutOfRange
  pure (toSizeT buffer)

/-- Source `dataStart_`, relative to the start of the payload region. -/
def dataStart_ : Nat := 0

/-- Source `bufferStart_`: offset of the payload of `buffer` in the payload
region. -/
def bufferStart_ (buffer : Int) : Shm Nat := do
  if toSizeT buffer ≥ (← hdr (·.buffer_count)) then
    throwExn Exn.ArgumentOutOfRange
  pure (dataStart_ + toSizeT buffer * (← hdr (·.buffer_size)))

/-- Source `checkBuffer_`. -/
def checkBuffer_ (m : SharedMemoryManager) (buffer : Nat) (flags : BufferSemaphoreFlags)
    (exceptions : Bool) : Shm Bool := do
  if exceptions then
    if (← load buffer).sem ≠ flags then throwExn Exn.StateAccessViolation
    if (← load buffer).sem_id ≠ m.manager_id_ then throwExn Exn.OwnerAccessViolation
  pure (decide ((← load buffer).sem_id = m.manager_id_ ∧ (← load buffer).sem = flags))

/-- Source `touchBuffer_`. -/
def touchBuffer_ (now : Nat) (buffer : Nat) : Shm Unit :=
  store buffer (fun b => { b with buffer_touch_time := now })

/-- Source `GetReadPos`. -/
def GetReadPos (now : Nat) (buffer : Int) : Shm Nat := do
  let buf ← getBufferInfo_ buffer
  touchBuffer_ now buf
  pure ((← bufferStart_ buffer) + (← load buf).readPos)

/-- Source `GetWritePos`. -/
def GetWritePos (now : Nat) (buffer : Int) : Shm Nat := do
  let buf ← getBufferInfo_ buffer
  touchBuffer_ now buf
  pure ((← bufferStart_ buffer) + (← load buf).writePos)

/-- Source `ResetBuffer`. -/
def ResetBuffer (m : SharedMemoryManager) (now : Nat) (buffer : Int) : Shm Unit := do
  let shmBuf ← getBufferInfo_ buffer
  if (← load shmBuf).sem_id ≠ m.manager_id_ ∧
      (← load shmBuf).buffer_touch_time > sub64 now m.buffer_timeout_us_ then
    pure ()
  else if (← load shmBuf).sem = BufferSemaphoreFlags.Reading then
    store shmBuf (fun b => { b with readPos := 0 })
    store shmBuf (fun b => { b with sem := BufferSemaphoreFlags.Full })
    store shmBuf (fun b => { b with sem_id := -1 })
  else if (← load shmBuf).sem = BufferSemaphoreFlags.Writing then
    store shmBuf (fun b => { b with writePos := 0 })
    store shmBuf (fun b => { b with sem := BufferSemaphoreFlags.Empty })
    store shmBuf (fun b => { b with sem_id := -1 })

/-- The `for` loop of `GetBufferForReading`; `n` is the number of iterations
left, `ii` the loop counter, `rp` the hint loaded before the loop. -/
def GetBufferForReading.loop (m : SharedMemoryManager) (now : Nat) (rp : Nat) :
    Nat → Nat → Shm Int
  | 0, _ => pure (-1)
  | n + 1, ii => do
    let buffer := (ii + rp) % (← hdr (·.buffer_count))
    ResetBuffer m now buffer
    let buf ← getBufferInfo_ buffer
    if (← load buf).sem = BufferSemaphoreFlags.Full ∧
        ((← load buf).sem_id = -1 ∨ (← load buf).sem_id = m.manager_id_) then
      store buf (fun b => { b with sem_id := m.manager_id_ })
      store buf (fun b => { b with sem := BufferSemaphoreFlags.Reading })
      if (← load buf).sem_id ≠ m.manager_id_ then
        GetBufferForReading.loop m now rp n (ii + 1)
      else
        store buf (fun b => { b with readPos := 0 })
        update (fun s => { s with reader_pos := (buffer + 1) % s.buffer_count })
        pure buffer
    else
      GetBufferForReading.loop m now rp n (ii + 1)

/-- Source `GetBufferForReading`. -/
def GetBufferForReading (m : SharedMemoryManager) (now : Nat) : Shm Int := do
  let rp ← hdr (·.reader_pos)
  GetBufferForReading.loop m now rp (← hdr (·.buffer_count)) 0

/-- The `for` loop of `GetBufferForWriting`; `n` is the number of iterations
left, `ii` the loop counter, `wp` the hint loaded before the loop. -/
def GetBufferForWriting.loop (m : SharedMemoryManager) (now : Nat) (overwrite : Bool)
    (wp : Nat) : Nat → Nat → Shm Int
  | 0, _ => pure (-1)
  | n + 1, ii => do
    let buffer := (ii + wp) % (← hdr (·.buffer_count))
    ResetBuffer m now buffer
    let buf ← getBufferInfo_ buffer
    if (← load buf).sem = BufferSemaphoreFlags.Empty ∨
        (overwrite = true ∧ (← load buf).sem ≠ BufferSemaphoreFlags.Writing) then
      store buf (fun b => { b with sem_id := m.manager_id_ })
      store buf (fun b => { b with sem := BufferSemaphoreFlags.Writing })
      if (← load buf).sem_id ≠ m.manager_id_ then
        GetBufferForWriting.loop m now overwrite wp n (ii + 1)
      else
        store buf (fun b => { b with writePos := 0 })
        update (fun s => { s with writer_pos := (buffer + 1) % s.buffer_count })
        pure buffer
    else
      GetBufferForWriting.loop m now overwrite wp n (ii + 1)

/-- Source `GetBufferForWriting`. -/
def GetBufferForWriting (m : SharedMemoryManager) (now : Nat) (overwrite : Bool) :
    Shm Int := do
  let wp ← hdr (·.writer_pos)
  GetBufferForWriting.loop m now overwrite wp (← hdr (·.buffer_count)) 0

/-- The `for` loop of `ReadyForRead`; `n` is the number of iterations left,
`ii` the loop counter, `rp` the hint loaded before the loop. -/
def ReadyForRead.loop (m : SharedMemoryManager) (rp : Nat) : Nat → Nat → Shm Bool
  | 0, _ => pure false
  | n + 1, ii => do
    let buffer := (ii + rp) % (← hdr (·.buffer_count))
    let buf ← getBufferInfo_ buffer
    if (← load buf).sem = BufferSemaphoreFlags.Full ∧
        ((← load buf).sem_id = -1 ∨ (← load buf).sem_id = m.manager_id_) then
      pure true
    else
      ReadyForRead.loop m rp n (ii + 1)

/-- Source `ReadyForRead`. -/
def ReadyForRead (m : SharedMemoryManager) : Shm Bool := do
  let rp ← hdr (·.reader_pos)
  ReadyForRead.loop m rp (← hdr (·.buffer_count)) 0

/-- The `for` loop of `ReadReadyCount`; `n` is the number of iterations left,
`ii` the loop counter, `count` the running count. -/
def ReadReadyCount.loop (m : SharedMemoryManager) : Nat → Nat → Nat → Shm Nat
  | 0, _, count => pure count
  | n + 1, ii, count => do
    let buf ← getBufferInfo_ ii
    if (← load buf).sem = BufferSemaphoreFlags.Full ∧
        ((← load buf).sem_id = -1 ∨ (← load buf).sem_id = m.manager_id_) then
      ReadReadyCount.loop m n (ii + 1) (count + 1)
    else
      ReadReadyCount.loop m n (ii + 1) count

/-- Source `ReadReadyCount`. -/
def ReadReadyCount (m : SharedMemoryManager) : Shm Nat := do
  ReadReadyCount.loop m (← hdr (·.buffer_count)) 0 0

/-- The `for` loop of `ReadyForWrite`; `n` is the number of iterations left,
`ii` the loop counter, `wp` the hint loaded before the loop. -/
def ReadyForWrite.loop (overwrite : Bool) (wp : Nat) : Nat → Nat → Shm Bool
  | 0, _ => pure false
  | n + 1, ii => do
    let buffer := (ii + wp) % (← hdr (·.buffer_count))
    let buf ← getBufferInfo_ buffer
    if ((← load buf).sem = BufferSemaphoreFlags.Empty ∧ (← load buf).sem_id = -1) ∨
        (overwrite = true ∧ (← load buf).sem ≠ BufferSemaphoreFlags.Writing) then
      pure true
    else
      ReadyForWrite.loop overwrite wp n (ii + 1)

/-- Source `ReadyForWrite`. -/
def ReadyForWrite (overwrite : Bool) : Shm Bool := do
  let wp ← hdr (·.writer_pos)
  ReadyForWrite.loop overwrite wp (← hdr (·.buffer_count)) 0

/-- The `for` loop of `WriteReadyCount`; `n` is the number of iterations left,
`ii` the loop counter, `count` the running count. -/
def WriteReadyCount.loop (overwrite : Bool) : Nat → Nat → Nat → Shm Nat
  | 0, _, count => pure count
  | n + 1, ii, count => do
    let buf ← getBufferInfo_ ii
    if ((← load buf).sem = BufferSemaphoreFlags.Empty ∧ (← load buf).sem_id = -1) ∨
        (overwrite = true ∧ (← load buf).sem ≠ BufferSemaphoreFlags.Writing) then
      WriteReadyCount.loop overwrite n (ii + 1) (count + 1)
    else
      WriteReadyCount.loop overwrite n (ii + 1) count

/-- Source `WriteReadyCount`. -/
def WriteReadyCount (overwrite : Bool) : Shm Nat := do
  WriteReadyCount.loop overwrite (← hdr (·.buffer_count)) 0 0

/-- Source `ResetReadPos`. -/
def ResetReadPos (now : Nat) (buffer : Int) : Shm Unit := do
  let buf ← getBufferInfo_ buffer
  touchBuffer_ now buf
  store buf (fun b => { b with readPos := 0 })

/-- Source `IncrementReadPos`: the position is advanced before the zero check. -/
def IncrementReadPos (now : Nat) (buffer : Int) (read : Nat) : Shm Unit := do
  let buf ← getBufferInfo_ buffer
  touchBuffer_ now buf
  store buf (fun b => { b with readPos := add64 b.readPos read })
  if read = 0 then throwExn Exn.LogicError

/-- Source `IncrementWritePos`: the position is advanced before the zero
check. -/
def IncrementWritePos (now : Nat) (buffer : Int) (written : Nat) : Shm Unit := do
  let buf ← getBufferInfo_ buffer
  touchBuffer_ now buf
  store buf (fun b => { b with writePos := add64 b.writePos written })
  if written = 0 then throwExn Exn.LogicError

/-- Source `MarkBufferFull`. -/
def MarkBufferFull (m : SharedMemoryManager) (now : Nat) (buffer : Int) (destination : Int) :
    Shm Unit := do
  let shmBuf ← getBufferInfo_ buffer
  let _ ← checkBuffer_ m shmBuf BufferSemaphoreFlags.Writing true
  touchBuffer_ now shmBuf
  store shmBuf (fun b => { b with sem_id := destination })
  store shmBuf (fun b => { b with sem := BufferSemaphoreFlags.Full })

/-- Source `MarkBufferEmpty`. -/
def MarkBufferEmpty (m : SharedMemoryManager) (now : Nat) (buffer : Int) : Shm Unit := do
  let shmBuf ← getBufferInfo_ buffer
  let _ ← checkBuffer_ m shmBuf BufferSemaphoreFlags.Reading true
  touchBuffer_ now shmBuf
  store shmBuf (fun b => { b with readPos := 0 })
  store shmBuf (fun b => { b with writePos := 0 })
  store shmBuf (fun b => { b with sem_id := -1 })
  store shmBuf (fun b => { b with sem := BufferSemaphoreFlags.Empty })

/-- Source `Write`. `data` is the caller memory behind the `void*`. -/
def Write (m : SharedMemoryManager) (now : Nat) (buffer : Int) (data : Nat → Nat)
    (size : Nat) : Shm Nat := do
  let shmBuf ← getBufferInfo_ buffer
  let _ ← checkBuffer_ m shmBuf BufferSemaphoreFlags.Writing true
  touchBuffer_ now shmBuf
  if add64 (← load shmBuf).writePos size > (← hdr (·.buffer_size)) then
    throwExn Exn.SharedMemoryWrite
  let pos ← GetWritePos now buffer
  update (fun s => { s with data := memcpy s.data pos data 0 size })
  store shmBuf (fun b => { b with writePos := add64 b.writePos size })
  pure size

/-- Source `Read`. `data` is the caller memory and `off` the offset in it that
the `void*` points to; the result carries the caller memory after the copy. -/
def Read (m : SharedMemoryManager) (now : Nat) (buffer : Int) (data : Nat → Nat) (off : Nat)
    (size : Nat) : Shm (Bool × (Nat → Nat)) := do
  let shmBuf ← getBufferInfo_ buffer
  let _ ← checkBuffer_ m shmBuf BufferSemaphoreFlags.Reading true
  touchBuffer_ now shmBuf
  if add64 (← load shmBuf).readPos size > (← hdr (·.buffer_size)) then
    throwExn Exn.SharedMemoryRead
  let pos ← GetReadPos now buffer
  let data := memcpy data off (← hdr (·.data)) pos size
  store shmBuf (fun b => { b with readPos := add64 b.readPos size })
  pure (← checkBuffer_ m shmBuf BufferSemaphoreFlags.Reading false, data)

/-- The loop of the constructor that initialises the descriptors; `n` is the
number of iterations left, `ii` the loop counter. -/
def SharedMemoryManager.init.loop : Nat → Nat → Shm Unit
  | 0, _ => pure ()
  | n + 1, ii => do
    store (← getBufferInfo_ ii) (fun b => { b with writePos := 0 })
    store (← getBufferInfo_ ii) (fun b => { b with readPos := 0 })
    store (← getBufferInfo_ ii) (fun b => { b with sem := BufferSemaphoreFlags.Empty })
    store (← getBufferInfo_ ii) (fun b => { b with sem_id := -1 })
    SharedMemoryManager.init.loop n (ii + 1)

/-- The creator branch of the constructor (`manager_id_ == 0`), run on the
segment as `shmget`/`shmat` delivered it. -/
def SharedMemoryManager.init (buffer_count max_buffer_size : Nat) : Shm Unit := do
  update (fun s => { s with next_id := 1 })
  update (fun s => { s with reader_pos := 0 })
  update (fun s => { s with writer_pos := 0 })
  update (fun s => { s with buffer_size := max_buffer_size })
  update (fun s => { s with buffer_count := buffer_count })
  SharedMemoryManager.init.loop buffer_count 0
  update (fun s => { s with ready_magic := 0xCAFE1111 })

/-- A segment as the kernel hands it to the creator: all bytes zero. -/
def zeroSegment : Segment :=
  { next_id := 0, reader_pos := 0, writer_pos := 0, buffer_size := 0, buffer_count := 0,
    ready_magic := 0,
    buffers := fun _ =>
      { writePos := 0, readPos := 0, sem := BufferSemaphoreFlags.Empty, sem_id := 0,
        buffer_touch_time := 0 },
    data := fun _ => 0 }

/-- The segment right after its creator's constructor has run. -/
def freshSegment (buffer_count max_buffer_size : Nat) : Segment :=
  (SharedMemoryManager.init buffer_count max_buffer_size zeroSegment).2

/-- Modelled from the spec: the constants of the fragment collaborator
(`Fragment.hh`, `RawFragmentHeader.hh`) that the fragment layer uses:
`RawFragmentHeader::num_words()` (the header word count `H`),
`sizeof(RawDataType)`, and the total fragment size in words that the header
bytes describe (what `autoResize()` consults). -/
structure FragmentLayout where
  num_words : Nat
  sizeofRawDataType : Nat
  word_count : (Nat → Nat) → Nat

/-- Modelled from the spec: a fragment object of the data collaborator: its
backing storage as a byte memory whose offset 0 is `headerAddress()`, and its
size in words (total, header included). -/
structure Fragment where
  mem : Nat → Nat
  size : Nat

/-- Modelled from the spec: `Fragment::resizeBytes`, "the ability to resize its
backing storage in bytes": the body is given room for `szbytes` bytes, rounded up
to whole words, after the header. -/
def Fragment.resizeBytes (L : FragmentLayout) (f : Fragment) (szbytes : Nat) : Fragment :=
  { f with size := L.num_words + (szbytes + L.sizeofRawDataType - 1) / L.sizeofRawDataType }

/-- Modelled from the spec: `Fragment::autoResize`, the "auto-size from header"
operation that inspects bytes already read into the header region. -/
def Fragment.autoResize (L : FragmentLayout) (f : Fragment) : Fragment :=
  { f with size := L.word_count f.mem }

/-- Modelled from the spec: `IsValid()`, whether construction attached the
segment. -/
def IsValid (m : SharedMemoryManager) : Bool := m.shm_ptr_

/-- Source `SharedMemoryFragmentManager::WriteFragment`; `MarkBufferFull` is
called with its default destination `-1`. -/
def WriteFragment (L : FragmentLayout) (m : SharedMemoryManager) (now : Nat)
    (fragment : Fragment) (overwrite : Bool) : Shm Int := do
  if !IsValid m then
    pure (-1)
  else
    let fragAddr := fragment.mem
    let fragSize := (fragment.size * L.sizeofRawDataType) % 2 ^ 64
    let buf ← GetBufferForWriting m now overwrite
    let sts ← Write m now buf fragAddr fragSize
    if sts = fragSize then
      MarkBufferFull m now buf (-1)
      pure 0
    else
      pure (-2)

/-- Source `SharedMemoryFragmentManager::ReadFragment`. The result carries the
fragment as the call left it. The second `Read` gets the pointer
`headerAddress() + hdrSize`, which on a `RawDataType*` is `hdrSize` words past
the header address; its status is `Read(...) + hdrSize` converted to `bool`. -/
def ReadFragment (L : FragmentLayout) (m : SharedMemoryManager) (now : Nat)
    (fragment : Fragment) : Shm (Int × Fragment) := do
  if !IsValid m then
    pure (-1, fragment)
  else
    let hdrSize := (L.num_words * L.sizeofRawDataType) % 2 ^ 64
    let fragment := fragment.resizeBytes L 0
    let buf ← GetBufferForReading m now
    let (sts, mem) ← Read m now buf fragment.mem 0 hdrSize
    let fragment := { fragment with mem := mem }
    if !sts then
      pure (-1, fragment)
    else
      let fragment := fragment.autoResize L
      let (sts, mem) ← Read m now buf fragment.mem (hdrSize * L.sizeofRawDataType) hdrSize
      let fragment := { fragment with mem := mem }
      let sts := decide (add64 sts.toNat hdrSize ≠ 0)
      if !sts then
        pure (-1, fragment)
      else
        MarkBufferEmpty m now buf
        pure (0, fragment)

/-- Source `SharedMemoryFragmentManager::ReadFragmentHeader`. `header` is the
memory of the caller's `RawFragmentHeader`; the result carries it as the call
left it. -/
def ReadFragmentHeader (L : FragmentLayout) (m : SharedMemoryManager) (now : Nat)
    (header : Nat → Nat) : Shm (Int × (Nat → Nat)) := do
  if !IsValid m then
    pure (-1, header)
  else
    let hdrSize := (L.num_words * L.sizeofRawDataType) % 2 ^ 64
    let buf ← GetBufferForReading m now
    let (sts, header) ← Read m now buf header 0 hdrSize
    if !sts then
      pure (-1, header)
    else
      MarkBufferEmpty m now buf
      pure (0, header)

/-- Source `SharedMemoryFragmentManager::ReadFragmentData`. `destination` is
the caller memory behind the `RawDataType*`; the result carries it as the call
left it. -/
def ReadFragmentData (L : FragmentLayout) (m : SharedMemoryManager) (now : Nat)
    (destination : Nat → Nat) (words : Nat) : Shm (Int × (Nat → Nat)) := do
  if !IsValid m then
    pure (-1, destination)
  else
    let buf ← GetBufferForReading m now
    let (sts, destination) ← Read m now buf destination 0
      ((words * L.sizeofRawDataType) % 2 ^ 64)
    if !sts then
      pure (-1, destination)
    else
      MarkBufferEmpty m now buf
      pure (0, destination)

/-- Little-endian byte memory of a sequence of 64-bit words. -/
def wordsToMem (ws : List Nat) : Nat → Nat :=
  fun k => ws.getD (k / 8) 0 / 256 ^ (k % 8) % 256

/-- The 64-bit little-endian word at word index `i` of a byte memory. -/
def wordAt (mem : Nat → Nat) (i : Nat) : Nat :=
  ((List.range 8).map (fun j => mem (8 * i + j) * 256 ^ j)).sum

/-- Modelled from the spec: an instance of the fragment constants for the
concrete scenarios (the real ones are fixed by `RawFragmentHeader.hh`): a
header of two 64-bit words, the total word count in word 0 and the sequence ID
in word 1. -/
def testLayout : FragmentLayout :=
  { num_words := 2, sizeofRawDataType := 8, word_count := fun mem => wordAt mem 0 }

/-- A fragment under `testLayout` with the given sequence ID and body words. -/
def testFragment (sequenceID : Nat) (body : List Nat) : Fragment :=
  { mem := wordsToMem ((2 + body.length) :: sequenceID :: body), size := 2 + body.length }

/-- The descriptor that `ResetBuffer`, run by manager `m` at time `now`, leaves
in place of descriptor `b` (used to state what the searches do). -/
def resetDesc (m : SharedMemoryManager) (now : Nat) (b : ShmBuffer) : ShmBuffer :=
  if b.sem_id ≠ m.manager_id_ ∧ b.buffer_touch_time > sub64 now m.buffer_timeout_us_ then b
  else if b.sem = BufferSemaphoreFlags.Reading then
    { b with readPos := 0, sem := BufferSemaphoreFlags.Full, sem_id := -1 }
  else if b.sem = BufferSemaphoreFlags.Writing then
    { b with writePos := 0, sem := BufferSemaphoreFlags.Empty, sem_id := -1 }
  else b

/-- Segment `s` with the descriptor of buffer `i` replaced by `b`. -/
def Segment.setBuffer (s : Segment) (i : Nat) (b : ShmBuffer) : Segment :=
  { s with buffers := Function.update s.buffers i b }

/-- The test under which `GetBufferForReading`, run by `m`, claims a buffer
with descriptor `b`. -/
def readable (m : SharedMemoryManager) (b : ShmBuffer) : Prop :=
  b.sem = BufferSemaphoreFlags.Full ∧ (b.sem_id = -1 ∨ b.sem_id = m.manager_id_)

instance (m : SharedMemoryManager) (b : ShmBuffer) : Decidable (readable m b) := by
  unfold readable
  infer_instance

/-- Byte `k` of the payload of buffer `buffer`: the byte at
`bufferStart_(buffer) + k`. -/
def Segment.payload (s : Segment) (buffer k : Nat) : Nat :=
  s.data (dataStart_ + buffer * s.buffer_size + k)

/-- The creator of a segment (manager ID 0), with a timeout of 1000 µs. -/
def managerA : SharedMemoryManager :=
  { manager_id_ := 0, buffer_timeout_us_ := 1000, shm_ptr_ := true }

/-- An attached manager with ID 1. -/
def managerB : SharedMemoryManager :=
  { manager_id_ := 1, buffer_timeout_us_ := 1000, shm_ptr_ := true }

/-- An attached manager with ID 2. -/
def managerC : SharedMemoryManager :=
  { manager_id_ := 2, buffer_timeout_us_ := 1000, shm_ptr_ := true }

/-- A segment of two buffers of 16 bytes with the given descriptors; payload
byte at offset `k` is `k % 256`. -/
def twoBuffers (b0 b1 : ShmBuffer) : Segment :=
  { next_id := 3, reader_pos := 0, writer_pos := 0, buffer_size := 16, buffer_count := 2,
    ready_magic := 0xCAFE1111,
    buffers := fun j => if j = 0 then b0 else b1,
    data := fun k => k % 256 }

/-- Two buffers: buffer 0 is being written by manager 0 (4 bytes so far),
buffer 1 is Empty. -/
def segWriting : Segment :=
  twoBuffers ⟨4, 0, BufferSemaphoreFlags.Writing, 0, 5⟩ ⟨0, 0, BufferSemaphoreFlags.Empty, -1, 0⟩

/-- Two buffers: buffer 0 is being read by manager 0 (8 bytes written, 2
read), buffer 1 is Empty. -/
def segReading : Segment :=
  twoBuffers ⟨8, 2, BufferSemaphoreFlags.Reading, 0, 5⟩ ⟨0, 0, BufferSemaphoreFlags.Empty, -1, 0⟩

/-- Two buffers: buffer 0 is in Reading, held by manager 0, which touched it
last at time 5; buffer 1 is Full with destination manager 2. -/
def segTargeted : Segment :=
  twoBuffers ⟨8, 2, BufferSemaphoreFlags.Reading, 0, 5⟩ ⟨8, 0, BufferSemaphoreFlags.Full, 2, 5⟩

/-- A default-constructed destination fragment: no words, storage all zero. -/
def emptyFragment : Fragment := { mem := fun _ => 0, size := 0 }

/-- The segment after manager 0 has written the fragment with sequence ID 42
and body `[1, 2, 3]` into a fresh segment of 4 buffers of 1024 bytes. -/
def segOneFragment : Segment :=
  (WriteFragment testLayout managerA 10 (testFragment 42 [1, 2, 3]) false
    (freshSegment 4 1024)).2

/-- The test under which `GetBufferForWriting(overwrite)` claims a buffer with
descriptor `b`. -/
def writable (overwrite : Bool) (b : ShmBuffer) : Prop :=
  b.sem = BufferSemaphoreFlags.Empty ∨
    (overwrite = true ∧ b.sem ≠ BufferSemaphoreFlags.Writing)

instance (overwrite : Bool) (b : ShmBuffer) : Decidable (writable overwrite b) := by
  unfold writable
  infer_instance

/-- The descriptor of buffer `i` after `ResetBuffer(i)` has been run by `m` at
time `now` on segment `s`. -/
def afterReset (m : SharedMemoryManager) (now : Nat) (s : Segment) (i : Nat) : ShmBuffer :=
  (ResetBuffer m now (i : Int) s).2.buffers i

/-- Two buffers, both Full with destination -1 (nobody is reading). -/
def segAllFull : Segment :=
  twoBuffers ⟨8, 0, BufferSemaphoreFlags.Full, -1, 5⟩ ⟨8, 0, BufferSemaphoreFlags.Full, -1, 5⟩

/-- Two buffers: buffer 0 was left in Writing by manager 0, whose last touch
was at time 5; buffer 1 is Full with destination -1. -/
def segAbandoned : Segment :=
  twoBuffers ⟨4, 0, BufferSemaphoreFlags.Writing, 0, 5⟩ ⟨8, 0, BufferSemaphoreFlags.Full, -1, 5⟩

/-- One write/mark/read/mark cycle of a single manager:
`GetBufferForWriting(false); MarkBufferFull; GetBufferForReading;
MarkBufferEmpty`, with the clock readings of the four calls. The result is the
pair of the buffer acquired for writing and the buffer acquired for reading. -/
def cycle (m : SharedMemoryManager) (t1 t2 t3 t4 : Nat) : Shm (Int × Int) := do
  let b ← GetBufferForWriting m t1 false
  MarkBufferFull m t2 b (-1)
  let r ← GetBufferForReading m t3
  MarkBufferEmpty m t4 r
  pure (b, r)

/-- The segment after `k` cycles of manager `m` on a fresh segment of `n`
buffers of `S` bytes; the `j`-th call reads the clock as `clk j`. -/
def afterCycles (m : SharedMemoryManager) (clk : Nat → Nat) (n S : Nat) : Nat → Segment
  | 0 => freshSegment n S
  | k + 1 =>
    (cycle m (clk (4 * k)) (clk (4 * k + 1)) (clk (4 * k + 2)) (clk (4 * k + 3))
      (afterCycles m clk n S k)).2

/-- The outcome of the `k`-th cycle (`k = 0, 1, ...`). -/
def kthCycle (m : SharedMemoryManager) (clk : Nat → Nat) (n S k : Nat) :
    Except Exn (Int × Int) :=
  (cycle m (clk (4 * k)) (clk (4 * k + 1)) (clk (4 * k + 2)) (clk (4 * k + 3))
    (afterCycles m clk n S k)).1

/-- The buffer index a cycle acquired for writing, if the cycle did not throw. -/
def acquiredIndex (r : Except Exn (Int × Int)) : Option Int :=
  match r with
  | Except.ok (b, _) => some b
  | Except.error _ => none

/-- A call of one of the public operations of `SharedMemoryManager` that can
change the segment, with its arguments (manager, clock reading, parameters). -/
inductive Op where
  | getBufferForWriting (m : SharedMemoryManager) (now : Nat) (overwrite : Bool)
  | getBufferForReading (m : SharedMemoryManager) (now : Nat)
  | write (m : SharedMemoryManager) (now : Nat) (buffer : Int) (data : Nat → Nat) (size : Nat)
  | read (m : SharedMemoryManager) (now : Nat) (buffer : Int) (data : Nat → Nat)
      (off size : Nat)
  | markBufferFull (m : SharedMemoryManager) (now : Nat) (buffer : Int) (destination : Int)
  | markBufferEmpty (m : SharedMemoryManager) (now : Nat) (buffer : Int)
  | resetBuffer (m : SharedMemoryManager) (now : Nat) (buffer : Int)
  | incrementReadPos (now : Nat) (buffer : Int) (read : Nat)
  | incrementWritePos (now : Nat) (buffer : Int) (written : Nat)
  | resetReadPos (now : Nat) (buffer : Int)

/-- Outcome of a call with its return value dropped: whether it threw, and the
segment afterwards. -/
def outcome {α : Type} (x : Shm α) (s : Segment) : Except Exn Unit × Segment :=
  ((x s).1.map (fun _ => ()), (x s).2)

/-- Running a call on a segment. -/
def Op.run : Op → Segment → Except Exn Unit × Segment
  | Op.getBufferForWriting m now overwrite => outcome (GetBufferForWriting m now overwrite)
  | Op.getBufferForReading m now => outcome (GetBufferForReading m now)
  | Op.write m now buffer data size => outcome (Write m now buffer data size)
  | Op.read m now buffer data off size => outcome (Read m now buffer data off size)
  | Op.markBufferFull m now buffer destination =>
    outcome (MarkBufferFull m now buffer destination)
  | Op.markBufferEmpty m now buffer => outcome (MarkBufferEmpty m now buffer)
  | Op.resetBuffer m now buffer => outcome (ResetBuffer m now buffer)
  | Op.incrementReadPos now buffer nread => outcome (IncrementReadPos now buffer nread)
  | Op.incrementWritePos now buffer written => outcome (IncrementWritePos now buffer written)
  | Op.resetReadPos now buffer => outcome (ResetReadPos now buffer)

/-- What one call can do to one descriptor: `descStep op S b b1` lists the
descriptors `b1` that a descriptor `b` can become when `op` runs on a segment
with `buffer_size = S`. -/
def Op.descStep : Op → Nat → ShmBuffer → ShmBuffer → Prop
  | Op.getBufferForWriting m now overwrite, _, b, b1 =>
    b1 = b ∨ b1 = resetDesc m now b ∨
      (writable overwrite (resetDesc m now b) ∧
        b1 = { (resetDesc m now b) with
          sem_id := m.manager_id_, sem := BufferSemaphoreFlags.Writing, writePos := 0 })
  | Op.getBufferForReading m now, _, b, b1 =>
    b1 = b ∨ b1 = resetDesc m now b ∨
      (readable m (resetDesc m now b) ∧
        b1 = { (resetDesc m now b) with
          sem_id := m.manager_id_, sem := BufferSemaphoreFlags.Reading, readPos := 0 })
  | Op.write _ now _ _ size, S, b, b1 =>
    b1 = b ∨ b1 = { b with buffer_touch_time := now } ∨
      (add64 b.writePos size ≤ S ∧
        b1 = { b with buffer_touch_time := now, writePos := add64 b.writePos size })
  | Op.read _ now _ _ _ size, S, b, b1 =>
    b1 = b ∨ b1 = { b with buffer_touch_time := now } ∨
      (add64 b.readPos size ≤ S ∧
        b1 = { b with buffer_touch_time := now, readPos := add64 b.readPos size })
  | Op.markBufferFull _ now _ destination, _, b, b1 =>
    b1 = b ∨
      (b.sem = BufferSemaphoreFlags.Writing ∧
        b1 = { b with
          buffer_touch_time := now, sem_id := destination, sem := BufferSemaphoreFlags.Full })
  | Op.markBufferEmpty _ now _, _, b, b1 =>
    b1 = b ∨
      (b.sem = BufferSemaphoreFlags.Reading ∧
        b1 = { readPos := 0, writePos := 0, sem_id := -1, sem := BufferSemaphoreFlags.Empty,
               buffer_touch_time := now })
  | Op.resetBuffer m now _, _, b, b1 => b1 = b ∨ b1 = resetDesc m now b
  | Op.incrementReadPos now _ nread, _, b, b1 =>
    b1 = b ∨ b1 = { b with buffer_touch_time := now, readPos := add64 b.readPos nread }
  | Op.incrementWritePos now _ written, _, b, b1 =>
    b1 = b ∨ b1 = { b with buffer_touch_time := now, writePos := add64 b.writePos written }
  | Op.resetReadPos now _, _, b, b1 =>
    b1 = b ∨ b1 = { b with buffer_touch_time := now, readPos := 0 }

/-- The six edges of the buffer state machine. -/
def allowedEdge (a b : BufferSemaphoreFlags) : Prop :=
  (a = BufferSemaphoreFlags.Empty ∧ b = BufferSemaphoreFlags.Writing) ∨
  (a = BufferSemaphoreFlags.Writing ∧ b = BufferSemaphoreFlags.Full) ∨
  (a = BufferSemaphoreFlags.Full ∧ b = BufferSemaphoreFlags.Reading) ∨
  (a = BufferSemaphoreFlags.Reading ∧ b = BufferSemaphoreFlags.Empty) ∨
  (a = BufferSemaphoreFlags.Writing ∧ b = BufferSemaphoreFlags.Empty) ∨
  (a = BufferSemaphoreFlags.Reading ∧ b = BufferSemaphoreFlags.Full)

instance (a b : BufferSemaphoreFlags) : Decidable (allowedEdge a b) := by
  unfold allowedEdge
  infer_instance

/-- The call is `GetBufferForWriting(true)`. -/
def Op.isOverwrite : Op → Prop
  | Op.getBufferForWriting _ _ overwrite => overwrite = true
  | _ => False

/-- The call is `IncrementReadPos` or `IncrementWritePos`. -/
def Op.isIncrement : Op → Prop
  | Op.incrementReadPos _ _ _ => True
  | Op.incrementWritePos _ _ _ => True
  | _ => False

/-- The manager that makes the call, if the call reads `manager_id_`, has a
non-negative ID. -/
def Op.managerIdNonneg : Op → Prop
  | Op.getBufferForWriting m _ _ => 0 ≤ m.manager_id_
  | Op.getBufferForReading m _ => 0 ≤ m.manager_id_
  | Op.write m _ _ _ _ => 0 ≤ m.manager_id_
  | Op.read m _ _ _ _ _ => 0 ≤ m.manager_id_
  | Op.markBufferFull m _ _ _ => 0 ≤ m.manager_id_
  | Op.markBufferEmpty m _ _ => 0 ≤ m.manager_id_
  | Op.resetBuffer m _ _ => 0 ≤ m.manager_id_
  | _ => True

/-- Segments reachable from the freshly created segment of `n` buffers of `S`
bytes by a sequence of calls that satisfy `P`, whether or not a call throws. -/
inductive ReachableBy (P : Op → Prop) (n S : Nat) : Segment → Prop where
  | fresh : ReachableBy P n S (freshSegment n S)
  | step (s : Segment) (op : Op) : ReachableBy P n S s → P op →
      ReachableBy P n S (op.run s).2

/-- Running a sequence of calls, stopping at the first one that throws. -/
def runAll : List Op → Segment → Except Exn Unit × Segment
  | [], s => (Except.ok (), s)
  | op :: ops, s =>
    match op.run s with
    | (Except.ok _, s1) => runAll ops s1
    | (Except.error e, s1) => (Except.error e, s1)

/-- Manager 0 writes 3 bytes into buffer 0, marks it Full, acquires it for
reading and reads 10 bytes. -/
def opsReadPastWritten : List Op :=
  [Op.getBufferForWriting managerA 1 false,
   Op.write managerA 2 0 (memOf [7, 8, 9]) 3,
   Op.markBufferFull managerA 3 0 (-1),
   Op.getBufferForReading managerA 4,
   Op.read managerA 5 0 (fun _ => 0) 0 10]

/-- Manager 0 acquires buffer 0 for writing and advances its write position
by 100. -/
def opsIncrementPastEnd : List Op :=
  [Op.getBufferForWriting managerA 1 false,
   Op.incrementWritePos 2 0 100]

/-- The segment after manager 0 has, on a fresh segment of 2 buffers of 16
bytes, acquired buffer 0 for writing and marked it Full with destination 5. -/
def segMarkedForFive : Segment :=
  ((Op.markBufferFull managerA 2 0 5).run
    ((Op.getBufferForWriting managerA 1 false).run (freshSegment 2 16)).2).2

/-- A manager whose constructor did not attach the segment (`shm_ptr_` is
null). -/
def managerDetached : SharedMemoryManager :=
  { manager_id_ := -1, buffer_timeout_us_ := 1000, shm_ptr_ := false }

/-- The sizes of the two structures that head the segment, `sizeof(ShmStruct)`
and `sizeof(ShmBuffer)`. -/
structure ShmSizes where
  sizeofShmStruct : Nat
  sizeofShmBuffer : Nat

/-- The `shmSize` that the constructor passes to `shmget`. -/
def shmSize (z : ShmSizes) (buffer_count max_buffer_size : Nat) : Nat :=
  buffer_count * (max_buffer_size + z.sizeofShmBuffer) + z.sizeofShmStruct

/-- Offset in the segment of the pointer that source `getBufferInfo_` returns:
`(shm_ptr_ + 1) + buffer * sizeof(ShmBuffer)`. -/
def getBufferInfoOffset (z : ShmSizes) (buffer : Nat) : Nat :=
  z.sizeofShmStruct + buffer * z.sizeofShmBuffer

/-- Offset in the segment of the pointer that source `dataStart_` returns:
`(shm_ptr_ + 1) + buffer_count * sizeof(ShmBuffer)`. The byte `s.data k` of the
payload region is the byte of the segment at `dataStartOffset z s + k`. -/
def dataStartOffset (z : ShmSizes) (s : Segment) : Nat :=
  z.sizeofShmStruct + s.buffer_count * z.sizeofShmBuffer

/-- Offset in the segment of the pointer that source `bufferStart_` returns:
`dataStart_() + buffer * buffer_size`. -/
def bufferStartOffset (z : ShmSizes) (s : Segment) (buffer : Nat) : Nat :=
  dataStartOffset z s + buffer * s.buffer_size

@[simp] theorem Shm.pure_apply {α : Type} (a : α) (s : Segment) :
    (pure a : Shm α) s = (Except.ok a, s) := rfl

@[simp] theorem Shm.bind_apply {α β : Type} (x : Shm α) (f : α → Shm β) (s : Segment) :
    (x >>= f) s =
      match x s with
      | (Except.ok a, s1) => f a s1
      | (Except.error e, s1) => (Except.error e, s1) := rfl

@[simp] theorem throwExn_apply {α : Type} (e : Exn) (s : Segment) :
    (throwExn e : Shm α) s = (Except.error e, s) := rfl

@[simp] theorem hdr_apply {α : Type} (f : Segment → α) (s : Segment) :
    hdr f s = (Except.ok (f s), s) := rfl

@[simp] theorem update_apply (f : Segment → Segment) (s : Segment) :
    update f s = (Except.ok (), f s) := rfl

@[simp] theorem load_apply (i : Nat) (s : Segment) :
    load i s = (Except.ok (s.buffers i), s) := rfl

@[simp] theorem store_apply (i : Nat) (f : ShmBuffer → ShmBuffer) (s : Segment) :
    store i f s =
      (Except.ok (), { s with buffers := Function.update s.buffers i (f (s.buffers i)) }) := rfl

@[simp] theorem toSizeT_natCast (n : Nat) : toSizeT (n : Int) = n := rfl

theorem getBufferInfo_apply (i : Nat) (s : Segment) :
    getBufferInfo_ (i : Int) s =
      if s.buffer_count ≤ i then (Except.error Exn.ArgumentOutOfRange, s)
      else (Except.ok i, s) := by
  simp only [getBufferInfo_, Shm.bind_apply, hdr_apply, toSizeT_natCast, ge_iff_le]
  split <;> simp

theorem bufferStart_apply (i : Nat) (s : Segment) :
    bufferStart_ (i : Int) s =
      if s.buffer_count ≤ i then (Except.error Exn.ArgumentOutOfRange, s)
      else (Except.ok (i * s.buffer_size), s) := by
  simp only [bufferStart_, dataStart_, Shm.bind_apply, hdr_apply, toSizeT_natCast, ge_iff_le]
  split <;> simp

theorem checkBuffer_true_apply (m : SharedMemoryManager) (i : Nat)
    (flags : BufferSemaphoreFlags) (s : Segment) :
    checkBuffer_ m i flags true s =
      if (s.buffers i).sem ≠ flags then (Except.error Exn.StateAccessViolation, s)
      else if (s.buffers i).sem_id ≠ m.manager_id_ then
        (Except.error Exn.OwnerAccessViolation, s)
      else (Except.ok true, s) := by
  simp only [checkBuffer_, Shm.bind_apply, load_apply, if_true]
  by_cases h1 : (s.buffers i).sem = flags <;> by_cases h2 : (s.buffers i).sem_id = m.manager_id_ <;>
    simp [h1, h2]

theorem checkBuffer_false_apply (m : SharedMemoryManager) (i : Nat)
    (flags : BufferSemaphoreFlags) (s : Segment) :
    checkBuffer_ m i flags false s =
      (Except.ok (decide ((s.buffers i).sem_id = m.manager_id_ ∧ (s.buffers i).sem = flags)),
        s) := by
  simp [checkBuffer_]

@[simp] theorem touchBuffer_apply (now i : Nat) (s : Segment) :
    touchBuffer_ now i s =
      (Except.ok (), { s with
        buffers := Function.update s.buffers i
          { (s.buffers i) with buffer_touch_time := now } }) := rfl

theorem GetWritePos_apply (now i : Nat) (s : Segment) (hi : i < s.buffer_count) :
    GetWritePos now (i : Int) s =
      (Except.ok (i * s.buffer_size + (s.buffers i).writePos), { s with
        buffers := Function.update s.buffers i
          { (s.buffers i) with buffer_touch_time := now } }) := by
  simp [GetWritePos, getBufferInfo_apply, bufferStart_apply, Nat.not_le.mpr hi]

theorem GetReadPos_apply (now i : Nat) (s : Segment) (hi : i < s.buffer_count) :
    GetReadPos now (i : Int) s =
      (Except.ok (i * s.buffer_size + (s.buffers i).readPos), { s with
        buffers := Function.update s.buffers i
          { (s.buffers i) with buffer_touch_time := now } }) := by
  simp [GetReadPos, getBufferInfo_apply, bufferStart_apply, Nat.not_le.mpr hi]

theorem Write_apply (m : SharedMemoryManager) (now : Nat) (i : Nat) (src : Nat → Nat)
    (size : Nat) (s : Segment) (hi : i < s.buffer_count) :
    Write m now (i : Int) src size s =
      if (s.buffers i).sem ≠ BufferSemaphoreFlags.Writing then
        (Except.error Exn.StateAccessViolation, s)
      else if (s.buffers i).sem_id ≠ m.manager_id_ then
        (Except.error Exn.OwnerAccessViolation, s)
      else if add64 (s.buffers i).writePos size > s.buffer_size then
        (Except.error Exn.SharedMemoryWrite,
          { s with
            buffers := Function.update s.buffers i
              { (s.buffers i) with buffer_touch_time := now } })
      else
        (Except.ok size,
          { s with
            data := memcpy s.data (i * s.buffer_size + (s.buffers i).writePos) src 0 size,
            buffers := Function.update s.buffers i
              { (s.buffers i) with
                buffer_touch_time := now,
                writePos := add64 (s.buffers i).writePos size } }) := by
  simp only [Write, Shm.bind_apply, getBufferInfo_apply, Nat.not_le.mpr hi, if_false,
    checkBuffer_true_apply]
  by_cases h1 : (s.buffers i).sem = BufferSemaphoreFlags.Writing
  · by_cases h2 : (s.buffers i).sem_id = m.manager_id_
    · by_cases h3 : add64 (s.buffers i).writePos size > s.buffer_size
      · simp [h1, h2, h3]
      · simp [h1, h2, h3, GetWritePos_apply, hi]
    · simp [h1, h2]
  · simp [h1]

theorem Read_apply (m : SharedMemoryManager) (now : Nat) (i : Nat) (dst : Nat → Nat)
    (off size : Nat) (s : Segment) (hi : i < s.buffer_count) :
    Read m now (i : Int) dst off size s =
      if (s.buffers i).sem ≠ BufferSemaphoreFlags.Reading then
        (Except.error Exn.StateAccessViolation, s)
      else if (s.buffers i).sem_id ≠ m.manager_id_ then
        (Except.error Exn.OwnerAccessViolation, s)
      else if add64 (s.buffers i).readPos size > s.buffer_size then
        (Except.error Exn.SharedMemoryRead,
          s.setBuffer i { (s.buffers i) with buffer_touch_time := now })
      else
        (Except.ok (true,
            memcpy dst off s.data (i * s.buffer_size + (s.buffers i).readPos) size),
          s.setBuffer i
            { (s.buffers i) with
              buffer_touch_time := now,
              readPos := add64 (s.buffers i).readPos size }) := by
  simp only [Read, Shm.bind_apply, getBufferInfo_apply, Nat.not_le.mpr hi, if_false,
    checkBuffer_true_apply, checkBuffer_false_apply, Segment.setBuffer]
  by_cases h1 : (s.buffers i).sem = BufferSemaphoreFlags.Reading
  · by_cases h2 : (s.buffers i).sem_id = m.manager_id_
    · by_cases h3 : add64 (s.buffers i).readPos size > s.buffer_size
      · simp [h1, h2, h3]
      · simp [h1, h2, h3, GetReadPos_apply, hi, checkBuffer_false_apply]
    · simp [h1, h2]
  · simp [h1]

theorem MarkBufferFull_apply (m : SharedMemoryManager) (now : Nat) (i : Nat)
    (destination : Int) (s : Segment) (hi : i < s.buffer_count) :
    MarkBufferFull m now (i : Int) destination s =
      if (s.buffers i).sem ≠ BufferSemaphoreFlags.Writing then
        (Except.error Exn.StateAccessViolation, s)
      else if (s.buffers i).sem_id ≠ m.manager_id_ then
        (Except.error Exn.OwnerAccessViolation, s)
      else
        (Except.ok (),
          s.setBuffer i
            { (s.buffers i) with
              buffer_touch_time := now,
              sem_id := destination,
              sem := BufferSemaphoreFlags.Full }) := by
  simp only [MarkBufferFull, Shm.bind_apply, getBufferInfo_apply, Nat.not_le.mpr hi, if_false,
    checkBuffer_true_apply, Segment.setBuffer]
  by_cases h1 : (s.buffers i).sem = BufferSemaphoreFlags.Writing
  · by_cases h2 : (s.buffers i).sem_id = m.manager_id_
    · simp [h1, h2]
    · simp [h1, h2]
  · simp [h1]

theorem MarkBufferEmpty_apply (m : SharedMemoryManager) (now : Nat) (i : Nat)
    (s : Segment) (hi : i < s.buffer_count) :
    MarkBufferEmpty m now (i : Int) s =
      if (s.buffers i).sem ≠ BufferSemaphoreFlags.Reading then
        (Except.error Exn.StateAccessViolation, s)
      else if (s.buffers i).sem_id ≠ m.manager_id_ then
        (Except.error Exn.OwnerAccessViolation, s)
      else
        (Except.ok (),
          s.setBuffer i
            { readPos := 0, writePos := 0, sem_id := -1,
              sem := BufferSemaphoreFlags.Empty, buffer_touch_time := now }) := by
  simp only [MarkBufferEmpty, Shm.bind_apply, getBufferInfo_apply, Nat.not_le.mpr hi, if_false,
    checkBuffer_true_apply, Segment.setBuffer]
  by_cases h1 : (s.buffers i).sem = BufferSemaphoreFlags.Reading
  · by_cases h2 : (s.buffers i).sem_id = m.manager_id_
    · simp [h1, h2]
    · simp [h1, h2]
  · simp [h1]

theorem ResetBuffer_apply (m : SharedMemoryManager) (now : Nat) (i : Nat)
    (s : Segment) (hi : i < s.buffer_count) :
    ResetBuffer m now (i : Int) s =
      (Except.ok (), s.setBuffer i (resetDesc m now (s.buffers i))) := by
  simp only [ResetBuffer, Shm.bind_apply, getBufferInfo_apply, Nat.not_le.mpr hi, if_false,
    load_apply, Segment.setBuffer, resetDesc]
  by_cases h0 : (s.buffers i).sem_id ≠ m.manager_id_ ∧
      (s.buffers i).buffer_touch_time > sub64 now m.buffer_timeout_us_
  · simp [h0]
  · by_cases h1 : (s.buffers i).sem = BufferSemaphoreFlags.Reading
    · simp [h0, h1]
    · by_cases h2 : (s.buffers i).sem = BufferSemaphoreFlags.Writing
      · simp [h0, h1, h2]
      · simp [h0, h1, h2]

theorem GetBufferForReading_loop_succ (m : SharedMemoryManager) (now rp n ii : Nat)
    (s : Segment) (hc : 0 < s.buffer_count) :
    GetBufferForReading.loop m now rp (n + 1) ii s =
      if (resetDesc m now (s.buffers ((ii + rp) % s.buffer_count))).sem =
            BufferSemaphoreFlags.Full ∧
          ((resetDesc m now (s.buffers ((ii + rp) % s.buffer_count))).sem_id = -1 ∨
            (resetDesc m now (s.buffers ((ii + rp) % s.buffer_count))).sem_id =
              m.manager_id_) then
        (Except.ok (((ii + rp) % s.buffer_count : Nat) : Int),
          { (s.setBuffer ((ii + rp) % s.buffer_count)
              { (resetDesc m now (s.buffers ((ii + rp) % s.buffer_count))) with
                sem_id := m.manager_id_,
                sem := BufferSemaphoreFlags.Reading,
                readPos := 0 }) with
            reader_pos := ((ii + rp) % s.buffer_count + 1) % s.buffer_count })
      else
        GetBufferForReading.loop m now rp n (ii + 1)
          (s.setBuffer ((ii + rp) % s.buffer_count)
            (resetDesc m now (s.buffers ((ii + rp) % s.buffer_count)))) := by
  have hj : (ii + rp) % s.buffer_count < s.buffer_count := Nat.mod_lt _ hc
  rw [GetBufferForReading.loop]
  simp only [Shm.bind_apply, hdr_apply, ResetBuffer_apply m now _ s hj]
  have hj2 : (ii + rp) % s.buffer_count <
      (s.setBuffer ((ii + rp) % s.buffer_count)
        (resetDesc m now (s.buffers ((ii + rp) % s.buffer_count)))).buffer_count := hj
  have hb : (s.setBuffer ((ii + rp) % s.buffer_count)
        (resetDesc m now (s.buffers ((ii + rp) % s.buffer_count)))).buffers
          ((ii + rp) % s.buffer_count) =
      resetDesc m now (s.buffers ((ii + rp) % s.buffer_count)) := by
    simp [Segment.setBuffer]
  simp only [getBufferInfo_apply, Nat.not_le.mpr hj2, if_false, load_apply, hb]
  split_ifs with h
  · simp [Segment.setBuffer]
  · rfl

theorem GetBufferForWriting_loop_succ (m : SharedMemoryManager) (now : Nat) (overwrite : Bool)
    (wp n ii : Nat) (s : Segment) (hc : 0 < s.buffer_count) :
    GetBufferForWriting.loop m now overwrite wp (n + 1) ii s =
      if (resetDesc m now (s.buffers ((ii + wp) % s.buffer_count))).sem =
            BufferSemaphoreFlags.Empty ∨
          (overwrite = true ∧
            (resetDesc m now (s.buffers ((ii + wp) % s.buffer_count))).sem ≠
              BufferSemaphoreFlags.Writing) then
        (Except.ok (((ii + wp) % s.buffer_count : Nat) : Int),
          { (s.setBuffer ((ii + wp) % s.buffer_count)
              { (resetDesc m now (s.buffers ((ii + wp) % s.buffer_count))) with
                sem_id := m.manager_id_,
                sem := BufferSemaphoreFlags.Writing,
                writePos := 0 }) with
            writer_pos := ((ii + wp) % s.buffer_count + 1) % s.buffer_count })
      else
        GetBufferForWriting.loop m now overwrite wp n (ii + 1)
          (s.setBuffer ((ii + wp) % s.buffer_count)
            (resetDesc m now (s.buffers ((ii + wp) % s.buffer_count)))) := by
  have hj : (ii + wp) % s.buffer_count < s.buffer_count := Nat.mod_lt _ hc
  rw [GetBufferForWriting.loop]
  simp only [Shm.bind_apply, hdr_apply, ResetBuffer_apply m now _ s hj]
  have hj2 : (ii + wp) % s.buffer_count <
      (s.setBuffer ((ii + wp) % s.buffer_count)
        (resetDesc m now (s.buffers ((ii + wp) % s.buffer_count)))).buffer_count := hj
  have hb : (s.setBuffer ((ii + wp) % s.buffer_count)
        (resetDesc m now (s.buffers ((ii + wp) % s.buffer_count)))).buffers
          ((ii + wp) % s.buffer_count) =
      resetDesc m now (s.buffers ((ii + wp) % s.buffer_count)) := by
    simp [Segment.setBuffer]
  simp only [getBufferInfo_apply, Nat.not_le.mpr hj2, if_false, load_apply, hb]
  split_ifs with h
  · simp [Segment.setBuffer]
  · rfl

theorem GetBufferForReading_apply (m : SharedMemoryManager) (now : Nat) (s : Segment) :
    GetBufferForReading m now s =
      GetBufferForReading.loop m now s.reader_pos s.buffer_count 0 s := by
  simp [GetBufferForReading]

theorem GetBufferForWriting_apply (m : SharedMemoryManager) (now : Nat) (overwrite : Bool)
    (s : Segment) :
    GetBufferForWriting m now overwrite s =
      GetBufferForWriting.loop m now overwrite s.writer_pos s.buffer_count 0 s := by
  simp [GetBufferForWriting]

/-! ## The freshly created segment -/

theorem init_loop_apply (n : Nat) : ∀ (ii : Nat) (s : Segment), ii + n ≤ s.buffer_count →
    SharedMemoryManager.init.loop n ii s =
      (Except.ok (), { s with
        buffers := fun j =>
          if ii ≤ j ∧ j < ii + n then
            { (s.buffers j) with
              writePos := 0, readPos := 0, sem := BufferSemaphoreFlags.Empty, sem_id := -1 }
          else s.buffers j }) := by
  induction n with
  | zero =>
    intro ii s _
    have hf : (fun j =>
        if ii ≤ j ∧ j < ii + 0 then
          { (s.buffers j) with
            writePos := 0, readPos := 0, sem := BufferSemaphoreFlags.Empty, sem_id := -1 }
        else s.buffers j) = s.buffers := by
      funext j
      have h0 : ¬ (ii ≤ j ∧ j < ii + 0) := by omega
      simp only [h0, if_false]
    simp only [SharedMemoryManager.init.loop, Shm.pure_apply, hf]
  | succ n ih =>
    intro ii s h
    have hi : ¬ s.buffer_count ≤ ii := by omega
    rw [SharedMemoryManager.init.loop]
    simp only [Shm.bind_apply, getBufferInfo_apply, hi, if_false, store_apply]
    rw [ih (ii + 1) _ (by simpa using (by omega : ii + 1 + n ≤ s.buffer_count))]
    congr 2
    funext j
    by_cases hj : j = ii
    · subst hj
      simp
    · have h1 : ¬ (ii ≤ j ∧ j < ii + (n + 1)) ↔ ¬ (ii + 1 ≤ j ∧ j < ii + 1 + n) := by omega
      by_cases h2 : ii + 1 ≤ j ∧ j < ii + 1 + n
      · have h3 : ii ≤ j ∧ j < ii + (n + 1) := by omega
        simp [h2, h3, hj]
      · have h3 : ¬ (ii ≤ j ∧ j < ii + (n + 1)) := by omega
        simp [h2, h3, hj]

theorem freshSegment_eq (n S : Nat) :
    freshSegment n S =
      { next_id := 1, reader_pos := 0, writer_pos := 0, buffer_size := S, buffer_count := n,
        ready_magic := 0xCAFE1111,
        buffers := fun j =>
          if j < n then
            { writePos := 0, readPos := 0, sem := BufferSemaphoreFlags.Empty, sem_id := -1,
              buffer_touch_time := 0 }
          else zeroSegment.buffers j,
        data := fun _ => 0 } := by
  simp only [freshSegment, SharedMemoryManager.init, Shm.bind_apply, update_apply]
  rw [init_loop_apply n 0 _ (by simp)]
  simp [zeroSegment]

theorem resetDesc_of_Empty (m : SharedMemoryManager) (now : Nat) (b : ShmBuffer)
    (h : b.sem = BufferSemaphoreFlags.Empty) : resetDesc m now b = b := by
  simp [resetDesc, h]

theorem resetDesc_of_Full (m : SharedMemoryManager) (now : Nat) (b : ShmBuffer)
    (h : b.sem = BufferSemaphoreFlags.Full) : resetDesc m now b = b := by
  simp [resetDesc, h]

theorem add64_of_lt (a b : Nat) (h : a + b < 2 ^ 64) : add64 a b = a + b := by
  unfold add64
  exact Nat.mod_eq_of_lt h

theorem bytesOf_memcpy (dst : Nat → Nat) (p : Nat) (src : Nat → Nat) (q len : Nat) :
    bytesOf (memcpy dst p src q len) p len = bytesOf src q len := by
  simp only [bytesOf]
  apply List.map_congr_left
  intro i hi
  have hi2 : i < len := List.mem_range.mp hi
  simp [memcpy, hi2]

theorem bytesOf_memOf (d : List Nat) : bytesOf (memOf d) 0 d.length = d := by
  apply List.ext_getElem
  · simp [bytesOf]
  · intro i h1 h2
    simp [bytesOf, memOf, List.getD_eq_getElem?_getD, List.getElem?_eq_getElem h2]

/-! ## Claims -/

/-- C1. Segment-manager round trip: on a freshly created segment with at least
one buffer, for every byte sequence `d` no longer than `buffer_size`, the calls
`b := GetBufferForWriting(false); Write(b, d, |d|); MarkBufferFull(b, -1);
r := GetBufferForReading(); Read(r, dst, |d|)` all return without throwing,
`r = b`, and `dst` holds `d` byte for byte. -/
theorem C1_segment_round_trip (m : SharedMemoryManager) (n S : Nat) (d : List Nat)
    (dst : Nat → Nat) (t1 t2 t3 t4 t5 : Nat)
    (hn : 0 < n) (hS : S < 2 ^ 64) (hd : d.length ≤ S) :
    ∃ (b r : Int) (s1 s2 s3 s4 s5 : Segment) (dst1 : Nat → Nat),
      GetBufferForWriting m t1 false (freshSegment n S) = (Except.ok b, s1) ∧
      Write m t2 b (memOf d) d.length s1 = (Except.ok d.length, s2) ∧
      MarkBufferFull m t3 b (-1) s2 = (Except.ok (), s3) ∧
      GetBufferForReading m t4 s3 = (Except.ok r, s4) ∧
      Read m t5 r dst 0 d.length s4 = (Except.ok (true, dst1), s5) ∧
      r = b ∧ bytesOf dst1 0 d.length = d := by
  obtain ⟨k, rfl⟩ : ∃ k, n = k + 1 := ⟨n - 1, by omega⟩
  have e1 : GetBufferForWriting m t1 false (freshSegment (k + 1) S) =
      (Except.ok ((0 : Nat) : Int),
        { (freshSegment (k + 1) S) with
          writer_pos := 1 % (k + 1),
          buffers := Function.update (freshSegment (k + 1) S).buffers 0
            (⟨0, 0, BufferSemaphoreFlags.Writing, m.manager_id_, 0⟩ : ShmBuffer) }) := by
    rw [GetBufferForWriting_apply]
    simp only [freshSegment_eq]
    rw [GetBufferForWriting_loop_succ _ _ _ _ _ _ _ (by simp)]
    simp [resetDesc, Segment.setBuffer]
  obtain ⟨s1, e1, hc1, hz1, hb1, hd1, hp1⟩ : ∃ s1 : Segment,
      GetBufferForWriting m t1 false (freshSegment (k + 1) S) = (Except.ok ((0 : Nat) : Int), s1) ∧
      s1.buffer_count = k + 1 ∧ s1.buffer_size = S ∧
      s1.buffers 0 = (⟨0, 0, BufferSemaphoreFlags.Writing, m.manager_id_, 0⟩ : ShmBuffer) ∧
      s1.data = (fun _ => 0) ∧ s1.reader_pos = 0 :=
    ⟨_, e1, by simp [freshSegment_eq], by simp [freshSegment_eq], by simp,
      by simp [freshSegment_eq], by simp [freshSegment_eq]⟩
  have hlen : 0 + d.length < 2 ^ 64 := by omega
  obtain ⟨s2, e2, hc2, hz2, hb2, hd2, hp2⟩ : ∃ s2 : Segment,
      Write m t2 ((0 : Nat) : Int) (memOf d) d.length s1 = (Except.ok d.length, s2) ∧
      s2.buffer_count = k + 1 ∧ s2.buffer_size = S ∧
      s2.buffers 0 = (⟨d.length, 0, BufferSemaphoreFlags.Writing, m.manager_id_, t2⟩ : ShmBuffer) ∧
      s2.data = memcpy (fun _ => 0) 0 (memOf d) 0 d.length ∧ s2.reader_pos = 0 := by
    rw [Write_apply m t2 0 (memOf d) d.length s1 (by omega)]
    simp only [hb1, hz1, hd1, add64_of_lt _ _ hlen]
    have hle : ¬ (0 + d.length > S) := by omega
    simp only [ne_eq, not_true_eq_false, if_false, hle]
    refine ⟨_, rfl, ?_, ?_, ?_, ?_, ?_⟩ <;> simp [hc1, hp1]
  obtain ⟨s3, e3, hc3, hz3, hb3, hd3, hp3⟩ : ∃ s3 : Segment,
      MarkBufferFull m t3 ((0 : Nat) : Int) (-1) s2 = (Except.ok (), s3) ∧
      s3.buffer_count = k + 1 ∧ s3.buffer_size = S ∧
      s3.buffers 0 = (⟨d.length, 0, BufferSemaphoreFlags.Full, -1, t3⟩ : ShmBuffer) ∧
      s3.data = memcpy (fun _ => 0) 0 (memOf d) 0 d.length ∧ s3.reader_pos = 0 := by
    rw [MarkBufferFull_apply m t3 0 (-1) s2 (by omega)]
    simp only [hb2, ne_eq, not_true_eq_false, if_false]
    refine ⟨_, rfl, ?_, ?_, ?_, ?_, ?_⟩ <;> simp [Segment.setBuffer, hc2, hz2, hd2, hp2]
  obtain ⟨s4, e4, hc4, hz4, hb4, hd4⟩ : ∃ s4 : Segment,
      GetBufferForReading m t4 s3 = (Except.ok ((0 : Nat) : Int), s4) ∧
      s4.buffer_count = k + 1 ∧ s4.buffer_size = S ∧
      s4.buffers 0 = (⟨d.length, 0, BufferSemaphoreFlags.Reading, m.manager_id_, t3⟩ : ShmBuffer) ∧
      s4.data = memcpy (fun _ => 0) 0 (memOf d) 0 d.length := by
    rw [GetBufferForReading_apply, hc3,
      GetBufferForReading_loop_succ _ _ _ _ _ _ (by omega)]
    have hr : resetDesc m t4 (s3.buffers 0) = s3.buffers 0 :=
      resetDesc_of_Full _ _ _ (by rw [hb3])
    simp only [hc3, hp3, Nat.zero_add, Nat.zero_mod, hr]
    simp only [hb3, true_or, and_self, if_true]
    refine ⟨_, rfl, ?_, ?_, ?_, ?_⟩ <;> simp [Segment.setBuffer, hc3, hz3, hd3]
  have e5 : Read m t5 ((0 : Nat) : Int) dst 0 d.length s4 =
      (Except.ok (true, memcpy dst 0 (memcpy (fun _ => 0) 0 (memOf d) 0 d.length) 0 d.length),
        s4.setBuffer 0 (⟨d.length, d.length, BufferSemaphoreFlags.Reading, m.manager_id_, t5⟩ :
          ShmBuffer)) := by
    rw [Read_apply m t5 0 dst 0 d.length s4 (by omega)]
    simp only [hb4, hz4, hd4, add64_of_lt _ _ hlen]
    have hle : ¬ (0 + d.length > S) := by omega
    simp only [ne_eq, not_true_eq_false, if_false, hle]
    simp
  refine ⟨_, _, s1, s2, s3, s4, _, _, e1, e2, e3, e4, e5, rfl, ?_⟩
  rw [bytesOf_memcpy, bytesOf_memcpy, bytesOf_memOf]

theorem C1_segment_round_trip_witness :
    (0 < 4 ∧ 1024 < 2 ^ 64 ∧ [1, 2, 3].length ≤ 1024) ∧
    ∃ (b r : Int) (s1 s2 s3 s4 s5 : Segment) (dst1 : Nat → Nat),
      GetBufferForWriting managerA 10 false (freshSegment 4 1024) = (Except.ok b, s1) ∧
      Write managerA 11 b (memOf [1, 2, 3]) [1, 2, 3].length s1 =
        (Except.ok [1, 2, 3].length, s2) ∧
      MarkBufferFull managerA 12 b (-1) s2 = (Except.ok (), s3) ∧
      GetBufferForReading managerA 13 s3 = (Except.ok r, s4) ∧
      Read managerA 14 r (fun _ => 0) 0 [1, 2, 3].length s4 = (Except.ok (true, dst1), s5) ∧
      r = b ∧ bytesOf dst1 0 [1, 2, 3].length = [1, 2, 3] :=
  ⟨⟨by decide, by decide, by decide⟩,
    C1_segment_round_trip managerA 4 1024 [1, 2, 3] (fun _ => 0) 10 11 12 13 14
      (by decide) (by decide) (by decide)⟩

theorem payload_other (j b S k lo hi : Nat) (hj : j ≠ b) (hk : k < S) (hhi : hi ≤ S) :
    ¬ (b * S + lo ≤ j * S + k ∧ j * S + k < b * S + hi) := by
  rcases Nat.lt_or_gt_of_ne hj with h | h
  · have h1 : (j + 1) * S ≤ b * S := Nat.mul_le_mul_right S h
    rw [Nat.succ_mul] at h1
    omega
  · have h1 : (b + 1) * S ≤ j * S := Nat.mul_le_mul_right S h
    rw [Nat.succ_mul] at h1
    omega

/-- C4. Write postcondition: on a buffer `b` that is Writing and owned by the
caller, with `writePos + size <= buffer_size`, `Write(b, src, size)` returns
`size`, stores `src[0..size)` at payload offsets `[writePos, writePos+size)` of
`b`, advances `writePos` by `size`, and leaves `sem`, `sem_id`, `readPos` of `b`,
the other payload bytes of `b`, and every other buffer's descriptor and payload
unchanged. -/
theorem C4_Write_postcondition (m : SharedMemoryManager) (now b : Nat) (src : Nat → Nat)
    (size : Nat) (s : Segment)
    (hb : b < s.buffer_count) (hS : s.buffer_size < 2 ^ 64)
    (hsem : (s.buffers b).sem = BufferSemaphoreFlags.Writing)
    (hid : (s.buffers b).sem_id = m.manager_id_)
    (hfit : (s.buffers b).writePos + size ≤ s.buffer_size) :
    ∃ s1 : Segment,
      Write m now (b : Int) src size s = (Except.ok size, s1) ∧
      (∀ k, k < size → s1.payload b ((s.buffers b).writePos + k) = src k) ∧
      (s1.buffers b).writePos = (s.buffers b).writePos + size ∧
      (s1.buffers b).sem = (s.buffers b).sem ∧
      (s1.buffers b).sem_id = (s.buffers b).sem_id ∧
      (s1.buffers b).readPos = (s.buffers b).readPos ∧
      (∀ k, k < s.buffer_size →
        ¬ ((s.buffers b).writePos ≤ k ∧ k < (s.buffers b).writePos + size) →
        s1.payload b k = s.payload b k) ∧
      (∀ j, j ≠ b → s1.buffers j = s.buffers j) ∧
      (∀ j k, j ≠ b → k < s.buffer_size → s1.payload j k = s.payload j k) := by
  have hlt : (s.buffers b).writePos + size < 2 ^ 64 := by omega
  have hle : ¬ ((s.buffers b).writePos + size > s.buffer_size) := by omega
  have e := Write_apply m now b src size s hb
  simp only [hsem, hid, add64_of_lt _ _ hlt, ne_eq, not_true_eq_false, if_false, hle] at e
  refine ⟨_, e, ?_⟩
  · refine ⟨?_, ?_, ?_, ?_, ?_, ?_, ?_, ?_⟩
    · intro k hk
      simp only [Segment.payload, dataStart_, memcpy, Nat.zero_add]
      rw [if_pos (by omega)]
      congr 1
      omega
    · simp
    · simp [hsem]
    · simp [hid]
    · simp
    · intro k _ hk2
      simp only [Segment.payload, dataStart_, memcpy, Nat.zero_add]
      rw [if_neg (by omega)]
    · intro j hj
      simp [Function.update_noteq hj]
    · intro j k hj hk
      simp only [Segment.payload, dataStart_, memcpy, Nat.zero_add]
      rw [if_neg]
      have := payload_other j b s.buffer_size k (s.buffers b).writePos
        ((s.buffers b).writePos + size) hj hk hfit
      omega

theorem C4_Write_postcondition_witness :
    (0 < segWriting.buffer_count ∧ segWriting.buffer_size < 2 ^ 64 ∧
      (segWriting.buffers 0).sem = BufferSemaphoreFlags.Writing ∧
      (segWriting.buffers 0).sem_id = managerA.manager_id_ ∧
      (segWriting.buffers 0).writePos + 3 ≤ segWriting.buffer_size) ∧
    ∃ s1 : Segment,
      Write managerA 9 ((0 : Nat) : Int) (memOf [7, 8, 9]) 3 segWriting = (Except.ok 3, s1) ∧
      (s1.buffers 0).writePos = 7 :=
  ⟨⟨by decide, by decide, by decide, by decide, by decide⟩,
    (C4_Write_postcondition managerA 9 0 (memOf [7, 8, 9]) 3 segWriting
      (by decide) (by decide) (by decide) (by decide) (by decide)).elim
      (fun s1 h => ⟨s1, h.1, h.2.2.1⟩)⟩

/-- C5. Failing input for "write overflow is always rejected": buffer 0 is
Writing, owned by the caller, `writePos = 4`, `buffer_size = 16`, and
`size = 2^64 - 4` is a 64-bit value with `writePos + size = 2^64 > buffer_size`.
The sum wraps to 0, so `Write` does not throw: it returns `size`, copies past the
end of the buffer (payload byte 0 of buffer 1 receives `src[12]`) and leaves
`writePos = 0`. -/
theorem C5_Write_overflow_not_rejected (src : Nat → Nat) :
    (segWriting.buffers 0).sem = BufferSemaphoreFlags.Writing ∧
    (segWriting.buffers 0).sem_id = managerA.manager_id_ ∧
    (segWriting.buffers 0).writePos ≤ segWriting.buffer_size ∧
    2 ^ 64 - 4 < 2 ^ 64 ∧
    (segWriting.buffers 0).writePos + (2 ^ 64 - 4) > segWriting.buffer_size ∧
    ∃ s1 : Segment,
      Write managerA 9 ((0 : Nat) : Int) src (2 ^ 64 - 4) segWriting =
        (Except.ok (2 ^ 64 - 4), s1) ∧
      (s1.buffers 0).writePos = 0 ∧
      s1.payload 1 0 = src 12 := by
  refine ⟨by decide, by decide, by decide, by decide, by decide, ?_⟩
  have e := Write_apply managerA 9 0 src (2 ^ 64 - 4) segWriting (by decide)
  have h1 : (segWriting.buffers 0) = ⟨4, 0, BufferSemaphoreFlags.Writing, 0, 5⟩ := rfl
  have h2 : add64 4 (2 ^ 64 - 4) = 0 := by decide
  have h3 : segWriting.buffer_size = 16 := rfl
  have h4 : managerA.manager_id_ = 0 := rfl
  simp only [h1, h2, h3, h4, ne_eq, not_true_eq_false, if_false, gt_iff_lt, Nat.not_lt_zero]
    at e
  refine ⟨_, e, by simp, ?_⟩
  simp [Segment.payload, dataStart_, memcpy, h3]

/-- C6 as stated fails: `Read` also changes `buffer_touch_time`. On `segReading`
(buffer 0 Reading, owned by manager 0, `readPos = 2`, touched at 5) a 4-byte
`Read` at time 9 returns true, and the descriptor of buffer 0 is not the old one
with only `readPos` advanced: its touch time went from 5 to 9. -/
theorem C6_Read_changes_touch_time :
    ∃ (dst1 : Nat → Nat) (s1 : Segment),
      Read managerA 9 ((0 : Nat) : Int) (fun _ => 0) 0 4 segReading =
        (Except.ok (true, dst1), s1) ∧
      s1.buffers 0 ≠ { (segReading.buffers 0) with readPos := (segReading.buffers 0).readPos + 4 } ∧
      (segReading.buffers 0).buffer_touch_time = 5 ∧
      (s1.buffers 0).buffer_touch_time = 9 := by
  have e := Read_apply managerA 9 0 (fun _ => 0) 0 4 segReading (by decide)
  have h1 : (segReading.buffers 0) = ⟨8, 2, BufferSemaphoreFlags.Reading, 0, 5⟩ := rfl
  have h2 : add64 2 4 = 6 := by decide
  have h3 : segReading.buffer_size = 16 := rfl
  have h4 : managerA.manager_id_ = 0 := rfl
  have h5 : ¬ (6 > 16) := by decide
  simp only [h1, h2, h3, h4, h5, ne_eq, not_true_eq_false, if_false] at e
  refine ⟨_, _, e, ?_, rfl, ?_⟩
  · simp [Segment.setBuffer, h1]
  · simp [Segment.setBuffer]

/-- C6 (amended). Read postcondition: on a buffer `b` that is Reading and owned
by the caller, and for `readPos + size < 2^64`, `Read(b, dst, size)` throws iff
`readPos + size > buffer_size`; otherwise it returns true, copies payload bytes
`[readPos, readPos+size)` of `b` to `dst` (leaving the rest of `dst` alone),
sets `readPos` to `readPos + size` and `buffer_touch_time` to the current time,
and changes nothing else in any descriptor, the header or the payload. -/
theorem C6_Read_postcondition (m : SharedMemoryManager) (now b : Nat) (dst : Nat → Nat)
    (off size : Nat) (s : Segment)
    (hb : b < s.buffer_count)
    (hsem : (s.buffers b).sem = BufferSemaphoreFlags.Reading)
    (hid : (s.buffers b).sem_id = m.manager_id_)
    (hlt : (s.buffers b).readPos + size < 2 ^ 64) :
    ((∃ e, (Read m now (b : Int) dst off size s).1 = Except.error e) ↔
      (s.buffers b).readPos + size > s.buffer_size) ∧
    ((s.buffers b).readPos + size ≤ s.buffer_size →
      ∃ (dst1 : Nat → Nat) (s1 : Segment),
        Read m now (b : Int) dst off size s = (Except.ok (true, dst1), s1) ∧
        (∀ k, k < size → dst1 (off + k) = s.payload b ((s.buffers b).readPos + k)) ∧
        (∀ k, ¬ (off ≤ k ∧ k < off + size) → dst1 k = dst k) ∧
        s1.buffers b =
          { (s.buffers b) with
            readPos := (s.buffers b).readPos + size, buffer_touch_time := now } ∧
        (∀ j, j ≠ b → s1.buffers j = s.buffers j) ∧
        s1.data = s.data ∧
        s1.next_id = s.next_id ∧ s1.reader_pos = s.reader_pos ∧
        s1.writer_pos = s.writer_pos ∧ s1.buffer_size = s.buffer_size ∧
        s1.buffer_count = s.buffer_count ∧ s1.ready_magic = s.ready_magic) := by
  have e := Read_apply m now b dst off size s hb
  simp only [hsem, hid, add64_of_lt _ _ hlt, ne_eq, not_true_eq_false, if_false] at e
  constructor
  · rw [e]
    by_cases h : (s.buffers b).readPos + size > s.buffer_size
    · simp [h]
    · simp [h]
  · intro hfit
    have hle : ¬ ((s.buffers b).readPos + size > s.buffer_size) := by omega
    simp only [hle, if_false] at e
    refine ⟨_, _, e, ?_, ?_, ?_, ?_, rfl, rfl, rfl, rfl, rfl, rfl, rfl⟩
    · intro k hk
      simp only [Segment.payload, dataStart_, memcpy, Nat.zero_add]
      rw [if_pos (by omega)]
      congr 1
      omega
    · intro k hk
      simp only [memcpy]
      rw [if_neg hk]
    · simp [Segment.setBuffer, hsem, hid]
    · intro j hj
      simp [Segment.setBuffer, Function.update_noteq hj]

theorem C6_Read_postcondition_witness :
    (0 < segReading.buffer_count ∧
      (segReading.buffers 0).sem = BufferSemaphoreFlags.Reading ∧
      (segReading.buffers 0).sem_id = managerA.manager_id_ ∧
      (segReading.buffers 0).readPos + 4 < 2 ^ 64) ∧
    ((∃ e, (Read managerA 9 ((0 : Nat) : Int) (fun _ => 0) 0 4 segReading).1 =
        Except.error e) ↔
      (segReading.buffers 0).readPos + 4 > segReading.buffer_size) :=
  ⟨⟨by decide, by decide, by decide, by decide⟩,
    (C6_Read_postcondition managerA 9 0 (fun _ => 0) 0 4 segReading
      (by decide) (by decide) (by decide) (by decide)).1⟩

/-- C7. State and ownership violations are fatal and atomic: on a buffer that
is not (Writing and owned by the caller) `Write` and `MarkBufferFull` throw, and
on a buffer that is not (Reading and owned by the caller) `Read` and
`MarkBufferEmpty` throw: StateAccessViolation when the state is wrong, otherwise
OwnerAccessViolation. The segment is left exactly as it was: every descriptor
field, `buffer_touch_time` included, and every payload byte. -/
theorem C7_violations_fatal_and_atomic (m : SharedMemoryManager) (now b : Nat)
    (src dst : Nat → Nat) (off size : Nat) (destination : Int) (s : Segment)
    (hb : b < s.buffer_count) :
    (¬ ((s.buffers b).sem = BufferSemaphoreFlags.Writing ∧
          (s.buffers b).sem_id = m.manager_id_) →
      Write m now (b : Int) src size s =
        (Except.error
          (if (s.buffers b).sem ≠ BufferSemaphoreFlags.Writing then Exn.StateAccessViolation
           else Exn.OwnerAccessViolation), s) ∧
      MarkBufferFull m now (b : Int) destination s =
        (Except.error
          (if (s.buffers b).sem ≠ BufferSemaphoreFlags.Writing then Exn.StateAccessViolation
           else Exn.OwnerAccessViolation), s)) ∧
    (¬ ((s.buffers b).sem = BufferSemaphoreFlags.Reading ∧
          (s.buffers b).sem_id = m.manager_id_) →
      Read m now (b : Int) dst off size s =
        (Except.error
          (if (s.buffers b).sem ≠ BufferSemaphoreFlags.Reading then Exn.StateAccessViolation
           else Exn.OwnerAccessViolation), s) ∧
      MarkBufferEmpty m now (b : Int) s =
        (Except.error
          (if (s.buffers b).sem ≠ BufferSemaphoreFlags.Reading then Exn.StateAccessViolation
           else Exn.OwnerAccessViolation), s)) := by
  constructor
  · intro h
    rw [Write_apply m now b src size s hb, MarkBufferFull_apply m now b destination s hb]
    by_cases h1 : (s.buffers b).sem = BufferSemaphoreFlags.Writing
    · have h2 : (s.buffers b).sem_id ≠ m.manager_id_ := fun h2 => h ⟨h1, h2⟩
      simp [h1, h2]
    · simp [h1]
  · intro h
    rw [Read_apply m now b dst off size s hb, MarkBufferEmpty_apply m now b s hb]
    by_cases h1 : (s.buffers b).sem = BufferSemaphoreFlags.Reading
    · have h2 : (s.buffers b).sem_id ≠ m.manager_id_ := fun h2 => h ⟨h1, h2⟩
      simp [h1, h2]
    · simp [h1]

theorem C7_violations_fatal_and_atomic_witness :
    (0 < segWriting.buffer_count ∧
      ¬ ((segWriting.buffers 0).sem = BufferSemaphoreFlags.Writing ∧
          (segWriting.buffers 0).sem_id = managerB.manager_id_) ∧
      ¬ ((segWriting.buffers 0).sem = BufferSemaphoreFlags.Reading ∧
          (segWriting.buffers 0).sem_id = managerB.manager_id_)) ∧
    Write managerB 9 ((0 : Nat) : Int) (memOf [7]) 1 segWriting =
      (Except.error Exn.OwnerAccessViolation, segWriting) ∧
    Read managerB 9 ((0 : Nat) : Int) (fun _ => 0) 0 1 segWriting =
      (Except.error Exn.StateAccessViolation, segWriting) :=
  ⟨⟨by decide, by decide, by decide⟩,
    ((C7_violations_fatal_and_atomic managerB 9 0 (memOf [7]) (fun _ => 0) 0 1 (-1) segWriting
      (by decide)).1 (by decide)).1,
    ((C7_violations_fatal_and_atomic managerB 9 0 (memOf [7]) (fun _ => 0) 0 1 (-1) segWriting
      (by decide)).2 (by decide)).1⟩

/-- C8. MarkBufferFull postcondition: on a buffer `b` that is Writing and owned
by the caller, `MarkBufferFull(b, d)` returns, sets `sem = Full` and
`sem_id = d`, and leaves `writePos`, `readPos`, the payload, and every other
buffer's descriptor unchanged. -/
theorem C8_MarkBufferFull_postcondition (m : SharedMemoryManager) (now b : Nat)
    (d : Int) (s : Segment)
    (hb : b < s.buffer_count)
    (hsem : (s.buffers b).sem = BufferSemaphoreFlags.Writing)
    (hid : (s.buffers b).sem_id = m.manager_id_) :
    ∃ s1 : Segment,
      MarkBufferFull m now (b : Int) d s = (Except.ok (), s1) ∧
      (s1.buffers b).sem = BufferSemaphoreFlags.Full ∧
      (s1.buffers b).sem_id = d ∧
      (s1.buffers b).writePos = (s.buffers b).writePos ∧
      (s1.buffers b).readPos = (s.buffers b).readPos ∧
      s1.data = s.data ∧
      (∀ j, j ≠ b → s1.buffers j = s.buffers j) := by
  have e := MarkBufferFull_apply m now b d s hb
  simp only [hsem, hid, ne_eq, not_true_eq_false, if_false] at e
  refine ⟨_, e, ?_, ?_, ?_, ?_, rfl, ?_⟩
  · simp [Segment.setBuffer]
  · simp [Segment.setBuffer]
  · simp [Segment.setBuffer]
  · simp [Segment.setBuffer]
  · intro j hj
    simp [Segment.setBuffer, Function.update_noteq hj]

theorem C8_MarkBufferFull_postcondition_witness :
    (0 < segWriting.buffer_count ∧
      (segWriting.buffers 0).sem = BufferSemaphoreFlags.Writing ∧
      (segWriting.buffers 0).sem_id = managerA.manager_id_) ∧
    ∃ s1 : Segment,
      MarkBufferFull managerA 9 ((0 : Nat) : Int) 2 segWriting = (Except.ok (), s1) ∧
      (s1.buffers 0).sem = BufferSemaphoreFlags.Full ∧
      (s1.buffers 0).sem_id = 2 :=
  ⟨⟨by decide, by decide, by decide⟩,
    (C8_MarkBufferFull_postcondition managerA 9 0 2 segWriting
      (by decide) (by decide) (by decide)).elim
      (fun s1 h => ⟨s1, h.1, h.2.1, h.2.2.1⟩)⟩

/-! ## The searches -/

theorem exists_visit (n rp b : Nat) (hb : b < n) : ∃ k, k < n ∧ (k + rp) % n = b := by
  have hn : 0 < n := by omega
  have hr := Nat.mod_lt rp hn
  have hq := Nat.div_add_mod rp n
  refine ⟨(b + (n - rp % n)) % n, Nat.mod_lt _ hn, ?_⟩
  rw [Nat.mod_add_mod]
  have h1 : b + (n - rp % n) + rp = b + n * (rp / n + 1) := by
    rw [Nat.mul_add, Nat.mul_one]
    omega
  rw [h1, Nat.add_mul_mod_self_left, Nat.mod_eq_of_lt hb]

theorem resetDesc_idem (m : SharedMemoryManager) (now : Nat) (b : ShmBuffer) :
    resetDesc m now (resetDesc m now b) = resetDesc m now b := by
  by_cases h0 : b.sem_id ≠ m.manager_id_ ∧ b.buffer_touch_time > sub64 now m.buffer_timeout_us_
  · simp [resetDesc, h0]
  · by_cases h1 : b.sem = BufferSemaphoreFlags.Reading
    · simp [resetDesc, h0, h1]
    · by_cases h2 : b.sem = BufferSemaphoreFlags.Writing
      · simp [resetDesc, h0, h1, h2]
      · simp [resetDesc, h0, h1, h2]

theorem resetDesc_sem_cases (m : SharedMemoryManager) (now : Nat) (b : ShmBuffer) :
    resetDesc m now b = b ∨
    (b.sem = BufferSemaphoreFlags.Reading ∧
      ¬ (b.sem_id ≠ m.manager_id_ ∧ b.buffer_touch_time > sub64 now m.buffer_timeout_us_) ∧
      resetDesc m now b =
        { b with readPos := 0, sem := BufferSemaphoreFlags.Full, sem_id := -1 }) ∨
    (b.sem = BufferSemaphoreFlags.Writing ∧
      ¬ (b.sem_id ≠ m.manager_id_ ∧ b.buffer_touch_time > sub64 now m.buffer_timeout_us_) ∧
      resetDesc m now b =
        { b with writePos := 0, sem := BufferSemaphoreFlags.Empty, sem_id := -1 }) := by
  by_cases h0 : b.sem_id ≠ m.manager_id_ ∧ b.buffer_touch_time > sub64 now m.buffer_timeout_us_
  · left
    simp [resetDesc, h0]
  · by_cases h1 : b.sem = BufferSemaphoreFlags.Reading
    · right
      left
      exact ⟨h1, h0, by simp [resetDesc, h0, h1]⟩
    · by_cases h2 : b.sem = BufferSemaphoreFlags.Writing
      · right
        right
        exact ⟨h2, h0, by simp [resetDesc, h0, h1, h2]⟩
      · left
        simp [resetDesc, h0, h1, h2]

theorem setBuffer_buffers_self (s : Segment) (i : Nat) (b : ShmBuffer) :
    (s.setBuffer i b).buffers i = b := by
  simp [Segment.setBuffer]

theorem setBuffer_buffers_other (s : Segment) (i j : Nat) (b : ShmBuffer) (h : j ≠ i) :
    (s.setBuffer i b).buffers j = s.buffers j := by
  simp [Segment.setBuffer, Function.update_noteq h]

theorem setBuffer_buffer_count (s : Segment) (i : Nat) (b : ShmBuffer) :
    (s.setBuffer i b).buffer_count = s.buffer_count := rfl

/-- The writing search without overwrite claims some buffer when a buffer that
the loop still has to visit is Empty. -/
theorem GetBufferForWriting_loop_finds (m : SharedMemoryManager) (now : Nat)
    (overwrite : Bool) (wp : Nat) :
    ∀ (n ii : Nat) (s : Segment), 0 < s.buffer_count →
      (∃ k, ii ≤ k ∧ k < ii + n ∧
        (s.buffers ((k + wp) % s.buffer_count)).sem = BufferSemaphoreFlags.Empty) →
      ∃ (j : Nat) (s1 : Segment),
        GetBufferForWriting.loop m now overwrite wp n ii s = (Except.ok (j : Int), s1) ∧
        j < s.buffer_count ∧
        (s1.buffers j).sem = BufferSemaphoreFlags.Writing ∧
        (s1.buffers j).sem_id = m.manager_id_ ∧
        (s1.buffers j).writePos = 0 := by
  intro n
  induction n with
  | zero =>
    intro ii s _ hk
    obtain ⟨k, h1, h2, _⟩ := hk
    omega
  | succ n ih =>
    intro ii s hc hk
    have hj : (ii + wp) % s.buffer_count < s.buffer_count := Nat.mod_lt _ hc
    rw [GetBufferForWriting_loop_succ m now overwrite wp n ii s hc]
    split_ifs with h
    · exact ⟨_, _, rfl, hj, by simp [Segment.setBuffer], by simp [Segment.setBuffer],
        by simp [Segment.setBuffer]⟩
    · obtain ⟨k, h1, h2, h3⟩ := hk
      have hne : (k + wp) % s.buffer_count ≠ (ii + wp) % s.buffer_count := by
        intro heq
        apply h
        left
        rw [← heq, resetDesc_of_Empty _ _ _ h3]
        exact h3
      have hki : k ≠ ii := by
        intro heq
        subst heq
        exact hne rfl
      have := ih (ii + 1)
        (s.setBuffer ((ii + wp) % s.buffer_count)
          (resetDesc m now (s.buffers ((ii + wp) % s.buffer_count)))) hc
        ⟨k, by omega, by omega, by
          rw [setBuffer_buffer_count, setBuffer_buffers_other _ _ _ _ hne]
          exact h3⟩
      exact this

/-- C9. MarkBufferEmpty postcondition: on a buffer `b` that is Reading and
owned by the caller, `MarkBufferEmpty(b)` returns and leaves `b` with
`readPos = 0`, `writePos = 0`, `sem_id = -1`, `sem = Empty`, every other
descriptor and the payload unchanged. Buffer `b` is then acquirable by `GetBufferForWriting(false)` of any
manager: a search iteration of any manager that examines `b` claims it, and
`GetBufferForWriting(false)` of any manager returns a buffer (never -1). -/
theorem C9_MarkBufferEmpty_postcondition (m : SharedMemoryManager) (now b : Nat)
    (s : Segment)
    (hb : b < s.buffer_count)
    (hsem : (s.buffers b).sem = BufferSemaphoreFlags.Reading)
    (hid : (s.buffers b).sem_id = m.manager_id_) :
    ∃ s1 : Segment,
      MarkBufferEmpty m now (b : Int) s = (Except.ok (), s1) ∧
      (s1.buffers b).readPos = 0 ∧
      (s1.buffers b).writePos = 0 ∧
      (s1.buffers b).sem_id = -1 ∧
      (s1.buffers b).sem = BufferSemaphoreFlags.Empty ∧
      (∀ j, j ≠ b → s1.buffers j = s.buffers j) ∧
      s1.data = s.data ∧
      (∀ (m2 : SharedMemoryManager) (now2 wp n ii : Nat),
        (ii + wp) % s1.buffer_count = b →
        ∃ s2 : Segment,
          GetBufferForWriting.loop m2 now2 false wp (n + 1) ii s1 = (Except.ok (b : Int), s2) ∧
          (s2.buffers b).sem = BufferSemaphoreFlags.Writing ∧
          (s2.buffers b).sem_id = m2.manager_id_) ∧
      (∀ (m2 : SharedMemoryManager) (now2 : Nat),
        ∃ (j : Nat) (s2 : Segment),
          GetBufferForWriting m2 now2 false s1 = (Except.ok (j : Int), s2) ∧
          j < s1.buffer_count ∧
          (s2.buffers j).sem = BufferSemaphoreFlags.Writing ∧
          (s2.buffers j).sem_id = m2.manager_id_) := by
  have e := MarkBufferEmpty_apply m now b s hb
  simp only [hsem, hid, ne_eq, not_true_eq_false, if_false] at e
  have hE : ((s.setBuffer b (⟨0, 0, BufferSemaphoreFlags.Empty, -1, now⟩ : ShmBuffer)).buffers b).sem
      = BufferSemaphoreFlags.Empty := by
    rw [setBuffer_buffers_self]
  refine ⟨_, e, ?_, ?_, ?_, ?_, ?_, rfl, ?_, ?_⟩
  · simp [Segment.setBuffer]
  · simp [Segment.setBuffer]
  · simp [Segment.setBuffer]
  · exact hE
  · intro j hj
    exact setBuffer_buffers_other _ _ _ _ hj
  · intro m2 now2 wp n ii hii
    rw [GetBufferForWriting_loop_succ m2 now2 false wp n ii _ (by
      rw [setBuffer_buffer_count]; omega)]
    rw [hii, resetDesc_of_Empty _ _ _ hE]
    rw [if_pos (Or.inl hE)]
    exact ⟨_, rfl, by simp [Segment.setBuffer], by simp [Segment.setBuffer]⟩
  · intro m2 now2
    rw [GetBufferForWriting_apply]
    obtain ⟨k, hk1, hk2⟩ := exists_visit s.buffer_count
      (s.setBuffer b (⟨0, 0, BufferSemaphoreFlags.Empty, -1, now⟩ : ShmBuffer)).writer_pos b hb
    obtain ⟨j, s2, h1, h2, h3, h4, _⟩ := GetBufferForWriting_loop_finds m2 now2 false
      (s.setBuffer b (⟨0, 0, BufferSemaphoreFlags.Empty, -1, now⟩ : ShmBuffer)).writer_pos
      s.buffer_count 0
      (s.setBuffer b (⟨0, 0, BufferSemaphoreFlags.Empty, -1, now⟩ : ShmBuffer))
      (by rw [setBuffer_buffer_count]; omega)
      ⟨k, by omega, by omega, by rw [setBuffer_buffer_count, hk2]; exact hE⟩
    exact ⟨j, s2, h1, h2, h3, h4⟩

theorem C9_MarkBufferEmpty_postcondition_witness :
    (0 < segReading.buffer_count ∧
      (segReading.buffers 0).sem = BufferSemaphoreFlags.Reading ∧
      (segReading.buffers 0).sem_id = managerA.manager_id_) ∧
    ∃ s1 : Segment,
      MarkBufferEmpty managerA 9 ((0 : Nat) : Int) segReading = (Except.ok (), s1) ∧
      (s1.buffers 0).sem = BufferSemaphoreFlags.Empty ∧
      ∃ s2 : Segment,
        GetBufferForWriting.loop managerB 10 false 0 (1 + 1) 0 s1 =
          (Except.ok ((0 : Nat) : Int), s2) ∧
        (s2.buffers 0).sem_id = managerB.manager_id_ :=
  ⟨⟨by decide, by decide, by decide⟩,
    (C9_MarkBufferEmpty_postcondition managerA 9 0 segReading
      (by decide) (by decide) (by decide)).elim
      (fun s1 h => ⟨s1, h.1, h.2.2.2.2.1,
        (h.2.2.2.2.2.2.2.1 managerB 10 0 1 0
          (by rw [Nat.zero_add, Nat.zero_mod])).elim
          (fun s2 h2 => ⟨s2, h2.1, h2.2.2⟩)⟩)⟩

/-- C2. Failing input for the fragment round trip (the spec's solo round-trip
scenario, 4 buffers of 1024 bytes, sequence ID 42, body `[1, 2, 3]`, under
`testLayout`): `WriteFragment` returns 0 and `ReadFragment` returns 0 with the
header read back (size 5 words, the 16 header bytes equal), but the body is not:
the 24 body bytes of the destination are still zero. The second `Read` copied 16
payload bytes to byte offset 128 of the destination's storage. -/
theorem C2_ReadFragment_does_not_return_body :
    (WriteFragment testLayout managerA 10 (testFragment 42 [1, 2, 3]) false
      (freshSegment 4 1024)).1 = Except.ok 0 ∧
    ∃ (g : Fragment) (s2 : Segment),
      ReadFragment testLayout managerA 11 emptyFragment segOneFragment =
        (Except.ok (0, g), s2) ∧
      g.size = 5 ∧
      bytesOf g.mem 0 16 = bytesOf (testFragment 42 [1, 2, 3]).mem 0 16 ∧
      bytesOf (testFragment 42 [1, 2, 3]).mem 16 24 =
        [1, 0, 0, 0, 0, 0, 0, 0, 2, 0, 0, 0, 0, 0, 0, 0, 3, 0, 0, 0, 0, 0, 0, 0] ∧
      bytesOf g.mem 16 24 = List.replicate 24 0 ∧
      bytesOf g.mem 128 16 = [1, 0, 0, 0, 0, 0, 0, 0, 2, 0, 0, 0, 0, 0, 0, 0] := by
  refine ⟨rfl, _, _, rfl, ?_, ?_, ?_, ?_, ?_⟩
  · rfl
  · rfl
  · rfl
  · rfl
  · rfl

/-- C3. Failing input for the two-phase read (one fragment, sequence ID 42 and
body `[1, 2, 3]`, written into an otherwise empty segment):
`ReadFragmentHeader` returns 0 with the header bytes, but it has already marked
the buffer Empty; `ReadFragmentData` for the 3 body words then searches for a
buffer again, `GetBufferForReading` returns -1, and `Read(-1, ...)` throws
ArgumentOutOfRange, so the body is never delivered. -/
theorem C3_ReadFragmentData_after_header_throws :
    ∃ (h : Nat → Nat) (s2 : Segment),
      ReadFragmentHeader testLayout managerA 11 (fun _ => 0) segOneFragment =
        (Except.ok (0, h), s2) ∧
      bytesOf h 0 16 = bytesOf (testFragment 42 [1, 2, 3]).mem 0 16 ∧
      testLayout.word_count h - testLayout.num_words = 3 ∧
      (s2.buffers 0).sem = BufferSemaphoreFlags.Empty ∧
      (GetBufferForReading managerA 12 s2).1 = Except.ok (-1) ∧
      (ReadFragmentData testLayout managerA 12 (fun _ => 0) 3 s2).1 =
        Except.error Exn.ArgumentOutOfRange := by
  refine ⟨_, _, rfl, ?_, ?_, ?_, ?_, ?_⟩
  · rfl
  · rfl
  · rfl
  · rfl
  · rfl

/-! ## Write acquisition -/

/-- The writing search returns -1 and leaves the hint alone when no buffer it
still has to visit passes the acquisition test after being reset. -/
theorem GetBufferForWriting_loop_none (m : SharedMemoryManager) (now : Nat)
    (overwrite : Bool) (wp c : Nat) (B0 : Nat → ShmBuffer) :
    ∀ (n ii : Nat) (s : Segment), 0 < c → s.buffer_count = c →
      (∀ j, s.buffers j = B0 j ∨ s.buffers j = resetDesc m now (B0 j)) →
      (∀ k, ii ≤ k → k < ii + n → ¬ writable overwrite (resetDesc m now (B0 ((k + wp) % c)))) →
      ∃ s1 : Segment,
        GetBufferForWriting.loop m now overwrite wp n ii s = (Except.ok (-1), s1) ∧
        s1.writer_pos = s.writer_pos := by
  intro n
  induction n with
  | zero =>
    intro ii s _ _ _ _
    exact ⟨s, rfl, rfl⟩
  | succ n ih =>
    intro ii s hc hcs hinv hno
    have hc2 : 0 < s.buffer_count := by omega
    have hr : resetDesc m now (s.buffers ((ii + wp) % c)) =
        resetDesc m now (B0 ((ii + wp) % c)) := by
      rcases hinv ((ii + wp) % c) with h | h
      · rw [h]
      · rw [h, resetDesc_idem]
    rw [GetBufferForWriting_loop_succ m now overwrite wp n ii s hc2]
    simp only [hcs, hr]
    split_ifs with h
    · exact absurd h (hno ii (Nat.le_refl _) (by omega))
    · obtain ⟨s1, h1, h2⟩ := ih (ii + 1)
        (s.setBuffer ((ii + wp) % c) (resetDesc m now (B0 ((ii + wp) % c)))) hc hcs
        (by
          intro j
          by_cases hjj : j = (ii + wp) % c
          · subst hjj
            right
            rw [setBuffer_buffers_self]
          · rw [setBuffer_buffers_other _ _ _ _ hjj]
            exact hinv j)
        (by
          intro k hk1 hk2
          exact hno k (by omega) (by omega))
      exact ⟨s1, h1, h2⟩

/-- The writing search returns the first buffer, in visiting order, that
passes the acquisition test after being reset, and leaves it claimed. -/
theorem GetBufferForWriting_loop_first (m : SharedMemoryManager) (now : Nat)
    (overwrite : Bool) (wp c : Nat) (B0 : Nat → ShmBuffer) :
    ∀ (n ii : Nat) (s : Segment), 0 < c → s.buffer_count = c →
      (∀ j, s.buffers j = B0 j ∨ s.buffers j = resetDesc m now (B0 j)) →
      ∀ k, ii ≤ k → k < ii + n →
      writable overwrite (resetDesc m now (B0 ((k + wp) % c))) →
      (∀ k2, ii ≤ k2 → k2 < k →
        ¬ writable overwrite (resetDesc m now (B0 ((k2 + wp) % c)))) →
      ∃ s1 : Segment,
        GetBufferForWriting.loop m now overwrite wp n ii s =
          (Except.ok (((k + wp) % c : Nat) : Int), s1) ∧
        s1.buffers ((k + wp) % c) =
          { (resetDesc m now (B0 ((k + wp) % c))) with
            sem_id := m.manager_id_, sem := BufferSemaphoreFlags.Writing, writePos := 0 } ∧
        s1.writer_pos = ((k + wp) % c + 1) % c := by
  intro n
  induction n with
  | zero =>
    intro ii s _ _ _ k h1 h2 _ _
    omega
  | succ n ih =>
    intro ii s hc hcs hinv k hk1 hk2 hyes hno
    have hc2 : 0 < s.buffer_count := by omega
    have hr : resetDesc m now (s.buffers ((ii + wp) % c)) =
        resetDesc m now (B0 ((ii + wp) % c)) := by
      rcases hinv ((ii + wp) % c) with h | h
      · rw [h]
      · rw [h, resetDesc_idem]
    rw [GetBufferForWriting_loop_succ m now overwrite wp n ii s hc2]
    simp only [hcs, hr]
    rcases Nat.eq_or_lt_of_le hk1 with hik | hik
    · subst hik
      split_ifs with h
      · exact ⟨_, rfl, by simp [Segment.setBuffer], rfl⟩
      · exact absurd hyes h
    · split_ifs with h
      · exact absurd h (hno ii (Nat.le_refl _) hik)
      · exact ih (ii + 1)
          (s.setBuffer ((ii + wp) % c) (resetDesc m now (B0 ((ii + wp) % c)))) hc hcs
          (by
            intro j
            by_cases hjj : j = (ii + wp) % c
            · subst hjj
              right
              rw [setBuffer_buffers_self]
            · rw [setBuffer_buffers_other _ _ _ _ hjj]
              exact hinv j)
          k (by omega) (by omega) hyes
          (by
            intro k2 h1 h2
            exact hno k2 (by omega) h2)

theorem afterReset_eq (m : SharedMemoryManager) (now : Nat) (s : Segment) (i : Nat)
    (hi : i < s.buffer_count) : afterReset m now s i = resetDesc m now (s.buffers i) := by
  unfold afterReset
  rw [ResetBuffer_apply m now i s hi]
  exact setBuffer_buffers_self _ _ _

/-- The two outcomes of `GetBufferForWriting`: -1 with the hint unchanged when
no buffer passes the test after `ResetBuffer`, otherwise the first buffer in
round-robin order from `writer_pos` that does, left claimed. -/
theorem GetBufferForWriting_cases (m : SharedMemoryManager) (now : Nat) (overwrite : Bool)
    (s : Segment) :
    ((∀ i, i < s.buffer_count → ¬ writable overwrite (afterReset m now s i)) ∧
      ∃ s1 : Segment, GetBufferForWriting m now overwrite s = (Except.ok (-1), s1) ∧
        s1.writer_pos = s.writer_pos) ∨
    (∃ k, k < s.buffer_count ∧
      writable overwrite (afterReset m now s ((k + s.writer_pos) % s.buffer_count)) ∧
      (∀ k2, k2 < k →
        ¬ writable overwrite (afterReset m now s ((k2 + s.writer_pos) % s.buffer_count))) ∧
      ∃ s1 : Segment,
        GetBufferForWriting m now overwrite s =
          (Except.ok (((k + s.writer_pos) % s.buffer_count : Nat) : Int), s1) ∧
        (s1.buffers ((k + s.writer_pos) % s.buffer_count)).sem = BufferSemaphoreFlags.Writing ∧
        (s1.buffers ((k + s.writer_pos) % s.buffer_count)).sem_id = m.manager_id_ ∧
        (s1.buffers ((k + s.writer_pos) % s.buffer_count)).writePos = 0 ∧
        s1.writer_pos = ((k + s.writer_pos) % s.buffer_count + 1) % s.buffer_count) := by
  rw [GetBufferForWriting_apply]
  by_cases hc : 0 < s.buffer_count
  · have hmod : ∀ k, (k + s.writer_pos) % s.buffer_count < s.buffer_count :=
      fun k => Nat.mod_lt _ hc
    by_cases hex : ∃ k, k < s.buffer_count ∧
        writable overwrite (resetDesc m now (s.buffers ((k + s.writer_pos) % s.buffer_count)))
    · right
      classical
      have hk := Nat.find_spec hex
      have hmin : ∀ k2, k2 < Nat.find hex →
          ¬ writable overwrite
            (resetDesc m now (s.buffers ((k2 + s.writer_pos) % s.buffer_count))) := by
        intro k2 h2 hw
        exact Nat.find_min hex h2 ⟨by omega, hw⟩
      obtain ⟨s1, h1, h2, h3⟩ := GetBufferForWriting_loop_first m now overwrite s.writer_pos
        s.buffer_count s.buffers s.buffer_count 0 s hc rfl (fun j => Or.inl rfl)
        (Nat.find hex) (Nat.zero_le _) (by omega) hk.2
        (fun k2 _ h => hmin k2 h)
      refine ⟨Nat.find hex, hk.1, ?_, ?_, s1, h1, ?_, ?_, ?_, h3⟩
      · rw [afterReset_eq _ _ _ _ (hmod _)]
        exact hk.2
      · intro k2 h
        rw [afterReset_eq _ _ _ _ (hmod _)]
        exact hmin k2 h
      · rw [h2]
      · rw [h2]
      · rw [h2]
    · left
      have hno : ∀ k, k < s.buffer_count →
          ¬ writable overwrite
            (resetDesc m now (s.buffers ((k + s.writer_pos) % s.buffer_count))) :=
        fun k hk hw => hex ⟨k, hk, hw⟩
      constructor
      · intro i hi
        obtain ⟨k, hk1, hk2⟩ := exists_visit s.buffer_count s.writer_pos i hi
        rw [afterReset_eq _ _ _ _ hi, ← hk2]
        exact hno k hk1
      · exact GetBufferForWriting_loop_none m now overwrite s.writer_pos s.buffer_count
          s.buffers s.buffer_count 0 s hc rfl (fun j => Or.inl rfl)
          (fun k _ hk => hno k (by omega))
  · left
    have h0 : s.buffer_count = 0 := by omega
    constructor
    · intro i hi
      omega
    · rw [h0]
      exact ⟨s, rfl, rfl⟩

theorem ReadyForRead_loop_state (m : SharedMemoryManager) (rp : Nat) :
    ∀ (n ii : Nat) (s : Segment), (ReadyForRead.loop m rp n ii s).2 = s := by
  intro n
  induction n with
  | zero =>
    intro ii s
    rfl
  | succ n ih =>
    intro ii s
    rw [ReadyForRead.loop]
    simp only [Shm.bind_apply, hdr_apply, getBufferInfo_apply, load_apply]
    by_cases h : s.buffer_count ≤ (ii + rp) % s.buffer_count
    · simp [h]
    · simp only [h, if_false]
      split_ifs
      · rfl
      · exact ih (ii + 1) s

theorem ReadyForWrite_loop_state (overwrite : Bool) (wp : Nat) :
    ∀ (n ii : Nat) (s : Segment), (ReadyForWrite.loop overwrite wp n ii s).2 = s := by
  intro n
  induction n with
  | zero =>
    intro ii s
    rfl
  | succ n ih =>
    intro ii s
    rw [ReadyForWrite.loop]
    simp only [Shm.bind_apply, hdr_apply, getBufferInfo_apply, load_apply]
    by_cases h : s.buffer_count ≤ (ii + wp) % s.buffer_count
    · simp [h]
    · simp only [h, if_false]
      split_ifs
      · rfl
      · exact ih (ii + 1) s

theorem ReadReadyCount_loop_state (m : SharedMemoryManager) :
    ∀ (n ii count : Nat) (s : Segment), (ReadReadyCount.loop m n ii count s).2 = s := by
  intro n
  induction n with
  | zero =>
    intro ii count s
    rfl
  | succ n ih =>
    intro ii count s
    rw [ReadReadyCount.loop]
    simp only [Shm.bind_apply, getBufferInfo_apply, load_apply]
    by_cases h : s.buffer_count ≤ ii
    · simp [h]
    · simp only [h, if_false]
      split_ifs
      · exact ih (ii + 1) (count + 1) s
      · exact ih (ii + 1) count s

theorem WriteReadyCount_loop_state (overwrite : Bool) :
    ∀ (n ii count : Nat) (s : Segment),
      (WriteReadyCount.loop overwrite n ii count s).2 = s := by
  intro n
  induction n with
  | zero =>
    intro ii count s
    rfl
  | succ n ih =>
    intro ii count s
    rw [WriteReadyCount.loop]
    simp only [Shm.bind_apply, getBufferInfo_apply, load_apply]
    by_cases h : s.buffer_count ≤ ii
    · simp [h]
    · simp only [h, if_false]
      split_ifs
      · exact ih (ii + 1) (count + 1) s
      · exact ih (ii + 1) count s

theorem ReadyForRead_loop_ok (m : SharedMemoryManager) (rp : Nat) :
    ∀ (n ii : Nat) (s : Segment), 0 < s.buffer_count →
      ∃ r : Bool, (ReadyForRead.loop m rp n ii s).1 = Except.ok r := by
  intro n
  induction n with
  | zero =>
    intro ii s _
    exact ⟨false, rfl⟩
  | succ n ih =>
    intro ii s hc
    have h : ¬ s.buffer_count ≤ (ii + rp) % s.buffer_count :=
      Nat.not_le.mpr (Nat.mod_lt _ hc)
    rw [ReadyForRead.loop]
    simp only [Shm.bind_apply, hdr_apply, getBufferInfo_apply, load_apply, h, if_false]
    split_ifs
    · exact ⟨true, rfl⟩
    · exact ih (ii + 1) s hc

theorem ReadyForWrite_loop_ok (overwrite : Bool) (wp : Nat) :
    ∀ (n ii : Nat) (s : Segment), 0 < s.buffer_count →
      ∃ r : Bool, (ReadyForWrite.loop overwrite wp n ii s).1 = Except.ok r := by
  intro n
  induction n with
  | zero =>
    intro ii s _
    exact ⟨false, rfl⟩
  | succ n ih =>
    intro ii s hc
    have h : ¬ s.buffer_count ≤ (ii + wp) % s.buffer_count :=
      Nat.not_le.mpr (Nat.mod_lt _ hc)
    rw [ReadyForWrite.loop]
    simp only [Shm.bind_apply, hdr_apply, getBufferInfo_apply, load_apply, h, if_false]
    split_ifs
    · exact ⟨true, rfl⟩
    · exact ih (ii + 1) s hc

theorem ReadReadyCount_loop_ok (m : SharedMemoryManager) :
    ∀ (n ii count : Nat) (s : Segment), ii + n ≤ s.buffer_count →
      ∃ r : Nat, (ReadReadyCount.loop m n ii count s).1 = Except.ok r := by
  intro n
  induction n with
  | zero =>
    intro ii count s _
    exact ⟨count, rfl⟩
  | succ n ih =>
    intro ii count s hc
    have h : ¬ s.buffer_count ≤ ii := by omega
    rw [ReadReadyCount.loop]
    simp only [Shm.bind_apply, getBufferInfo_apply, load_apply, h, if_false]
    split_ifs
    · exact ih (ii + 1) (count + 1) s (by omega)
    · exact ih (ii + 1) count s (by omega)

theorem WriteReadyCount_loop_ok (overwrite : Bool) :
    ∀ (n ii count : Nat) (s : Segment), ii + n ≤ s.buffer_count →
      ∃ r : Nat, (WriteReadyCount.loop overwrite n ii count s).1 = Except.ok r := by
  intro n
  induction n with
  | zero =>
    intro ii count s _
    exact ⟨count, rfl⟩
  | succ n ih =>
    intro ii count s hc
    have h : ¬ s.buffer_count ≤ ii := by omega
    rw [WriteReadyCount.loop]
    simp only [Shm.bind_apply, getBufferInfo_apply, load_apply, h, if_false]
    split_ifs
    · exact ih (ii + 1) (count + 1) s (by omega)
    · exact ih (ii + 1) count s (by omega)

/-- C20. Readiness queries do not mutate state: `ReadyForRead()`,
`ReadyForWrite(overwrite)`, `ReadReadyCount()` and `WriteReadyCount(overwrite)`
return a value without throwing and leave the whole segment (`reader_pos`,
`writer_pos`, every field of every descriptor, the payload) unchanged, so
calling any of them twice in a row returns the same result. -/
theorem C20_readiness_queries_do_not_mutate (m : SharedMemoryManager) (overwrite : Bool)
    (s : Segment) :
    ((∃ r : Bool, ReadyForRead m s = (Except.ok r, s)) ∧
      (∃ r : Bool, ReadyForWrite overwrite s = (Except.ok r, s)) ∧
      (∃ r : Nat, ReadReadyCount m s = (Except.ok r, s)) ∧
      (∃ r : Nat, WriteReadyCount overwrite s = (Except.ok r, s))) ∧
    ((ReadyForRead m (ReadyForRead m s).2).1 = (ReadyForRead m s).1 ∧
      (ReadyForWrite overwrite (ReadyForWrite overwrite s).2).1 =
        (ReadyForWrite overwrite s).1 ∧
      (ReadReadyCount m (ReadReadyCount m s).2).1 = (ReadReadyCount m s).1 ∧
      (WriteReadyCount overwrite (WriteReadyCount overwrite s).2).1 =
        (WriteReadyCount overwrite s).1) := by
  have e1 : ReadyForRead m s = ReadyForRead.loop m s.reader_pos s.buffer_count 0 s := by
    simp [ReadyForRead]
  have e2 : ReadyForWrite overwrite s =
      ReadyForWrite.loop overwrite s.writer_pos s.buffer_count 0 s := by
    simp [ReadyForWrite]
  have e3 : ReadReadyCount m s = ReadReadyCount.loop m s.buffer_count 0 0 s := by
    simp [ReadReadyCount]
  have e4 : WriteReadyCount overwrite s =
      WriteReadyCount.loop overwrite s.buffer_count 0 0 s := by
    simp [WriteReadyCount]
  have s1 : (ReadyForRead m s).2 = s := by rw [e1]; exact ReadyForRead_loop_state _ _ _ _ _
  have s2 : (ReadyForWrite overwrite s).2 = s := by
    rw [e2]; exact ReadyForWrite_loop_state _ _ _ _ _
  have s3 : (ReadReadyCount m s).2 = s := by
    rw [e3]; exact ReadReadyCount_loop_state _ _ _ _ _
  have s4 : (WriteReadyCount overwrite s).2 = s := by
    rw [e4]; exact WriteReadyCount_loop_state _ _ _ _ _
  have o1 : ∃ r : Bool, (ReadyForRead m s).1 = Except.ok r := by
    rw [e1]
    by_cases hc : 0 < s.buffer_count
    · exact ReadyForRead_loop_ok _ _ _ _ _ hc
    · have h0 : s.buffer_count = 0 := by omega
      rw [h0]
      exact ⟨false, rfl⟩
  have o2 : ∃ r : Bool, (ReadyForWrite overwrite s).1 = Except.ok r := by
    rw [e2]
    by_cases hc : 0 < s.buffer_count
    · exact ReadyForWrite_loop_ok _ _ _ _ _ hc
    · have h0 : s.buffer_count = 0 := by omega
      rw [h0]
      exact ⟨false, rfl⟩
  have o3 : ∃ r : Nat, (ReadReadyCount m s).1 = Except.ok r := by
    rw [e3]
    exact ReadReadyCount_loop_ok _ _ _ _ _ (by omega)
  have o4 : ∃ r : Nat, (WriteReadyCount overwrite s).1 = Except.ok r := by
    rw [e4]
    exact WriteReadyCount_loop_ok _ _ _ _ _ (by omega)
  refine ⟨⟨?_, ?_, ?_, ?_⟩, ?_, ?_, ?_, ?_⟩
  · obtain ⟨r, hr⟩ := o1
    exact ⟨r, Prod.ext hr s1⟩
  · obtain ⟨r, hr⟩ := o2
    exact ⟨r, Prod.ext hr s2⟩
  · obtain ⟨r, hr⟩ := o3
    exact ⟨r, Prod.ext hr s3⟩
  · obtain ⟨r, hr⟩ := o4
    exact ⟨r, Prod.ext hr s4⟩
  · rw [s1]
  · rw [s2]
  · rw [s3]
  · rw [s4]

/-! ## Unavailability and capacity -/

/-- C18. Failing inputs for "unavailability is a sentinel": with a valid
manager on a fresh segment (every buffer Empty) `GetBufferForReading` returns
-1 and `ReadFragment`, `ReadFragmentHeader` and `ReadFragmentData` do not return
-1 but throw ArgumentOutOfRange from `Read(-1, ...)`; on a segment whose buffers
are all Full `GetBufferForWriting(false)` returns -1 and `WriteFragment` throws
ArgumentOutOfRange from `Write(-1, ...)`. -/
theorem C18_unavailability_throws :
    IsValid managerA = true ∧
    (GetBufferForReading managerA 9 (freshSegment 4 1024)).1 = Except.ok (-1) ∧
    (ReadFragment testLayout managerA 9 emptyFragment (freshSegment 4 1024)).1 =
      Except.error Exn.ArgumentOutOfRange ∧
    (ReadFragmentHeader testLayout managerA 9 (fun _ => 0) (freshSegment 4 1024)).1 =
      Except.error Exn.ArgumentOutOfRange ∧
    (ReadFragmentData testLayout managerA 9 (fun _ => 0) 3 (freshSegment 4 1024)).1 =
      Except.error Exn.ArgumentOutOfRange ∧
    (GetBufferForWriting managerA 9 false segAllFull).1 = Except.ok (-1) ∧
    (WriteFragment testLayout managerA 9 (testFragment 42 [1, 2, 3]) false segAllFull).1 =
      Except.error Exn.ArgumentOutOfRange := by
  refine ⟨rfl, ?_, ?_, ?_, ?_, ?_, ?_⟩
  · rfl
  · rfl
  · rfl
  · rfl
  · rfl
  · rfl

theorem cycle_step (m : SharedMemoryManager) (t1 t2 t3 t4 n k : Nat) (s : Segment)
    (hn : 0 < n) (hc : s.buffer_count = n)
    (hrp : s.reader_pos = k % n) (hwp : s.writer_pos = k % n)
    (hE : ∀ j, j < n → (s.buffers j).sem = BufferSemaphoreFlags.Empty) :
    ∃ s4 : Segment,
      cycle m t1 t2 t3 t4 s = (Except.ok (((k % n : Nat) : Int), ((k % n : Nat) : Int)), s4) ∧
      s4.buffer_count = n ∧ s4.reader_pos = (k + 1) % n ∧ s4.writer_pos = (k + 1) % n ∧
      (∀ j, j < n → (s4.buffers j).sem = BufferSemaphoreFlags.Empty) := by
  obtain ⟨c, rfl⟩ : ∃ c, n = c + 1 := ⟨n - 1, by omega⟩
  have hb : k % (c + 1) < c + 1 := Nat.mod_lt _ hn
  have hidx : (0 + k % (c + 1)) % (c + 1) = k % (c + 1) := by
    rw [Nat.zero_add, Nat.mod_mod]
  have hnext : (k % (c + 1) + 1) % (c + 1) = (k + 1) % (c + 1) := Nat.mod_add_mod _ _ _
  obtain ⟨s1, e1, hc1, hr1, hw1, hb1, ho1⟩ : ∃ s1 : Segment,
      GetBufferForWriting m t1 false s = (Except.ok ((k % (c + 1) : Nat) : Int), s1) ∧
      s1.buffer_count = c + 1 ∧ s1.reader_pos = k % (c + 1) ∧
      s1.writer_pos = (k + 1) % (c + 1) ∧
      ((s1.buffers (k % (c + 1))).sem = BufferSemaphoreFlags.Writing ∧
        (s1.buffers (k % (c + 1))).sem_id = m.manager_id_) ∧
      (∀ j, j ≠ k % (c + 1) → s1.buffers j = s.buffers j) := by
    rw [GetBufferForWriting_apply, hc, hwp,
      GetBufferForWriting_loop_succ m t1 false _ c 0 s (by omega)]
    simp only [hc, hidx]
    rw [resetDesc_of_Empty _ _ _ (hE _ hb), if_pos (Or.inl (hE _ hb))]
    refine ⟨_, rfl, hc, hrp, hnext, ⟨?_, ?_⟩, ?_⟩
    · simp [Segment.setBuffer]
    · simp [Segment.setBuffer]
    · intro j hj
      simp [Segment.setBuffer, Function.update_noteq hj]
  obtain ⟨s2, e2, hc2, hr2, hw2, hb2, ho2⟩ : ∃ s2 : Segment,
      MarkBufferFull m t2 ((k % (c + 1) : Nat) : Int) (-1) s1 = (Except.ok (), s2) ∧
      s2.buffer_count = c + 1 ∧ s2.reader_pos = k % (c + 1) ∧
      s2.writer_pos = (k + 1) % (c + 1) ∧
      ((s2.buffers (k % (c + 1))).sem = BufferSemaphoreFlags.Full ∧
        (s2.buffers (k % (c + 1))).sem_id = -1) ∧
      (∀ j, j ≠ k % (c + 1) → s2.buffers j = s.buffers j) := by
    rw [MarkBufferFull_apply m t2 _ (-1) s1 (by omega)]
    simp only [hb1.1, hb1.2, ne_eq, not_true_eq_false, if_false]
    refine ⟨_, rfl, hc1, hr1, hw1, ⟨?_, ?_⟩, ?_⟩
    · simp [Segment.setBuffer]
    · simp [Segment.setBuffer]
    · intro j hj
      rw [setBuffer_buffers_other _ _ _ _ hj]
      exact ho1 j hj
  obtain ⟨s3, e3, hc3, hr3, hw3, hb3, ho3⟩ : ∃ s3 : Segment,
      GetBufferForReading m t3 s2 = (Except.ok ((k % (c + 1) : Nat) : Int), s3) ∧
      s3.buffer_count = c + 1 ∧ s3.reader_pos = (k + 1) % (c + 1) ∧
      s3.writer_pos = (k + 1) % (c + 1) ∧
      ((s3.buffers (k % (c + 1))).sem = BufferSemaphoreFlags.Reading ∧
        (s3.buffers (k % (c + 1))).sem_id = m.manager_id_) ∧
      (∀ j, j ≠ k % (c + 1) → s3.buffers j = s.buffers j) := by
    rw [GetBufferForReading_apply, hc2, hr2,
      GetBufferForReading_loop_succ m t3 _ c 0 s2 (by omega)]
    simp only [hc2, hidx]
    rw [resetDesc_of_Full _ _ _ hb2.1, if_pos ⟨hb2.1, Or.inl hb2.2⟩]
    refine ⟨_, rfl, hc2, hnext, hw2, ⟨?_, ?_⟩, ?_⟩
    · simp [Segment.setBuffer]
    · simp [Segment.setBuffer]
    · intro j hj
      have : ({ (s2.setBuffer (k % (c + 1))
          { (s2.buffers (k % (c + 1))) with
            sem_id := m.manager_id_, sem := BufferSemaphoreFlags.Reading, readPos := 0 }) with
          reader_pos := (k % (c + 1) + 1) % (c + 1) } : Segment).buffers j = s2.buffers j :=
        setBuffer_buffers_other _ _ _ _ hj
      rw [this]
      exact ho2 j hj
  obtain ⟨s4, e4, hc4, hr4, hw4, hb4⟩ : ∃ s4 : Segment,
      MarkBufferEmpty m t4 ((k % (c + 1) : Nat) : Int) s3 = (Except.ok (), s4) ∧
      s4.buffer_count = c + 1 ∧ s4.reader_pos = (k + 1) % (c + 1) ∧
      s4.writer_pos = (k + 1) % (c + 1) ∧
      (∀ j, j < c + 1 → (s4.buffers j).sem = BufferSemaphoreFlags.Empty) := by
    rw [MarkBufferEmpty_apply m t4 _ s3 (by omega)]
    simp only [hb3.1, hb3.2, ne_eq, not_true_eq_false, if_false]
    refine ⟨_, rfl, hc3, hr3, hw3, ?_⟩
    intro j hj
    by_cases hjb : j = k % (c + 1)
    · subst hjb
      rw [setBuffer_buffers_self]
    · rw [setBuffer_buffers_other _ _ _ _ hjb, ho3 j hjb]
      exact hE j hj
  refine ⟨s4, ?_, hc4, hr4, hw4, hb4⟩
  simp only [cycle, Shm.bind_apply, e1, e2, e3, e4, Shm.pure_apply]

theorem afterCycles_inv (m : SharedMemoryManager) (clk : Nat → Nat) (n S : Nat) (hn : 0 < n) :
    ∀ k, (afterCycles m clk n S k).buffer_count = n ∧
      (afterCycles m clk n S k).reader_pos = k % n ∧
      (afterCycles m clk n S k).writer_pos = k % n ∧
      (∀ j, j < n → ((afterCycles m clk n S k).buffers j).sem = BufferSemaphoreFlags.Empty) := by
  intro k
  induction k with
  | zero =>
    simp only [afterCycles, freshSegment_eq, Nat.zero_mod]
    refine ⟨trivial, trivial, trivial, ?_⟩
    intro j hj
    simp [hj]
  | succ k ih =>
    obtain ⟨h1, h2, h3, h4⟩ := ih
    obtain ⟨s4, e, g1, g2, g3, g4⟩ := cycle_step m (clk (4 * k)) (clk (4 * k + 1))
      (clk (4 * k + 2)) (clk (4 * k + 3)) n k (afterCycles m clk n S k) hn h1 h2 h3 h4
    have hs : afterCycles m clk n S (k + 1) = s4 := by
      simp only [afterCycles, e]
    rw [hs]
    exact ⟨g1, g2, g3, g4⟩

/-- C17. Hint fairness: on a freshly created segment with `n >= 1` buffers, a
single manager repeating `GetBufferForWriting(false); MarkBufferFull;
GetBufferForReading; MarkBufferEmpty` acquires, in the `k`-th cycle
(`k = 0, 1, ...`), buffer index `k mod n` for both the write and the read, for
every sequence of clock readings; with `n = 4`, among the first 16 cycles each
index is acquired exactly 4 times. -/
theorem C17_hint_fairness (m : SharedMemoryManager) (clk : Nat → Nat) (n S : Nat)
    (hn : 0 < n) :
    (∀ k, kthCycle m clk n S k = Except.ok (((k % n : Nat) : Int), ((k % n : Nat) : Int))) ∧
    (∀ i : Nat, i < 4 →
      ((List.range 16).filter
        (fun k => decide (acquiredIndex (kthCycle m clk 4 S k) = some ((i : Nat) : Int)))).length
        = 4) := by
  have gen : ∀ (n : Nat), 0 < n → ∀ k,
      kthCycle m clk n S k = Except.ok (((k % n : Nat) : Int), ((k % n : Nat) : Int)) := by
    intro n hn k
    obtain ⟨h1, h2, h3, h4⟩ := afterCycles_inv m clk n S hn k
    obtain ⟨s4, e, _⟩ := cycle_step m (clk (4 * k)) (clk (4 * k + 1))
      (clk (4 * k + 2)) (clk (4 * k + 3)) n k (afterCycles m clk n S k) hn h1 h2 h3 h4
    simp only [kthCycle, e]
  refine ⟨gen n hn, ?_⟩
  intro i hi
  have hf : (fun k => decide (acquiredIndex (kthCycle m clk 4 S k) = some ((i : Nat) : Int))) =
      (fun k : Nat => decide (k % 4 = i)) := by
    funext k
    rw [gen 4 (by decide) k]
    simp only [acquiredIndex, Option.some.injEq, Nat.cast_inj]
  rw [hf]
  interval_cases i <;> rfl

theorem C17_hint_fairness_witness :
    0 < 4 ∧
    kthCycle managerA (fun j => j) 4 1024 5 = Except.ok (((5 % 4 : Nat) : Int), ((5 % 4 : Nat) : Int)) ∧
    ((List.range 16).filter
      (fun k => decide (acquiredIndex (kthCycle managerA (fun j => j) 4 1024 k) =
        some ((2 : Nat) : Int)))).length = 4 :=
  ⟨by decide, (C17_hint_fairness managerA (fun j => j) 4 1024 (by decide)).1 5,
    (C17_hint_fairness managerA (fun j => j) 4 1024 (by decide)).2 2 (by decide)⟩

/-! ## What one call does to one descriptor -/

theorem Write_int (m : SharedMemoryManager) (now : Nat) (buffer : Int) (src : Nat → Nat)
    (size : Nat) :
    Write m now buffer src size = Write m now ((toSizeT buffer : Nat) : Int) src size := by
  simp only [Write, GetWritePos, getBufferInfo_, bufferStart_, toSizeT_natCast]

theorem Read_int (m : SharedMemoryManager) (now : Nat) (buffer : Int) (dst : Nat → Nat)
    (off size : Nat) :
    Read m now buffer dst off size =
      Read m now ((toSizeT buffer : Nat) : Int) dst off size := by
  simp only [Read, GetReadPos, getBufferInfo_, bufferStart_, toSizeT_natCast]

theorem MarkBufferFull_int (m : SharedMemoryManager) (now : Nat) (buffer d : Int) :
    MarkBufferFull m now buffer d = MarkBufferFull m now ((toSizeT buffer : Nat) : Int) d := by
  simp only [MarkBufferFull, getBufferInfo_, toSizeT_natCast]

theorem MarkBufferEmpty_int (m : SharedMemoryManager) (now : Nat) (buffer : Int) :
    MarkBufferEmpty m now buffer = MarkBufferEmpty m now ((toSizeT buffer : Nat) : Int) := by
  simp only [MarkBufferEmpty, getBufferInfo_, toSizeT_natCast]

theorem ResetBuffer_int (m : SharedMemoryManager) (now : Nat) (buffer : Int) :
    ResetBuffer m now buffer = ResetBuffer m now ((toSizeT buffer : Nat) : Int) := by
  simp only [ResetBuffer, getBufferInfo_, toSizeT_natCast]

theorem IncrementReadPos_int (now : Nat) (buffer : Int) (n : Nat) :
    IncrementReadPos now buffer n = IncrementReadPos now ((toSizeT buffer : Nat) : Int) n := by
  simp only [IncrementReadPos, getBufferInfo_, toSizeT_natCast]

theorem IncrementWritePos_int (now : Nat) (buffer : Int) (n : Nat) :
    IncrementWritePos now buffer n =
      IncrementWritePos now ((toSizeT buffer : Nat) : Int) n := by
  simp only [IncrementWritePos, getBufferInfo_, toSizeT_natCast]

theorem ResetReadPos_int (now : Nat) (buffer : Int) :
    ResetReadPos now buffer = ResetReadPos now ((toSizeT buffer : Nat) : Int) := by
  simp only [ResetReadPos, getBufferInfo_, toSizeT_natCast]

theorem Write_effect (m : SharedMemoryManager) (now i : Nat) (src : Nat → Nat) (size : Nat)
    (s : Segment) (j : Nat) :
    Op.descStep (Op.write m now (i : Int) src size) s.buffer_size (s.buffers j)
        ((Write m now (i : Int) src size s).2.buffers j) ∧
      (Write m now (i : Int) src size s).2.buffer_size = s.buffer_size := by
  by_cases hi : i < s.buffer_count
  · rw [Write_apply m now i src size s hi]
    by_cases hj : j = i
    · subst hj
      split_ifs <;> simp [Op.descStep]
      omega
    · split_ifs <;> simp [Op.descStep, Function.update_noteq hj]
  · have e : Write m now (i : Int) src size s = (Except.error Exn.ArgumentOutOfRange, s) := by
      simp [Write, getBufferInfo_apply, Nat.not_lt.mp hi]
    rw [e]
    simp [Op.descStep]

theorem Read_effect (m : SharedMemoryManager) (now i : Nat) (dst : Nat → Nat) (off size : Nat)
    (s : Segment) (j : Nat) :
    Op.descStep (Op.read m now (i : Int) dst off size) s.buffer_size (s.buffers j)
        ((Read m now (i : Int) dst off size s).2.buffers j) ∧
      (Read m now (i : Int) dst off size s).2.buffer_size = s.buffer_size := by
  by_cases hi : i < s.buffer_count
  · rw [Read_apply m now i dst off size s hi]
    by_cases hj : j = i
    · subst hj
      split_ifs <;> simp [Op.descStep, Segment.setBuffer]
      omega
    · split_ifs <;> simp [Op.descStep, Segment.setBuffer, Function.update_noteq hj]
  · have e : Read m now (i : Int) dst off size s =
        (Except.error Exn.ArgumentOutOfRange, s) := by
      simp [Read, getBufferInfo_apply, Nat.not_lt.mp hi]
    rw [e]
    simp [Op.descStep]

theorem MarkBufferFull_effect (m : SharedMemoryManager) (now i : Nat) (d : Int)
    (s : Segment) (j : Nat) :
    Op.descStep (Op.markBufferFull m now (i : Int) d) s.buffer_size (s.buffers j)
        ((MarkBufferFull m now (i : Int) d s).2.buffers j) ∧
      (MarkBufferFull m now (i : Int) d s).2.buffer_size = s.buffer_size := by
  by_cases hi : i < s.buffer_count
  · rw [MarkBufferFull_apply m now i d s hi]
    by_cases hj : j = i
    · subst hj
      split_ifs with h1 h2 <;> simp [Op.descStep, Segment.setBuffer]
      right
      exact not_not.mp h1
    · split_ifs <;> simp [Op.descStep, Segment.setBuffer, Function.update_noteq hj]
  · have e : MarkBufferFull m now (i : Int) d s =
        (Except.error Exn.ArgumentOutOfRange, s) := by
      simp [MarkBufferFull, getBufferInfo_apply, Nat.not_lt.mp hi]
    rw [e]
    simp [Op.descStep]

theorem MarkBufferEmpty_effect (m : SharedMemoryManager) (now i : Nat)
    (s : Segment) (j : Nat) :
    Op.descStep (Op.markBufferEmpty m now (i : Int)) s.buffer_size (s.buffers j)
        ((MarkBufferEmpty m now (i : Int) s).2.buffers j) ∧
      (MarkBufferEmpty m now (i : Int) s).2.buffer_size = s.buffer_size := by
  by_cases hi : i < s.buffer_count
  · rw [MarkBufferEmpty_apply m now i s hi]
    by_cases hj : j = i
    · subst hj
      split_ifs with h1 h2 <;> simp [Op.descStep, Segment.setBuffer]
      right
      exact not_not.mp h1
    · split_ifs <;> simp [Op.descStep, Segment.setBuffer, Function.update_noteq hj]
  · have e : MarkBufferEmpty m now (i : Int) s =
        (Except.error Exn.ArgumentOutOfRange, s) := by
      simp [MarkBufferEmpty, getBufferInfo_apply, Nat.not_lt.mp hi]
    rw [e]
    simp [Op.descStep]

theorem ResetBuffer_effect (m : SharedMemoryManager) (now i : Nat) (s : Segment) (j : Nat) :
    Op.descStep (Op.resetBuffer m now (i : Int)) s.buffer_size (s.buffers j)
        ((ResetBuffer m now (i : Int) s).2.buffers j) ∧
      (ResetBuffer m now (i : Int) s).2.buffer_size = s.buffer_size := by
  by_cases hi : i < s.buffer_count
  · rw [ResetBuffer_apply m now i s hi]
    by_cases hj : j = i
    · subst hj
      simp [Op.descStep, Segment.setBuffer]
    · simp [Op.descStep, Segment.setBuffer, Function.update_noteq hj]
  · have e : ResetBuffer m now (i : Int) s = (Except.error Exn.ArgumentOutOfRange, s) := by
      simp [ResetBuffer, getBufferInfo_apply, Nat.not_lt.mp hi]
    rw [e]
    simp [Op.descStep]

theorem IncrementReadPos_effect (now i n : Nat) (s : Segment) (j : Nat) :
    Op.descStep (Op.incrementReadPos now (i : Int) n) s.buffer_size (s.buffers j)
        ((IncrementReadPos now (i : Int) n s).2.buffers j) ∧
      (IncrementReadPos now (i : Int) n s).2.buffer_size = s.buffer_size := by
  by_cases hi : s.buffer_count ≤ i
  · simp [IncrementReadPos, getBufferInfo_apply, hi, Op.descStep]
  · by_cases hj : j = i
    · subst hj
      by_cases hn : n = 0 <;> simp [IncrementReadPos, getBufferInfo_apply, hi, Op.descStep, hn]
    · by_cases hn : n = 0 <;>
        simp [IncrementReadPos, getBufferInfo_apply, hi, Op.descStep, hn,
          Function.update_noteq hj]

theorem IncrementWritePos_effect (now i n : Nat) (s : Segment) (j : Nat) :
    Op.descStep (Op.incrementWritePos now (i : Int) n) s.buffer_size (s.buffers j)
        ((IncrementWritePos now (i : Int) n s).2.buffers j) ∧
      (IncrementWritePos now (i : Int) n s).2.buffer_size = s.buffer_size := by
  by_cases hi : s.buffer_count ≤ i
  · simp [IncrementWritePos, getBufferInfo_apply, hi, Op.descStep]
  · by_cases hj : j = i
    · subst hj
      by_cases hn : n = 0 <;> simp [IncrementWritePos, getBufferInfo_apply, hi, Op.descStep, hn]
    · by_cases hn : n = 0 <;>
        simp [IncrementWritePos, getBufferInfo_apply, hi, Op.descStep, hn,
          Function.update_noteq hj]

theorem ResetReadPos_effect (now i : Nat) (s : Segment) (j : Nat) :
    Op.descStep (Op.resetReadPos now (i : Int)) s.buffer_size (s.buffers j)
        ((ResetReadPos now (i : Int) s).2.buffers j) ∧
      (ResetReadPos now (i : Int) s).2.buffer_size = s.buffer_size := by
  by_cases hi : s.buffer_count ≤ i
  · simp [ResetReadPos, getBufferInfo_apply, hi, Op.descStep]
  · by_cases hj : j = i
    · subst hj
      simp [ResetReadPos, getBufferInfo_apply, hi, Op.descStep]
    · simp [ResetReadPos, getBufferInfo_apply, hi, Op.descStep, Function.update_noteq hj]

theorem GetBufferForWriting_loop_effect (m : SharedMemoryManager) (now : Nat)
    (overwrite : Bool) (wp : Nat) (B0 : Nat → ShmBuffer) :
    ∀ (n ii : Nat) (s : Segment), 0 < s.buffer_count →
      (∀ j, s.buffers j = B0 j ∨ s.buffers j = resetDesc m now (B0 j)) →
      (∀ j, Op.descStep (Op.getBufferForWriting m now overwrite) 0 (B0 j)
        ((GetBufferForWriting.loop m now overwrite wp n ii s).2.buffers j)) ∧
      (GetBufferForWriting.loop m now overwrite wp n ii s).2.buffer_size = s.buffer_size := by
  intro n
  induction n with
  | zero =>
    intro ii s _ hinv
    refine ⟨?_, rfl⟩
    intro j
    rcases hinv j with h | h
    · exact Or.inl h
    · exact Or.inr (Or.inl h)
  | succ n ih =>
    intro ii s hc hinv
    have hr : resetDesc m now (s.buffers ((ii + wp) % s.buffer_count)) =
        resetDesc m now (B0 ((ii + wp) % s.buffer_count)) := by
      rcases hinv ((ii + wp) % s.buffer_count) with h | h
      · rw [h]
      · rw [h, resetDesc_idem]
    rw [GetBufferForWriting_loop_succ m now overwrite wp n ii s hc]
    split_ifs with h
    · refine ⟨?_, rfl⟩
      intro j
      by_cases hjj : j = (ii + wp) % s.buffer_count
      · subst hjj
        right
        right
        rw [hr] at h
        refine ⟨h, ?_⟩
        simp [Segment.setBuffer, hr]
      · have e : ({ (s.setBuffer ((ii + wp) % s.buffer_count)
              { (resetDesc m now (s.buffers ((ii + wp) % s.buffer_count))) with
                sem_id := m.manager_id_,
                sem := BufferSemaphoreFlags.Writing,
                writePos := 0 }) with
            writer_pos :=
              ((ii + wp) % s.buffer_count + 1) % s.buffer_count } : Segment).buffers j =
            s.buffers j := setBuffer_buffers_other _ _ _ _ hjj
        rw [e]
        rcases hinv j with h2 | h2
        · exact Or.inl h2
        · exact Or.inr (Or.inl h2)
    · have hstep := ih (ii + 1)
        (s.setBuffer ((ii + wp) % s.buffer_count)
          (resetDesc m now (s.buffers ((ii + wp) % s.buffer_count)))) hc
        (by
          intro j
          by_cases hjj : j = (ii + wp) % s.buffer_count
          · subst hjj
            right
            rw [setBuffer_buffers_self, hr]
          · rw [setBuffer_buffers_other _ _ _ _ hjj]
            exact hinv j)
      exact hstep

theorem GetBufferForWriting_effect (m : SharedMemoryManager) (now : Nat) (overwrite : Bool)
    (s : Segment) (j : Nat) :
    Op.descStep (Op.getBufferForWriting m now overwrite) s.buffer_size (s.buffers j)
        ((GetBufferForWriting m now overwrite s).2.buffers j) ∧
      (GetBufferForWriting m now overwrite s).2.buffer_size = s.buffer_size := by
  rw [GetBufferForWriting_apply]
  by_cases hc : 0 < s.buffer_count
  · obtain ⟨h1, h2⟩ := GetBufferForWriting_loop_effect m now overwrite s.writer_pos s.buffers s.buffer_count 0 s hc (fun j => Or.inl rfl)
    exact ⟨h1 j, h2⟩
  · have h0 : s.buffer_count = 0 := by omega
    rw [h0]
    exact ⟨Or.inl rfl, rfl⟩

theorem GetBufferForReading_loop_effect (m : SharedMemoryManager) (now : Nat)
    (wp : Nat) (B0 : Nat → ShmBuffer) :
    ∀ (n ii : Nat) (s : Segment), 0 < s.buffer_count →
      (∀ j, s.buffers j = B0 j ∨ s.buffers j = resetDesc m now (B0 j)) →
      (∀ j, Op.descStep (Op.getBufferForReading m now) 0 (B0 j)
        ((GetBufferForReading.loop m now wp n ii s).2.buffers j)) ∧
      (GetBufferForReading.loop m now wp n ii s).2.buffer_size = s.buffer_size := by
  intro n
  induction n with
  | zero =>
    intro ii s _ hinv
    refine ⟨?_, rfl⟩
    intro j
    rcases hinv j with h | h
    · exact Or.inl h
    · exact Or.inr (Or.inl h)
  | succ n ih =>
    intro ii s hc hinv
    have hr : resetDesc m now (s.buffers ((ii + wp) % s.buffer_count)) =
        resetDesc m now (B0 ((ii + wp) % s.buffer_count)) := by
      rcases hinv ((ii + wp) % s.buffer_count) with h | h
      · rw [h]
      · rw [h, resetDesc_idem]
    rw [GetBufferForReading_loop_succ m now wp n ii s hc]
    split_ifs with h
    · refine ⟨?_, rfl⟩
      intro j
      by_cases hjj : j = (ii + wp) % s.buffer_count
      · subst hjj
        right
        right
        rw [hr] at h
        refine ⟨h, ?_⟩
        simp [Segment.setBuffer, hr]
      · have e : ({ (s.setBuffer ((ii + wp) % s.buffer_count)
              { (resetDesc m now (s.buffers ((ii + wp) % s.buffer_count))) with
                sem_id := m.manager_id_,
                sem := BufferSemaphoreFlags.Reading,
                readPos := 0 }) with
            reader_pos :=
              ((ii + wp) % s.buffer_count + 1) % s.buffer_count } : Segment).buffers j =
            s.buffers j := setBuffer_buffers_other _ _ _ _ hjj
        rw [e]
        rcases hinv j with h2 | h2
        · exact Or.inl h2
        · exact Or.inr (Or.inl h2)
    · have hstep := ih (ii + 1)
        (s.setBuffer ((ii + wp) % s.buffer_count)
          (resetDesc m now (s.buffers ((ii + wp) % s.buffer_count)))) hc
        (by
          intro j
          by_cases hjj : j = (ii + wp) % s.buffer_count
          · subst hjj
            right
            rw [setBuffer_buffers_self, hr]
          · rw [setBuffer_buffers_other _ _ _ _ hjj]
            exact hinv j)
      exact hstep

theorem GetBufferForReading_effect (m : SharedMemoryManager) (now : Nat)
    (s : Segment) (j : Nat) :
    Op.descStep (Op.getBufferForReading m now) s.buffer_size (s.buffers j)
        ((GetBufferForReading m now s).2.buffers j) ∧
      (GetBufferForReading m now s).2.buffer_size = s.buffer_size := by
  rw [GetBufferForReading_apply]
  by_cases hc : 0 < s.buffer_count
  · obtain ⟨h1, h2⟩ := GetBufferForReading_loop_effect m now s.reader_pos s.buffers s.buffer_count 0 s hc (fun j => Or.inl rfl)
    exact ⟨h1 j, h2⟩
  · have h0 : s.buffer_count = 0 := by omega
    rw [h0]
    exact ⟨Or.inl rfl, rfl⟩

/-- Every call changes every descriptor along `descStep` and leaves
`buffer_size` alone, whether or not it throws. -/
theorem Op.run_descStep (op : Op) (s : Segment) (j : Nat) :
    op.descStep s.buffer_size (s.buffers j) ((op.run s).2.buffers j) ∧
      (op.run s).2.buffer_size = s.buffer_size := by
  cases op with
  | getBufferForWriting m now overwrite => exact GetBufferForWriting_effect m now overwrite s j
  | getBufferForReading m now => exact GetBufferForReading_effect m now s j
  | write m now buffer data size =>
    have h := Write_effect m now (toSizeT buffer) data size s j
    rw [← Write_int] at h
    exact h
  | read m now buffer data off size =>
    have h := Read_effect m now (toSizeT buffer) data off size s j
    rw [← Read_int] at h
    exact h
  | markBufferFull m now buffer destination =>
    have h := MarkBufferFull_effect m now (toSizeT buffer) destination s j
    rw [← MarkBufferFull_int] at h
    exact h
  | markBufferEmpty m now buffer =>
    have h := MarkBufferEmpty_effect m now (toSizeT buffer) s j
    rw [← MarkBufferEmpty_int] at h
    exact h
  | resetBuffer m now buffer =>
    have h := ResetBuffer_effect m now (toSizeT buffer) s j
    rw [← ResetBuffer_int] at h
    exact h
  | incrementReadPos now buffer n =>
    have h := IncrementReadPos_effect now (toSizeT buffer) n s j
    rw [← IncrementReadPos_int] at h
    exact h
  | incrementWritePos now buffer n =>
    have h := IncrementWritePos_effect now (toSizeT buffer) n s j
    rw [← IncrementWritePos_int] at h
    exact h
  | resetReadPos now buffer =>
    have h := ResetReadPos_effect now (toSizeT buffer) s j
    rw [← ResetReadPos_int] at h
    exact h

theorem resetDesc_edge (m : SharedMemoryManager) (now : Nat) (b : ShmBuffer) :
    (resetDesc m now b).sem = b.sem ∨
    (b.sem = BufferSemaphoreFlags.Reading ∧
      (resetDesc m now b).sem = BufferSemaphoreFlags.Full) ∨
    (b.sem = BufferSemaphoreFlags.Writing ∧
      (resetDesc m now b).sem = BufferSemaphoreFlags.Empty) := by
  rcases resetDesc_sem_cases m now b with h | ⟨h1, _, h3⟩ | ⟨h1, _, h3⟩
  · exact Or.inl (by rw [h])
  · exact Or.inr (Or.inl ⟨h1, by rw [h3]⟩)
  · exact Or.inr (Or.inr ⟨h1, by rw [h3]⟩)

/-! ## State machine, positions, ownership -/

theorem sem_edge_of_descStep (op : Op) (S : Nat) (b b1 : ShmBuffer)
    (h : op.descStep S b b1) :
    b.sem = b1.sem ∨ allowedEdge b.sem b1.sem ∨
      (op.isOverwrite ∧
        (b.sem = BufferSemaphoreFlags.Full ∨ b.sem = BufferSemaphoreFlags.Reading) ∧
        b1.sem = BufferSemaphoreFlags.Writing) := by
  have hreset : ∀ (m : SharedMemoryManager) (now : Nat), b1 = resetDesc m now b →
      b.sem = b1.sem ∨ allowedEdge b.sem b1.sem := by
    intro m now h1
    rw [h1]
    rcases resetDesc_edge m now b with h2 | ⟨h2, h3⟩ | ⟨h2, h3⟩
    · exact Or.inl h2.symm
    · exact Or.inr (by rw [h2, h3]; decide)
    · exact Or.inr (by rw [h2, h3]; decide)
  cases op with
  | getBufferForWriting m now overwrite =>
    rcases h with h | h | ⟨hw, h⟩
    · exact Or.inl (by rw [h])
    · rcases hreset m now h with h2 | h2
      · exact Or.inl h2
      · exact Or.inr (Or.inl h2)
    · have hb1 : b1.sem = BufferSemaphoreFlags.Writing := by rw [h]
      rw [hb1]
      rcases resetDesc_edge m now b with h2 | ⟨h2, h3⟩ | ⟨h2, _⟩
      · rcases hw with hw | ⟨ho, hw⟩
        · rw [h2] at hw
          exact Or.inr (Or.inl (by rw [hw]; decide))
        · rw [h2] at hw
          cases hs : b.sem with
          | Empty => exact Or.inr (Or.inl (by decide))
          | Writing => exact absurd hs hw
          | Full => exact Or.inr (Or.inr ⟨ho, Or.inl rfl, rfl⟩)
          | Reading => exact Or.inr (Or.inr ⟨ho, Or.inr rfl, rfl⟩)
      · rcases hw with hw | ⟨ho, _⟩
        · rw [h3] at hw
          exact absurd hw (by decide)
        · exact Or.inr (Or.inr ⟨ho, Or.inr h2, rfl⟩)
      · exact Or.inl h2
  | getBufferForReading m now =>
    rcases h with h | h | ⟨hw, h⟩
    · exact Or.inl (by rw [h])
    · rcases hreset m now h with h2 | h2
      · exact Or.inl h2
      · exact Or.inr (Or.inl h2)
    · have hb1 : b1.sem = BufferSemaphoreFlags.Reading := by rw [h]
      rw [hb1]
      rcases resetDesc_edge m now b with h2 | ⟨h2, _⟩ | ⟨_, h3⟩
      · have hf := hw.1
        rw [h2] at hf
        exact Or.inr (Or.inl (by rw [hf]; decide))
      · exact Or.inl h2
      · have hf := hw.1
        rw [h3] at hf
        exact absurd hf (by decide)
  | write m now buffer data size =>
    rcases h with h | h | ⟨_, h⟩ <;> exact Or.inl (by rw [h])
  | read m now buffer data off size =>
    rcases h with h | h | ⟨_, h⟩ <;> exact Or.inl (by rw [h])
  | markBufferFull m now buffer destination =>
    rcases h with h | ⟨h1, h⟩
    · exact Or.inl (by rw [h])
    · have hb1 : b1.sem = BufferSemaphoreFlags.Full := by rw [h]
      exact Or.inr (Or.inl (by rw [hb1, h1]; decide))
  | markBufferEmpty m now buffer =>
    rcases h with h | ⟨h1, h⟩
    · exact Or.inl (by rw [h])
    · have hb1 : b1.sem = BufferSemaphoreFlags.Empty := by rw [h]
      exact Or.inr (Or.inl (by rw [hb1, h1]; decide))
  | resetBuffer m now buffer =>
    rcases h with h | h
    · exact Or.inl (by rw [h])
    · rcases hreset m now h with h2 | h2
      · exact Or.inl h2
      · exact Or.inr (Or.inl h2)
  | incrementReadPos now buffer n =>
    rcases h with h | h <;> exact Or.inl (by rw [h])
  | incrementWritePos now buffer n =>
    rcases h with h | h <;> exact Or.inl (by rw [h])
  | resetReadPos now buffer =>
    rcases h with h | h <;> exact Or.inl (by rw [h])

/-- C14 as stated fails for `GetBufferForWriting(true)`: on `segAllFull` (two
buffers, both Full with destination -1) it returns 0 without throwing and
buffer 0 goes from Full to Writing, which is not one of the six edges. -/
theorem C14_overwrite_takes_Full_to_Writing :
    (GetBufferForWriting managerA 9 true segAllFull).1 = Except.ok 0 ∧
    (segAllFull.buffers 0).sem = BufferSemaphoreFlags.Full ∧
    ((GetBufferForWriting managerA 9 true segAllFull).2.buffers 0).sem =
      BufferSemaphoreFlags.Writing ∧
    ¬ allowedEdge BufferSemaphoreFlags.Full BufferSemaphoreFlags.Writing ∧
    BufferSemaphoreFlags.Full ≠ BufferSemaphoreFlags.Writing := by
  refine ⟨rfl, rfl, rfl, by decide, by decide⟩

/-- C14 (amended). State-machine closure: for every buffer and every call of a
public operation by any manager (`GetBufferForWriting` with overwrite false or
true, `GetBufferForReading`, `Write`, `Read`, `MarkBufferFull`,
`MarkBufferEmpty`, `ResetBuffer`, `IncrementReadPos`, `IncrementWritePos`,
`ResetReadPos`), throwing or not, the buffer's `sem` before and after the call
is unchanged or is one of the edges Empty->Writing, Writing->Full,
Full->Reading, Reading->Empty, Writing->Empty, Reading->Full; only
`GetBufferForWriting(true)` can in addition take a buffer from Full or Reading
to Writing. -/
theorem C14_state_machine_closure (op : Op) (s : Segment) (j : Nat) :
    (s.buffers j).sem = ((op.run s).2.buffers j).sem ∨
    allowedEdge (s.buffers j).sem ((op.run s).2.buffers j).sem ∨
    (op.isOverwrite ∧
      ((s.buffers j).sem = BufferSemaphoreFlags.Full ∨
        (s.buffers j).sem = BufferSemaphoreFlags.Reading) ∧
      ((op.run s).2.buffers j).sem = BufferSemaphoreFlags.Writing) :=
  sem_edge_of_descStep op s.buffer_size _ _ (Op.run_descStep op s j).1

theorem resetDesc_pos (m : SharedMemoryManager) (now : Nat) (b : ShmBuffer) :
    (resetDesc m now b).readPos ≤ b.readPos ∧ (resetDesc m now b).writePos ≤ b.writePos := by
  rcases resetDesc_sem_cases m now b with h | ⟨_, _, h⟩ | ⟨_, _, h⟩ <;> rw [h] <;> simp

theorem pos_of_descStep (op : Op) (hP : ¬ op.isIncrement) (S : Nat) (b b1 : ShmBuffer)
    (h : op.descStep S b b1) (hb : b.readPos ≤ S ∧ b.writePos ≤ S) :
    b1.readPos ≤ S ∧ b1.writePos ≤ S := by
  have hreset : ∀ (m : SharedMemoryManager) (now : Nat),
      (resetDesc m now b).readPos ≤ S ∧ (resetDesc m now b).writePos ≤ S := by
    intro m now
    have := resetDesc_pos m now b
    omega
  cases op with
  | getBufferForWriting m now overwrite =>
    rcases h with h | h | ⟨_, h⟩
    · rw [h]; exact hb
    · rw [h]; exact hreset m now
    · rw [h]
      exact ⟨(hreset m now).1, Nat.zero_le _⟩
  | getBufferForReading m now =>
    rcases h with h | h | ⟨_, h⟩
    · rw [h]; exact hb
    · rw [h]; exact hreset m now
    · rw [h]
      exact ⟨Nat.zero_le _, (hreset m now).2⟩
  | write m now buffer data size =>
    rcases h with h | h | ⟨h1, h⟩
    · rw [h]; exact hb
    · rw [h]; exact hb
    · rw [h]; exact ⟨hb.1, h1⟩
  | read m now buffer data off size =>
    rcases h with h | h | ⟨h1, h⟩
    · rw [h]; exact hb
    · rw [h]; exact hb
    · rw [h]; exact ⟨h1, hb.2⟩
  | markBufferFull m now buffer destination =>
    rcases h with h | ⟨_, h⟩
    · rw [h]; exact hb
    · rw [h]; exact hb
  | markBufferEmpty m now buffer =>
    rcases h with h | ⟨_, h⟩
    · rw [h]; exact hb
    · rw [h]; exact ⟨Nat.zero_le _, Nat.zero_le _⟩
  | resetBuffer m now buffer =>
    rcases h with h | h
    · rw [h]; exact hb
    · rw [h]; exact hreset m now
  | incrementReadPos now buffer n => exact absurd trivial hP
  | incrementWritePos now buffer n => exact absurd trivial hP
  | resetReadPos now buffer =>
    rcases h with h | h
    · rw [h]; exact hb
    · rw [h]; exact ⟨Nat.zero_le _, hb.2⟩

/-- C15 as stated fails, on sequences of non-throwing calls from a fresh
segment of 2 buffers of 16 bytes. `Read` is checked against `buffer_size`, not
against `writePos`: after writing 3 bytes, a 10-byte `Read` returns and leaves
`readPos = 10 > writePos = 3`. `IncrementWritePos` is not checked at all:
advancing by 100 leaves `writePos = 100 > buffer_size = 16`. -/
theorem C15_positions_not_ordered :
    (runAll opsReadPastWritten (freshSegment 2 16)).1 = Except.ok () ∧
    ((runAll opsReadPastWritten (freshSegment 2 16)).2.buffers 0).readPos = 10 ∧
    ((runAll opsReadPastWritten (freshSegment 2 16)).2.buffers 0).writePos = 3 ∧
    (runAll opsIncrementPastEnd (freshSegment 2 16)).1 = Except.ok () ∧
    ((runAll opsIncrementPastEnd (freshSegment 2 16)).2.buffers 0).writePos = 100 ∧
    (runAll opsIncrementPastEnd (freshSegment 2 16)).2.buffer_size = 16 := by
  refine ⟨rfl, rfl, rfl, rfl, rfl, rfl⟩

/-- C15 (amended). Position bounds: starting from a freshly created segment,
after every sequence of calls of `GetBufferForWriting`, `GetBufferForReading`,
`Write`, `Read`, `ResetReadPos`, `MarkBufferFull`, `MarkBufferEmpty` and
`ResetBuffer` (by any managers, throwing or not) every buffer satisfies
`0 <= readPos <= buffer_size` and `0 <= writePos <= buffer_size`, and
`buffer_size` is still the creator's value. -/
theorem C15_position_bounds (n S : Nat) (s : Segment)
    (h : ReachableBy (fun op => ¬ op.isIncrement) n S s) :
    s.buffer_size = S ∧
    ∀ j, (s.buffers j).readPos ≤ s.buffer_size ∧ (s.buffers j).writePos ≤ s.buffer_size := by
  induction h with
  | fresh =>
    rw [freshSegment_eq]
    refine ⟨rfl, ?_⟩
    intro j
    by_cases hj : j < n <;> simp [hj, zeroSegment]
  | step s op _ hP ih =>
    obtain ⟨hS, hpos⟩ := ih
    have hsize : (op.run s).2.buffer_size = s.buffer_size := (Op.run_descStep op s 0).2
    refine ⟨hsize.trans hS, ?_⟩
    intro j
    rw [hsize]
    exact pos_of_descStep op hP s.buffer_size _ _ (Op.run_descStep op s j).1 (hpos j)

theorem C15_position_bounds_witness :
    ReachableBy (fun op => ¬ op.isIncrement) 2 16
      ((Op.write managerA 2 0 (memOf [7, 8, 9]) 3).run
        ((Op.getBufferForWriting managerA 1 false).run (freshSegment 2 16)).2).2 ∧
    ((Op.write managerA 2 0 (memOf [7, 8, 9]) 3).run
        ((Op.getBufferForWriting managerA 1 false).run (freshSegment 2 16)).2).2.buffer_size
      = 16 :=
  have hr : ReachableBy (fun op => ¬ op.isIncrement) 2 16
      ((Op.write managerA 2 0 (memOf [7, 8, 9]) 3).run
        ((Op.getBufferForWriting managerA 1 false).run (freshSegment 2 16)).2).2 :=
    ReachableBy.step _ _ (ReachableBy.step _ _ ReachableBy.fresh (fun h => h)) (fun h => h)
  ⟨hr, (C15_position_bounds 2 16 _ hr).1⟩

theorem resetDesc_idle (m : SharedMemoryManager) (now : Nat) (b : ShmBuffer)
    (hb : b.sem_id = -1 →
      b.sem = BufferSemaphoreFlags.Empty ∨ b.sem = BufferSemaphoreFlags.Full) :
    (resetDesc m now b).sem_id = -1 →
      (resetDesc m now b).sem = BufferSemaphoreFlags.Empty ∨
      (resetDesc m now b).sem = BufferSemaphoreFlags.Full := by
  rcases resetDesc_sem_cases m now b with h | ⟨_, _, h⟩ | ⟨_, _, h⟩
  · rw [h]
    exact hb
  · rw [h]
    exact fun _ => Or.inr rfl
  · rw [h]
    exact fun _ => Or.inl rfl

theorem idle_of_descStep (op : Op) (hP : op.managerIdNonneg) (S : Nat) (b b1 : ShmBuffer)
    (h : op.descStep S b b1)
    (hb : b.sem_id = -1 →
      b.sem = BufferSemaphoreFlags.Empty ∨ b.sem = BufferSemaphoreFlags.Full) :
    b1.sem_id = -1 →
      b1.sem = BufferSemaphoreFlags.Empty ∨ b1.sem = BufferSemaphoreFlags.Full := by
  cases op with
  | getBufferForWriting m now overwrite =>
    have hm : (0 : Int) ≤ m.manager_id_ := hP
    rcases h with h | h | ⟨_, h⟩
    · rw [h]; exact hb
    · rw [h]; exact resetDesc_idle m now b hb
    · rw [h]
      intro hid
      have : m.manager_id_ = -1 := hid
      omega
  | getBufferForReading m now =>
    have hm : (0 : Int) ≤ m.manager_id_ := hP
    rcases h with h | h | ⟨_, h⟩
    · rw [h]; exact hb
    · rw [h]; exact resetDesc_idle m now b hb
    · rw [h]
      intro hid
      have : m.manager_id_ = -1 := hid
      omega
  | write m now buffer data size =>
    rcases h with h | h | ⟨_, h⟩ <;> (rw [h]; exact hb)
  | read m now buffer data off size =>
    rcases h with h | h | ⟨_, h⟩ <;> (rw [h]; exact hb)
  | markBufferFull m now buffer destination =>
    rcases h with h | ⟨_, h⟩
    · rw [h]; exact hb
    · rw [h]
      exact fun _ => Or.inr rfl
  | markBufferEmpty m now buffer =>
    rcases h with h | ⟨_, h⟩
    · rw [h]; exact hb
    · rw [h]
      exact fun _ => Or.inl rfl
  | resetBuffer m now buffer =>
    rcases h with h | h
    · rw [h]; exact hb
    · rw [h]; exact resetDesc_idle m now b hb
  | incrementReadPos now buffer n =>
    rcases h with h | h <;> (rw [h]; exact hb)
  | incrementWritePos now buffer n =>
    rcases h with h | h <;> (rw [h]; exact hb)
  | resetReadPos now buffer =>
    rcases h with h | h <;> (rw [h]; exact hb)

/-- C16. Unowned-implies-idle invariant: in every state reachable from a
freshly created segment by calls of managers whose IDs are `>= 0` (any calls,
any arguments, any `MarkBufferFull` destination, throwing or not), every buffer
with `sem_id = -1` has `sem` in {Empty, Full}; equivalently every buffer in
Writing or Reading has `sem_id != -1`. -/
theorem C16_unowned_implies_idle (n S : Nat) (s : Segment)
    (h : ReachableBy Op.managerIdNonneg n S s) (j : Nat) :
    ((s.buffers j).sem_id = -1 →
      (s.buffers j).sem = BufferSemaphoreFlags.Empty ∨
      (s.buffers j).sem = BufferSemaphoreFlags.Full) ∧
    ((s.buffers j).sem = BufferSemaphoreFlags.Writing ∨
      (s.buffers j).sem = BufferSemaphoreFlags.Reading →
      (s.buffers j).sem_id ≠ -1) := by
  have main : ∀ j, (s.buffers j).sem_id = -1 →
      (s.buffers j).sem = BufferSemaphoreFlags.Empty ∨
      (s.buffers j).sem = BufferSemaphoreFlags.Full := by
    induction h with
    | fresh =>
      intro j _
      rw [freshSegment_eq]
      by_cases hj : j < n <;> simp [hj, zeroSegment]
    | step s op _ hP ih =>
      intro j
      exact idle_of_descStep op hP s.buffer_size _ _ (Op.run_descStep op s j).1 (ih j)
  refine ⟨main j, ?_⟩
  intro hsem hid
  rcases main j hid with h1 | h1 <;> rcases hsem with h2 | h2 <;>
    exact absurd (h1.symm.trans h2) (by decide)

theorem C16_unowned_implies_idle_witness :
    ReachableBy Op.managerIdNonneg 2 16 segMarkedForFive ∧
    (segMarkedForFive.buffers 1).sem_id = -1 ∧
    ((segMarkedForFive.buffers 1).sem = BufferSemaphoreFlags.Empty ∨
      (segMarkedForFive.buffers 1).sem = BufferSemaphoreFlags.Full) :=
  have hr : ReachableBy Op.managerIdNonneg 2 16 segMarkedForFive :=
    ReachableBy.step _ _
      (ReachableBy.step _ _ ReachableBy.fresh
        (show (0 : Int) ≤ managerA.manager_id_ by decide))
      (show (0 : Int) ≤ managerA.manager_id_ by decide)
  ⟨hr, rfl, (C16_unowned_implies_idle 2 16 _ hr 1).1 rfl⟩

/-! ## Explicit position increments -/

theorem IncrementReadPos_apply (now i n : Nat) (s : Segment) (hi : i < s.buffer_count) :
    IncrementReadPos now (i : Int) n s =
      (if n = 0 then Except.error Exn.LogicError else Except.ok (),
        s.setBuffer i
          { (s.buffers i) with
            buffer_touch_time := now, readPos := add64 (s.buffers i).readPos n }) := by
  have h : ¬ s.buffer_count ≤ i := by omega
  by_cases hn : n = 0 <;>
    simp [IncrementReadPos, getBufferInfo_apply, h, hn, Segment.setBuffer]

theorem IncrementWritePos_apply (now i n : Nat) (s : Segment) (hi : i < s.buffer_count) :
    IncrementWritePos now (i : Int) n s =
      (if n = 0 then Except.error Exn.LogicError else Except.ok (),
        s.setBuffer i
          { (s.buffers i) with
            buffer_touch_time := now, writePos := add64 (s.buffers i).writePos n }) := by
  have h : ¬ s.buffer_count ≤ i := by omega
  by_cases hn : n = 0 <;>
    simp [IncrementWritePos, getBufferInfo_apply, h, hn, Segment.setBuffer]

/-- C21 as stated fails for increments that carry the position past `2^64`:
on `segReading` (buffer 0 with `readPos = 2`, `writePos = 8`)
`IncrementReadPos(0, 2^64 - 1)` and `IncrementWritePos(0, 2^64 - 1)` return
without throwing and leave `readPos = 1` and `writePos = 7`, not
`readPos + n` and `writePos + n`. -/
theorem C21_increment_wraps :
    0 < 2 ^ 64 - 1 ∧ 2 ^ 64 - 1 < 2 ^ 64 ∧
    (segReading.buffers 0).readPos = 2 ∧ (segReading.buffers 0).writePos = 8 ∧
    (IncrementReadPos 9 0 (2 ^ 64 - 1) segReading).1 = Except.ok () ∧
    ((IncrementReadPos 9 0 (2 ^ 64 - 1) segReading).2.buffers 0).readPos = 1 ∧
    ((IncrementReadPos 9 0 (2 ^ 64 - 1) segReading).2.buffers 0).readPos ≠
      (segReading.buffers 0).readPos + (2 ^ 64 - 1) ∧
    (IncrementWritePos 9 0 (2 ^ 64 - 1) segReading).1 = Except.ok () ∧
    ((IncrementWritePos 9 0 (2 ^ 64 - 1) segReading).2.buffers 0).writePos = 7 ∧
    ((IncrementWritePos 9 0 (2 ^ 64 - 1) segReading).2.buffers 0).writePos ≠
      (segReading.buffers 0).writePos + (2 ^ 64 - 1) := by
  refine ⟨by decide, by decide, rfl, rfl, rfl, rfl, ?_, rfl, rfl, ?_⟩
  · have h : ((IncrementReadPos 9 0 (2 ^ 64 - 1) segReading).2.buffers 0).readPos = 1 := rfl
    rw [h]
    decide
  · have h : ((IncrementWritePos 9 0 (2 ^ 64 - 1) segReading).2.buffers 0).writePos = 7 := rfl
    rw [h]
    decide

/-- C21 (amended). Increment by zero is fatal and positive increments add
modulo `2^64`: for every valid buffer, `IncrementReadPos(b, 0)` and
`IncrementWritePos(b, 0)` throw LogicError leaving `readPos` and `writePos`
unchanged; for `n > 0`, `IncrementReadPos(b, n)` returns and sets `readPos` to
`(readPos + n) mod 2^64`, `IncrementWritePos(b, n)` returns and sets `writePos`
to `(writePos + n) mod 2^64` (that is `readPos + n`, `writePos + n` whenever
the sum is below `2^64`). None of the four changes the other position, `sem`,
`sem_id`, or any other buffer's descriptor. -/
theorem C21_increment (now b n : Nat) (s : Segment)
    (hb : b < s.buffer_count)
    (hr : (s.buffers b).readPos < 2 ^ 64) (hw : (s.buffers b).writePos < 2 ^ 64) :
    (∃ s1 : Segment, IncrementReadPos now (b : Int) 0 s = (Except.error Exn.LogicError, s1) ∧
      (s1.buffers b).readPos = (s.buffers b).readPos ∧
      (s1.buffers b).writePos = (s.buffers b).writePos ∧
      (s1.buffers b).sem = (s.buffers b).sem ∧ (s1.buffers b).sem_id = (s.buffers b).sem_id ∧
      (∀ j, j ≠ b → s1.buffers j = s.buffers j)) ∧
    (∃ s1 : Segment, IncrementWritePos now (b : Int) 0 s = (Except.error Exn.LogicError, s1) ∧
      (s1.buffers b).readPos = (s.buffers b).readPos ∧
      (s1.buffers b).writePos = (s.buffers b).writePos ∧
      (s1.buffers b).sem = (s.buffers b).sem ∧ (s1.buffers b).sem_id = (s.buffers b).sem_id ∧
      (∀ j, j ≠ b → s1.buffers j = s.buffers j)) ∧
    (0 < n →
      ∃ s1 : Segment, IncrementReadPos now (b : Int) n s = (Except.ok (), s1) ∧
        (s1.buffers b).readPos = ((s.buffers b).readPos + n) % 2 ^ 64 ∧
        ((s.buffers b).readPos + n < 2 ^ 64 →
          (s1.buffers b).readPos = (s.buffers b).readPos + n) ∧
        (s1.buffers b).writePos = (s.buffers b).writePos ∧
        (s1.buffers b).sem = (s.buffers b).sem ∧
        (s1.buffers b).sem_id = (s.buffers b).sem_id ∧
        (∀ j, j ≠ b → s1.buffers j = s.buffers j)) ∧
    (0 < n →
      ∃ s1 : Segment, IncrementWritePos now (b : Int) n s = (Except.ok (), s1) ∧
        (s1.buffers b).writePos = ((s.buffers b).writePos + n) % 2 ^ 64 ∧
        ((s.buffers b).writePos + n < 2 ^ 64 →
          (s1.buffers b).writePos = (s.buffers b).writePos + n) ∧
        (s1.buffers b).readPos = (s.buffers b).readPos ∧
        (s1.buffers b).sem = (s.buffers b).sem ∧
        (s1.buffers b).sem_id = (s.buffers b).sem_id ∧
        (∀ j, j ≠ b → s1.buffers j = s.buffers j)) := by
  have hr0 : add64 (s.buffers b).readPos 0 = (s.buffers b).readPos :=
    add64_of_lt _ _ (by omega)
  have hw0 : add64 (s.buffers b).writePos 0 = (s.buffers b).writePos :=
    add64_of_lt _ _ (by omega)
  refine ⟨?_, ?_, ?_, ?_⟩
  · refine ⟨_, by rw [IncrementReadPos_apply now b 0 s hb, if_pos rfl], ?_, ?_, ?_, ?_, ?_⟩
    · rw [setBuffer_buffers_self]
      exact hr0
    · rw [setBuffer_buffers_self]
    · rw [setBuffer_buffers_self]
    · rw [setBuffer_buffers_self]
    · exact fun j hj => setBuffer_buffers_other _ _ _ _ hj
  · refine ⟨_, by rw [IncrementWritePos_apply now b 0 s hb, if_pos rfl], ?_, ?_, ?_, ?_, ?_⟩
    · rw [setBuffer_buffers_self]
    · rw [setBuffer_buffers_self]
      exact hw0
    · rw [setBuffer_buffers_self]
    · rw [setBuffer_buffers_self]
    · exact fun j hj => setBuffer_buffers_other _ _ _ _ hj
  · intro hn
    have hn0 : n ≠ 0 := by omega
    refine ⟨_, by rw [IncrementReadPos_apply now b n s hb, if_neg hn0], ?_, ?_, ?_, ?_, ?_, ?_⟩
    · rw [setBuffer_buffers_self]
      rfl
    · intro hlt
      rw [setBuffer_buffers_self]
      exact add64_of_lt _ _ hlt
    · rw [setBuffer_buffers_self]
    · rw [setBuffer_buffers_self]
    · rw [setBuffer_buffers_self]
    · exact fun j hj => setBuffer_buffers_other _ _ _ _ hj
  · intro hn
    have hn0 : n ≠ 0 := by omega
    refine ⟨_, by rw [IncrementWritePos_apply now b n s hb, if_neg hn0], ?_, ?_, ?_, ?_, ?_, ?_⟩
    · rw [setBuffer_buffers_self]
      rfl
    · intro hlt
      rw [setBuffer_buffers_self]
      exact add64_of_lt _ _ hlt
    · rw [setBuffer_buffers_self]
    · rw [setBuffer_buffers_self]
    · rw [setBuffer_buffers_self]
    · exact fun j hj => setBuffer_buffers_other _ _ _ _ hj

theorem C21_increment_witness :
    (0 < segReading.buffer_count ∧ (segReading.buffers 0).readPos < 2 ^ 64 ∧
      (segReading.buffers 0).writePos < 2 ^ 64 ∧ 0 < 3) ∧
    ∃ s1 : Segment, IncrementReadPos 9 ((0 : Nat) : Int) 3 segReading = (Except.ok (), s1) ∧
      (s1.buffers 0).readPos = ((segReading.buffers 0).readPos + 3) % 2 ^ 64 :=
  ⟨⟨by decide, by decide, by decide, by decide⟩,
    ((C21_increment 9 0 3 segReading (by decide) (by decide) (by decide)).2.2.1
      (by decide)).elim (fun s1 h => ⟨s1, h.1, h.2.1⟩)⟩

/-! ## Readiness and acquisition -/

theorem ReadyForRead_loop_true (m : SharedMemoryManager) (rp : Nat) :
    ∀ (n ii : Nat) (s : Segment),
      (ReadyForRead.loop m rp n ii s).1 = Except.ok true →
      ∃ j, j < s.buffer_count ∧ readable m (s.buffers j) := by
  intro n
  induction n with
  | zero =>
    intro ii s h
    exact absurd h (by simp [ReadyForRead.loop])
  | succ n ih =>
    intro ii s h
    rw [ReadyForRead.loop] at h
    simp only [Shm.bind_apply, hdr_apply, getBufferInfo_apply, load_apply] at h
    by_cases hc : s.buffer_count ≤ (ii + rp) % s.buffer_count
    · simp [hc] at h
    · simp only [hc, if_false] at h
      split_ifs at h with hr
      · exact ⟨_, Nat.not_le.mp hc, hr⟩
      · exact ih (ii + 1) s h

theorem ReadyForWrite_loop_true (overwrite : Bool) (wp : Nat) :
    ∀ (n ii : Nat) (s : Segment),
      (ReadyForWrite.loop overwrite wp n ii s).1 = Except.ok true →
      ∃ j, j < s.buffer_count ∧
        (((s.buffers j).sem = BufferSemaphoreFlags.Empty ∧ (s.buffers j).sem_id = -1) ∨
          (overwrite = true ∧ (s.buffers j).sem ≠ BufferSemaphoreFlags.Writing)) := by
  intro n
  induction n with
  | zero =>
    intro ii s h
    exact absurd h (by simp [ReadyForWrite.loop])
  | succ n ih =>
    intro ii s h
    rw [ReadyForWrite.loop] at h
    simp only [Shm.bind_apply, hdr_apply, getBufferInfo_apply, load_apply] at h
    by_cases hc : s.buffer_count ≤ (ii + wp) % s.buffer_count
    · simp [hc] at h
    · simp only [hc, if_false] at h
      split_ifs at h with hr
      · exact ⟨_, Nat.not_le.mp hc, hr⟩
      · exact ih (ii + 1) s h

/-- The reading search claims some buffer when a buffer that the loop still
has to visit passes the acquisition test after being reset. -/
theorem GetBufferForReading_loop_some (m : SharedMemoryManager) (now rp : Nat) :
    ∀ (n ii : Nat) (s : Segment), 0 < s.buffer_count →
      (∃ k, ii ≤ k ∧ k < ii + n ∧
        readable m (resetDesc m now (s.buffers ((k + rp) % s.buffer_count)))) →
      ∃ (j : Nat) (s1 : Segment),
        GetBufferForReading.loop m now rp n ii s = (Except.ok (j : Int), s1) ∧
        j < s.buffer_count := by
  intro n
  induction n with
  | zero =>
    intro ii s _ hk
    obtain ⟨k, h1, h2, _⟩ := hk
    omega
  | succ n ih =>
    intro ii s hc hk
    have hj : (ii + rp) % s.buffer_count < s.buffer_count := Nat.mod_lt _ hc
    rw [GetBufferForReading_loop_succ m now rp n ii s hc]
    split_ifs with h
    · exact ⟨_, _, rfl, hj⟩
    · obtain ⟨k, h1, h2, h3⟩ := hk
      have hne : k ≠ ii := by
        intro e
        subst e
        exact h h3
      refine ih (ii + 1) (s.setBuffer _ _) hc ⟨k, by omega, by omega, ?_⟩
      rw [setBuffer_buffer_count]
      by_cases hkk : (k + rp) % s.buffer_count = (ii + rp) % s.buffer_count
      · rw [hkk, setBuffer_buffers_self, resetDesc_idem, ← hkk]
        exact h3
      · rw [setBuffer_buffers_other _ _ _ _ hkk]
        exact h3

/-- A buffer that passes the test of `ReadyForWrite(overwrite)` passes the
test of `GetBufferForWriting(overwrite)` after `ResetBuffer`. -/
theorem writable_resetDesc_of_ready (m : SharedMemoryManager) (now : Nat) (overwrite : Bool)
    (b : ShmBuffer)
    (h : (b.sem = BufferSemaphoreFlags.Empty ∧ b.sem_id = -1) ∨
      (overwrite = true ∧ b.sem ≠ BufferSemaphoreFlags.Writing)) :
    writable overwrite (resetDesc m now b) := by
  rcases h with ⟨h1, _⟩ | ⟨h1, h2⟩
  · rw [resetDesc_of_Empty m now b h1]
    exact Or.inl h1
  · rcases resetDesc_sem_cases m now b with e | ⟨_, _, e⟩ | ⟨e, _, _⟩
    · rw [e]
      exact Or.inr ⟨h1, h2⟩
    · rw [e]
      exact Or.inr ⟨h1, by simp⟩
    · exact absurd e h2

/-- C22. Readiness implies acquisition (single-threaded): for every state and
manager, if `ReadyForRead()` returns true then `GetBufferForReading()`, run on
the state the query leaves, returns an index `>= 0` (that of a buffer of the
segment), and if `ReadyForWrite(overwrite)` returns true then
`GetBufferForWriting(overwrite)`, run on the state the query leaves, returns
an index `>= 0`. The converse does not hold, because the acquiring search
first reclaims stale buffers: on `segTargeted` manager 1 is told `false` by
`ReadyForRead` yet acquires buffer 0 at time 5000, and on `segAbandoned`
`ReadyForWrite(false)` is `false` yet manager 1 acquires buffer 0 for writing
at time 5000. -/
theorem C22_readiness_implies_acquisition (m : SharedMemoryManager) (now : Nat)
    (overwrite : Bool) (s : Segment) :
    ((ReadyForRead m s).1 = Except.ok true →
      ∃ (j : Nat) (s1 : Segment),
        GetBufferForReading m now (ReadyForRead m s).2 = (Except.ok (j : Int), s1) ∧
        (0 : Int) ≤ (j : Int) ∧ j < s.buffer_count) ∧
    ((ReadyForWrite overwrite s).1 = Except.ok true →
      ∃ (j : Nat) (s1 : Segment),
        GetBufferForWriting m now overwrite (ReadyForWrite overwrite s).2 =
          (Except.ok (j : Int), s1) ∧
        (0 : Int) ≤ (j : Int) ∧ j < s.buffer_count) ∧
    ((ReadyForRead managerB segTargeted).1 = Except.ok false ∧
      (GetBufferForReading managerB 5000 (ReadyForRead managerB segTargeted).2).1 =
        Except.ok 0) ∧
    ((ReadyForWrite false segAbandoned).1 = Except.ok false ∧
      (GetBufferForWriting managerB 5000 false (ReadyForWrite false segAbandoned).2).1 =
        Except.ok 0) := by
  have e1 : ReadyForRead m s = ReadyForRead.loop m s.reader_pos s.buffer_count 0 s := by
    simp [ReadyForRead]
  have e2 : ReadyForWrite overwrite s =
      ReadyForWrite.loop overwrite s.writer_pos s.buffer_count 0 s := by
    simp [ReadyForWrite]
  have s1 : (ReadyForRead m s).2 = s := by rw [e1]; exact ReadyForRead_loop_state _ _ _ _ _
  have s2 : (ReadyForWrite overwrite s).2 = s := by
    rw [e2]; exact ReadyForWrite_loop_state _ _ _ _ _
  refine ⟨?_, ?_, ⟨rfl, rfl⟩, ⟨rfl, rfl⟩⟩
  · intro h
    rw [s1, GetBufferForReading_apply]
    rw [e1] at h
    obtain ⟨j, hj, hr⟩ := ReadyForRead_loop_true m s.reader_pos _ _ _ h
    have hc : 0 < s.buffer_count := by omega
    obtain ⟨k, hk1, hk2⟩ := exists_visit s.buffer_count s.reader_pos j hj
    obtain ⟨i, t, ht, hi⟩ := GetBufferForReading_loop_some m now s.reader_pos
      s.buffer_count 0 s hc ⟨k, Nat.zero_le _, by omega, by
        rw [hk2, resetDesc_of_Full m now _ hr.1]
        exact hr⟩
    exact ⟨i, t, ht, Int.natCast_nonneg i, hi⟩
  · intro h
    rw [s2]
    rw [e2] at h
    obtain ⟨j, hj, hr⟩ := ReadyForWrite_loop_true overwrite s.writer_pos _ _ _ h
    have hc : 0 < s.buffer_count := by omega
    rcases GetBufferForWriting_cases m now overwrite s with ⟨hno, _⟩ | ⟨k, _, _, _, t, ht, _⟩
    · exfalso
      apply hno j hj
      rw [afterReset_eq _ _ _ _ hj]
      exact writable_resetDesc_of_ready m now overwrite _ hr
    · exact ⟨_, t, ht, Int.natCast_nonneg _, Nat.mod_lt _ hc⟩

theorem C22_readiness_implies_acquisition_witness :
    (ReadyForRead managerC segTargeted).1 = Except.ok true ∧
    ∃ (j : Nat) (s1 : Segment),
      GetBufferForReading managerC 7 (ReadyForRead managerC segTargeted).2 =
        (Except.ok (j : Int), s1) ∧
      (0 : Int) ≤ (j : Int) ∧ j < segTargeted.buffer_count :=
  ⟨rfl, (C22_readiness_implies_acquisition managerC 7 false segTargeted).1 rfl⟩

/-! ## Status codes of the fragment layer -/

/-- When `Write` returns, it returns the requested size. -/
theorem Write_result (m : SharedMemoryManager) (now : Nat) (buffer : Int) (src : Nat → Nat)
    (size : Nat) (s : Segment) (r : Nat) (s1 : Segment)
    (h : Write m now buffer src size s = (Except.ok r, s1)) : r = size := by
  rw [Write_int] at h
  by_cases hi : toSizeT buffer < s.buffer_count
  · rw [Write_apply m now _ src size s hi] at h
    split_ifs at h
    · simp at h
    · simp at h
    · simp at h
    · simp only [Prod.mk.injEq, Except.ok.injEq] at h
      exact h.1.symm
  · have hge : s.buffer_count ≤ toSizeT buffer := by omega
    simp [Write, getBufferInfo_apply, hge] at h

/-- When `Read` returns, it returns `true`. -/
theorem Read_result (m : SharedMemoryManager) (now : Nat) (buffer : Int) (dst : Nat → Nat)
    (off size : Nat) (s : Segment) (r : Bool) (mem : Nat → Nat) (s1 : Segment)
    (h : Read m now buffer dst off size s = (Except.ok (r, mem), s1)) : r = true := by
  rw [Read_int] at h
  by_cases hi : toSizeT buffer < s.buffer_count
  · rw [Read_apply m now _ dst off size s hi] at h
    split_ifs at h
    · simp at h
    · simp at h
    · simp at h
    · simp only [Prod.mk.injEq, Except.ok.injEq] at h
      exact h.1.1.symm
  · have hge : s.buffer_count ≤ toSizeT buffer := by omega
    simp [Read, getBufferInfo_apply, hge] at h

theorem WriteFragment_result (L : FragmentLayout) (m : SharedMemoryManager) (now : Nat)
    (fragment : Fragment) (overwrite : Bool) (s : Segment) (r : Int) (s1 : Segment)
    (h : WriteFragment L m now fragment overwrite s = (Except.ok r, s1)) :
    (r = 0 ∧ IsValid m = true) ∨ (r = -1 ∧ IsValid m = false) := by
  unfold WriteFragment at h
  cases hv : IsValid m
  · simp [hv] at h
    exact Or.inr ⟨h.1.symm, rfl⟩
  · left
    simp only [hv, Bool.not_true, Bool.false_eq_true, if_false, Shm.bind_apply] at h
    rcases hg : GetBufferForWriting m now overwrite s with ⟨e | buf, s2⟩
    · simp [hg] at h
    · simp only [hg] at h
      rcases hw : Write m now buf fragment.mem
        ((fragment.size * L.sizeofRawDataType) % 2 ^ 64) s2 with ⟨e | sts, s3⟩
      · rw [hw] at h
        simp at h
      · have hs := Write_result m now buf _ _ s2 sts s3 hw
        rw [hw] at h
        simp only [hs, if_true, Shm.bind_apply] at h
        rcases hm : MarkBufferFull m now buf (-1) s3 with ⟨e | u, s4⟩
        · simp [hm] at h
        · simp [hm] at h
          exact ⟨h.1.symm, rfl⟩

/-- The status that `ReadFragment` derives from its second `Read`,
`Read(...) + hdrSize` converted to `bool`, is `true` whatever `Read` returned. -/
theorem second_read_status (hdrSize : Nat) (h0 : 0 < hdrSize) (h1 : hdrSize + 1 < 2 ^ 64)
    (b : Bool) : add64 b.toNat hdrSize ≠ 0 := by
  unfold add64
  cases b
  · rw [Bool.toNat_false, Nat.mod_eq_of_lt (by omega)]
    omega
  · rw [Bool.toNat_true, Nat.mod_eq_of_lt (by omega)]
    omega

theorem ReadFragment_result (L : FragmentLayout) (m : SharedMemoryManager) (now : Nat)
    (fragment : Fragment) (s : Segment) (r : Int) (g : Fragment) (s1 : Segment)
    (h0 : 0 < (L.num_words * L.sizeofRawDataType) % 2 ^ 64)
    (h1 : (L.num_words * L.sizeofRawDataType) % 2 ^ 64 + 1 < 2 ^ 64)
    (h : ReadFragment L m now fragment s = (Except.ok (r, g), s1)) :
    (r = 0 ∧ IsValid m = true) ∨ (r = -1 ∧ IsValid m = false) := by
  unfold ReadFragment at h
  cases hv : IsValid m
  · simp [hv] at h
    exact Or.inr ⟨h.1.1.symm, rfl⟩
  · left
    simp only [hv, Bool.not_true, Bool.false_eq_true, if_false, Shm.bind_apply] at h
    rcases hg : GetBufferForReading m now s with ⟨e | buf, s2⟩
    · rw [hg] at h
      simp at h
    · rw [hg] at h
      simp only at h
      rcases hr : Read m now buf (fragment.resizeBytes L 0).mem 0
        ((L.num_words * L.sizeofRawDataType) % 2 ^ 64) s2 with ⟨e | ⟨sts, mem⟩, s3⟩
      · rw [hr] at h
        simp at h
      · have hs := Read_result m now buf _ _ _ s2 sts mem s3 hr
        rw [hr] at h
        subst hs
        simp only [Bool.not_true, Bool.false_eq_true, if_false, Shm.bind_apply] at h
        rcases hr2 : Read m now buf
          (Fragment.autoResize L
            { mem := mem, size := (fragment.resizeBytes L 0).size }).mem
          ((L.num_words * L.sizeofRawDataType) % 2 ^ 64 * L.sizeofRawDataType)
          ((L.num_words * L.sizeofRawDataType) % 2 ^ 64) s3 with ⟨e | a, s4⟩
        · rw [hr2] at h
          simp at h
        · rw [hr2] at h
          have hst := second_read_status _ h0 h1 a.1
          simp only [hst, ne_eq, not_false_eq_true, decide_True, Bool.not_true,
            Bool.false_eq_true, if_false, Shm.bind_apply] at h
          rcases hm : MarkBufferEmpty m now buf s4 with ⟨e | u, s5⟩
          · rw [hm] at h
            simp at h
          · rw [hm] at h
            simp at h
            exact ⟨h.1.1.symm, rfl⟩

/-- C23. Fragment-layer status codes that cannot occur, for a header size
`hdrSize = num_words * sizeof(RawDataType)` with `0 < hdrSize < 2^64 - 1`:
`Write` either throws or returns exactly the requested size, so `WriteFragment`
never returns -2: when it returns, the result is 0 (manager valid) or -1
(manager not valid). In `ReadFragment` the status of the second `Read`,
`Read(...) + hdrSize`, is non-zero whatever `Read` returned, so a valid manager
never gets -1 from `ReadFragment`: when it returns, the result is 0. Each of
the remaining outcomes occurs: `WriteFragment` returns 0 on a fresh segment,
-1 for a detached manager, and throws when the fragment exceeds the buffer;
`ReadFragment` returns 0 on `segOneFragment` and -1 for a detached manager. -/
theorem C23_impossible_status_codes (L : FragmentLayout) (m : SharedMemoryManager)
    (now : Nat) (s : Segment)
    (h0 : 0 < (L.num_words * L.sizeofRawDataType) % 2 ^ 64)
    (h1 : (L.num_words * L.sizeofRawDataType) % 2 ^ 64 + 1 < 2 ^ 64) :
    (∀ (buffer : Int) (src : Nat → Nat) (size r : Nat) (s1 : Segment),
      Write m now buffer src size s = (Except.ok r, s1) → r = size) ∧
    (∀ (fragment : Fragment) (overwrite : Bool) (r : Int) (s1 : Segment),
      WriteFragment L m now fragment overwrite s = (Except.ok r, s1) →
      r ≠ -2 ∧ ((r = 0 ∧ IsValid m = true) ∨ (r = -1 ∧ IsValid m = false))) ∧
    (∀ b : Bool, add64 b.toNat ((L.num_words * L.sizeofRawDataType) % 2 ^ 64) ≠ 0) ∧
    (∀ (fragment : Fragment) (r : Int) (g : Fragment) (s1 : Segment),
      ReadFragment L m now fragment s = (Except.ok (r, g), s1) →
      (r = 0 ∧ IsValid m = true) ∨ (r = -1 ∧ IsValid m = false)) ∧
    ((WriteFragment testLayout managerA 10 (testFragment 42 [1, 2, 3]) false
        (freshSegment 4 1024)).1 = Except.ok 0 ∧
      (WriteFragment testLayout managerDetached 10 (testFragment 42 [1, 2, 3]) false
        (freshSegment 4 1024)).1 = Except.ok (-1) ∧
      (WriteFragment testLayout managerA 10 (testFragment 42 [1, 2, 3]) false
        (freshSegment 2 16)).1 = Except.error Exn.SharedMemoryWrite ∧
      (ReadFragment testLayout managerA 11 emptyFragment segOneFragment).1.map Prod.fst =
        Except.ok 0 ∧
      (ReadFragment testLayout managerDetached 11 emptyFragment segOneFragment).1.map
        Prod.fst = Except.ok (-1)) := by
  refine ⟨?_, ?_, ?_, ?_, rfl, rfl, rfl, rfl, rfl⟩
  · intro buffer src size r s1 h
    exact Write_result m now buffer src size s r s1 h
  · intro fragment overwrite r s1 h
    rcases WriteFragment_result L m now fragment overwrite s r s1 h with ⟨e, hv⟩ | ⟨e, hv⟩
    · exact ⟨by rw [e]; decide, Or.inl ⟨e, hv⟩⟩
    · exact ⟨by rw [e]; decide, Or.inr ⟨e, hv⟩⟩
  · exact second_read_status _ h0 h1
  · intro fragment r g s1 h
    exact ReadFragment_result L m now fragment s r g s1 h0 h1 h

theorem C23_impossible_status_codes_witness :
    (0 < (testLayout.num_words * testLayout.sizeofRawDataType) % 2 ^ 64 ∧
      (testLayout.num_words * testLayout.sizeofRawDataType) % 2 ^ 64 + 1 < 2 ^ 64) ∧
    (Write managerA 9 0 (memOf [7, 8, 9]) 3 segWriting).1 = Except.ok 3 ∧
    ∀ b : Bool,
      add64 b.toNat ((testLayout.num_words * testLayout.sizeofRawDataType) % 2 ^ 64) ≠ 0 :=
  ⟨⟨by decide, by decide⟩, rfl,
    (C23_impossible_status_codes testLayout managerA 9 segWriting
      (by decide) (by decide)).2.2.1⟩

/-! ## Where payload accesses land in the segment -/

/-- An access of `size` bytes at position `pos` of buffer `i` whose bounds
check passes without the sum `pos + size` wrapping lies within payload `i`,
after every descriptor, apart from every other payload and before the end of
the segment. -/
theorem access_in_bounds (z : ShmSizes) (s : Segment) (i pos size : Nat)
    (hi : i < s.buffer_count) (hc : add64 pos size ≤ s.buffer_size)
    (hnw : pos + size < 2 ^ 64) :
    bufferStartOffset z s i ≤ bufferStartOffset z s i + pos ∧
    bufferStartOffset z s i + pos + size ≤ bufferStartOffset z s i + s.buffer_size ∧
    (∀ j, j < s.buffer_count →
      getBufferInfoOffset z j + z.sizeofShmBuffer ≤ bufferStartOffset z s i + pos) ∧
    (∀ j, j < s.buffer_count → j ≠ i →
      bufferStartOffset z s j + s.buffer_size ≤ bufferStartOffset z s i + pos ∨
      bufferStartOffset z s i + pos + size ≤ bufferStartOffset z s j) ∧
    bufferStartOffset z s i + pos + size ≤ shmSize z s.buffer_count s.buffer_size := by
  rw [add64_of_lt _ _ hnw] at hc
  unfold bufferStartOffset dataStartOffset getBufferInfoOffset shmSize
  refine ⟨by omega, by omega, ?_, ?_, ?_⟩
  · intro j hj
    have h1 : (j + 1) * z.sizeofShmBuffer ≤ s.buffer_count * z.sizeofShmBuffer :=
      Nat.mul_le_mul_right _ hj
    rw [Nat.add_mul, Nat.one_mul] at h1
    omega
  · intro j _ hji
    rcases Nat.lt_or_gt_of_ne hji with h | h
    · left
      have h1 : (j + 1) * s.buffer_size ≤ i * s.buffer_size := Nat.mul_le_mul_right _ h
      rw [Nat.add_mul, Nat.one_mul] at h1
      omega
    · right
      have h1 : (i + 1) * s.buffer_size ≤ j * s.buffer_size := Nat.mul_le_mul_right _ h
      rw [Nat.add_mul, Nat.one_mul] at h1
      omega
  · have h1 : (i + 1) * s.buffer_size ≤ s.buffer_count * s.buffer_size :=
      Nat.mul_le_mul_right _ hi
    rw [Nat.add_mul, Nat.one_mul] at h1
    rw [Nat.mul_add]
    omega

/-- C24. Failing input for "payload accesses stay inside the segment and
inside their own buffer". On `segWriting` (two buffers of 16 bytes) index 0 is
valid, buffer 0 is Writing and owned by the caller with `writePos = 4 <= 16`,
and `Write(0, src, 2^64 - 4)` passes its bounds check because `4 + (2^64 - 4)`
wraps to 0. The call returns; the byte range it accesses starts inside payload
0, runs past the end of payload 0, covers the start of payload 1 and ends past
the segment size, whatever `sizeof(ShmStruct)` and `sizeof(ShmBuffer)` are;
byte 0 of payload 1 and the byte right after the payload region are
overwritten. `Read(0, dst, 2^64 - 2)` on `segReading` (`readPos = 2`) passes
its check the same way and copies bytes from beyond the payload region. -/
theorem C24_wrapped_access_leaves_buffer_and_segment (z : ShmSizes) (src dst : Nat → Nat) :
    0 < segWriting.buffer_count ∧
    (segWriting.buffers 0).writePos ≤ segWriting.buffer_size ∧
    add64 (segWriting.buffers 0).writePos (2 ^ 64 - 4) ≤ segWriting.buffer_size ∧
    (∃ s1 : Segment,
      Write managerA 9 ((0 : Nat) : Int) src (2 ^ 64 - 4) segWriting =
        (Except.ok (2 ^ 64 - 4), s1) ∧
      s1.data =
        memcpy segWriting.data (0 * segWriting.buffer_size + (segWriting.buffers 0).writePos)
          src 0 (2 ^ 64 - 4) ∧
      s1.payload 1 0 = src 12 ∧
      s1.data (segWriting.buffer_count * segWriting.buffer_size) = src 28) ∧
    bufferStartOffset z segWriting 0 ≤
      bufferStartOffset z segWriting 0 + (segWriting.buffers 0).writePos ∧
    bufferStartOffset z segWriting 0 + segWriting.buffer_size <
      bufferStartOffset z segWriting 0 + (segWriting.buffers 0).writePos + (2 ^ 64 - 4) ∧
    bufferStartOffset z segWriting 1 <
      bufferStartOffset z segWriting 0 + (segWriting.buffers 0).writePos + (2 ^ 64 - 4) ∧
    shmSize z segWriting.buffer_count segWriting.buffer_size <
      bufferStartOffset z segWriting 0 + (segWriting.buffers 0).writePos + (2 ^ 64 - 4) ∧
    (segReading.buffers 0).readPos ≤ segReading.buffer_size ∧
    add64 (segReading.buffers 0).readPos (2 ^ 64 - 2) ≤ segReading.buffer_size ∧
    (∃ (mem : Nat → Nat) (s1 : Segment),
      Read managerA 9 ((0 : Nat) : Int) dst 0 (2 ^ 64 - 2) segReading =
        (Except.ok (true, mem), s1) ∧
      mem 30 = segReading.data (segReading.buffer_count * segReading.buffer_size)) ∧
    shmSize z segReading.buffer_count segReading.buffer_size <
      bufferStartOffset z segReading 0 + (segReading.buffers 0).readPos + (2 ^ 64 - 2) := by
  have h1 : (segWriting.buffers 0) = ⟨4, 0, BufferSemaphoreFlags.Writing, 0, 5⟩ := rfl
  have h2 : add64 4 (2 ^ 64 - 4) = 0 := by decide
  have h3 : segWriting.buffer_size = 16 := rfl
  have h4 : managerA.manager_id_ = 0 := rfl
  have h5 : segWriting.buffer_count = 2 := rfl
  have g1 : (segReading.buffers 0) = ⟨8, 2, BufferSemaphoreFlags.Reading, 0, 5⟩ := rfl
  have g2 : add64 2 (2 ^ 64 - 2) = 0 := by decide
  have g3 : segReading.buffer_size = 16 := rfl
  have g5 : segReading.buffer_count = 2 := rfl
  refine ⟨by decide, by decide, by decide, ?_, ?_, ?_, ?_, ?_, by decide, by decide, ?_, ?_⟩
  · have e := Write_apply managerA 9 0 src (2 ^ 64 - 4) segWriting (by decide)
    simp only [h1, h2, h3, h4, ne_eq, not_true_eq_false, if_false, gt_iff_lt,
      Nat.not_lt_zero] at e
    refine ⟨_, e, by simp [h1, h3], ?_, ?_⟩
    · simp [Segment.payload, dataStart_, memcpy, h3]
    · simp [memcpy, h3, h5]
  · omega
  · rw [h1, h3]
    simp only [bufferStartOffset]
    omega
  · rw [h1]
    simp only [bufferStartOffset, h3]
    omega
  · rw [h1, h3, h5]
    simp only [bufferStartOffset, dataStartOffset, shmSize, h3, h5]
    omega
  · have e := Read_apply managerA 9 0 dst 0 (2 ^ 64 - 2) segReading (by decide)
    simp only [g1, g2, g3, h4, ne_eq, not_true_eq_false, if_false, gt_iff_lt,
      Nat.not_lt_zero] at e
    refine ⟨_, _, e, ?_⟩
    simp [memcpy, g3, g5]
  · rw [g1, g3, g5]
    simp only [bufferStartOffset, dataStartOffset, shmSize, g3, g5]
    omega

end artdaq
